import Mathlib

/-!
# ESP8266 ASCOM switch firmware: registry, EEPROM codec and REST handlers

A shallow embedding of `Webrelay_eeprom.h` and `ESP8266_relayhandler.h`.

* The globals of the sketch (`numSwitches`, `udpPort`, `switchEntry`, `myHostname`, `thisID`),
  the EEPROM and the log of calls to the port expander form one record, `Device`; every
  function of the sketch is a function on that record.
* `switchEntry` is the list of the allocated entries.  `numSwitches` is a separate `int`, as in
  the sketch, so an index below `numSwitches` but outside the allocation is visible: such an
  access, like a `strcpy` that does not fit its buffer, makes the function return `none`.
* An `int` is an `Int` (32 bit two's complement when stored or converted), a `float` is the
  bit pattern of an IEEE-754 single, a `char` buffer is the list of its bytes before the NUL.
* Declarations of headers that are not part of the two files (`MAX_NAME_LENGTH`, the default
  settings, the EEPROM string helpers, the request helpers) are parameters (`Config`) or are
  modelled from the specification, and are marked so.
-/

namespace AscomSwitch

/-! ## Machine values -/

/-- Contents of a NUL-terminated `char` buffer without the terminator, one number per byte. -/
abbrev CStr := List Nat

/-- The bytes of a string literal. -/
def cstr (s : String) : CStr := s.toList.map Char.toNat

/-- Every element is a byte other than NUL: the list is what a C string can hold. -/
def isCStr (s : CStr) : Prop := ∀ c ∈ s, 0 < c ∧ c < 256

/-- Range of `int` and `long` on the ESP8266. -/
def isInt32 (v : Int) : Prop := -2147483648 ≤ v ∧ v < 2147483648

/-- A `float`, as the bit pattern of an IEEE-754 single. -/
abbrev F32 := Nat

/-- The constant `0.0F`. -/
def f32Zero : F32 := 0

/-- The constant `1.0F`, bit pattern `0x3F800000`. -/
def f32One : F32 := 1065353216

/-- Range of the bit patterns of a `float`. -/
def isF32 (v : F32) : Prop := v < 4294967296

/-- Two's complement bit pattern of an `int`. -/
def intBits (v : Int) : Nat := (v % 4294967296).toNat

/-- The `int` that a 32 bit pattern stands for. -/
def intOfBits (n : Nat) : Int :=
  if n % 4294967296 < 2147483648 then (n % 4294967296 : Nat) else (n % 4294967296 : Nat) - 4294967296

/-- The four bytes of a 32 bit pattern, least significant first (the ESP8266 is little endian). -/
def bytesLE4 (v : Nat) : List Nat :=
  [v % 256, v / 256 % 256, v / 65536 % 256, v / 16777216 % 256]

/-- Decimal digits of a number, as `String::concat(int)` appends them. -/
def decimal (i : Nat) : CStr := (Nat.toDigits 10 i).map Char.toNat

/-! ## Data model -/

/-- Modelled from the spec: `enum SwitchType` is declared in `Webrelay_common.h`, which is not
among the sources; the spec gives the closed variant RelayNO, RelayNC, PWM, DAC, numbered here
in that order.  The field itself is an `int` sized value, since the handlers have `default:`
branches and the codec reads it from raw bytes. -/
def SWITCH_RELAY_NO : Int := 0

/-- Modelled from the spec: second enumerator of `SwitchType` (see `SWITCH_RELAY_NO`). -/
def SWITCH_RELAY_NC : Int := 1

/-- Modelled from the spec: third enumerator of `SwitchType` (see `SWITCH_RELAY_NO`). -/
def SWITCH_PWM : Int := 2

/-- Modelled from the spec: fourth enumerator of `SwitchType` (see `SWITCH_RELAY_NO`). -/
def SWITCH_ANALG_DAC : Int := 3

/-- One channel, the fields of `SwitchEntry` that the two files use. -/
structure SwitchEntry where
  description : CStr
  switchName : CStr
  writeable : Bool
  type : Int
  pin : Int
  min : F32
  max : F32
  step : F32
  value : F32
deriving DecidableEq, Repr

/-- Constants of `Webrelay_common.h`, which is not among the sources. -/
structure Config where
  MAX_NAME_LENGTH : Nat
  defaultNumSwitches : Int
  defaultHostname : CStr
  ALPACA_DISCOVERY_PORT : Int

/-- The EEPROM: one byte per address. -/
abbrev Store := Nat → Nat

/-- The globals of the sketch, the EEPROM, and the calls made to `switchDevice.write`. -/
structure Device where
  eeprom : Store
  numSwitches : Int
  udpPort : Int
  switchEntry : List SwitchEntry
  myHostname : CStr
  thisID : CStr
  hwWrites : List (Int × Nat)

/-- Every field of the entry holds a value of its C type. -/
def SwitchEntry.wellTyped (e : SwitchEntry) : Prop :=
  isCStr e.description ∧ isCStr e.switchName ∧ isInt32 e.type ∧ isInt32 e.pin ∧
  isF32 e.min ∧ isF32 e.max ∧ isF32 e.step ∧ isF32 e.value

/-- Every global holds a value of its C type and `numSwitches` counts the allocated entries. -/
def Device.wellFormed (d : Device) : Prop :=
  d.numSwitches = d.switchEntry.length ∧ isInt32 d.numSwitches ∧ isInt32 d.udpPort ∧
  isCStr d.myHostname ∧ ∀ e ∈ d.switchEntry, e.wellTyped

/-! ## EEPROM primitives -/

/-- The sentinel `const byte magic = '*'`. -/
def magic : Nat := 42

/-- A sequence of `EEPROM.write(address, byte)` calls, in the order they are made. -/
abbrev WriteLog := List (Nat × Nat)

/-- Source: `EEPROM.write`: one cell changes. -/
def eepromWrite (st : Store) (w : Nat × Nat) : Store :=
  fun a => if a = w.1 then w.2 else st a

/-- The store after a sequence of writes. -/
def applyWrites (st : Store) (ws : WriteLog) : Store := ws.foldl eepromWrite st

/-- Writes of consecutive bytes from `addr` upwards, the `EEPROM.write(ee++, *p++)` loop. -/
def writeBlock : Nat → List Nat → WriteLog
  | _, [] => []
  | addr, b :: bs => (addr, b) :: writeBlock (addr + 1) bs

/-- Source: `EEPROMWriteAnything` / `EEPROM.put` of an `int` (also of the `int` sized enum). -/
def writeInt (addr : Nat) (v : Int) : WriteLog := writeBlock addr (bytesLE4 (intBits v))

/-- Source: `EEPROMWriteAnything` of a `float`. -/
def writeFloat (addr : Nat) (v : F32) : WriteLog := writeBlock addr (bytesLE4 v)

/-- Source: `EEPROMWriteAnything` of a `bool`, one byte. -/
def writeBool (addr : Nat) (b : Bool) : WriteLog := [(addr, if b then 1 else 0)]

/-- Modelled from the spec: `EEPROMWriteString` is declared in a header that is not among the
sources.  The spec gives a text field as "fixed-width, zero-padded/truncated to MAX_NAME_LEN,
null-terminated": at most `maxLen - 1` characters, then zeros up to `maxLen` bytes. -/
def stringBytes (maxLen : Nat) (s : CStr) : List Nat :=
  (s.take (maxLen - 1)).map (fun c => c % 256) ++
    List.replicate (maxLen - (s.take (maxLen - 1)).length) 0

/-- Modelled from the spec: the writes of `EEPROMWriteString(addr, s, maxLen)`. -/
def writeString (addr : Nat) (s : CStr) (maxLen : Nat) : WriteLog :=
  writeBlock addr (stringBytes maxLen s)

/-- Source: `EEPROM.get` / `EEPROMReadAnything` of a 32 bit value: four bytes, least significant first. -/
def readWord (st : Store) (addr : Nat) : Nat :=
  st addr + 256 * st (addr + 1) + 65536 * st (addr + 2) + 16777216 * st (addr + 3)

/-- Source: `EEPROM.get` of an `int`. -/
def readInt (st : Store) (addr : Nat) : Int := intOfBits (readWord st addr)

/-- Source: `EEPROMReadAnything` of a `float`. -/
def readFloat (st : Store) (addr : Nat) : F32 := readWord st addr % 4294967296

/-- Source: `EEPROMReadAnything` of a `bool`: the byte is copied, any non-zero byte reads as true. -/
def readBool (st : Store) (addr : Nat) : Bool := st addr != 0

/-- Modelled from the spec: `EEPROMReadString` is declared in a header that is not among the
sources.  It fills a zeroed buffer of `maxLen` bytes from a field of that "statically known
width": the bytes up to the first NUL, at most `maxLen - 1` of them. -/
def readString (st : Store) (addr : Nat) (maxLen : Nat) : CStr :=
  ((List.range (maxLen - 1)).map (fun k => st (addr + k))).takeWhile (fun b => b != 0)

/-- Source: `strcpy` into a zeroed buffer of `cap` bytes; undefined when the source and its terminator
do not fit. -/
def strcpyNew (cap : Nat) (src : CStr) : Option CStr :=
  if src.length < cap then some src else none

/-- Source: `strncpy(dst, src, cap)` into a zeroed buffer of `cap` bytes: the buffer holds a string
only when a terminator is left, otherwise it is the first `cap` characters with no end. -/
def strncpyNew (cap : Nat) (src : CStr) : Option CStr :=
  if src.length < cap then some src else none

/-! ## Webrelay_eeprom.h -/

/-- Bytes one entry takes in the store: type, pin, writeable, min, max, step, value, then the
two text fields.  `sizeof(pin)` is that of an `int`. -/
def entrySize (maxLen : Nat) : Nat := 4 + 4 + 1 + 4 + 4 + 4 + 4 + maxLen + maxLen

/-- Body of the second loop of `setDefaults` for index `i`. -/
def defaultEntry (cfg : Config) (i : Nat) : Option SwitchEntry :=
  match strcpyNew cfg.MAX_NAME_LENGTH (cstr "Default description"),
        strcpyNew cfg.MAX_NAME_LENGTH (cstr "Switch_" ++ decimal i) with
  | some desc, some name =>
      some { description := desc, switchName := name, writeable := true,
             type := SWITCH_RELAY_NO, pin := 0, min := f32Zero, max := f32One,
             step := f32One, value := f32Zero }
  | _, _ => none

/-- The loops of `setDefaults`: `count` entries from index `i` upwards. -/
def defaultEntries (cfg : Config) : Nat → Nat → Option (List SwitchEntry)
  | 0, _ => some []
  | count + 1, i =>
      match defaultEntry cfg i, defaultEntries cfg count (i + 1) with
      | some e, some es => some (e :: es)
      | _, _ => none

/-- Source: `setDefaults`: hostname, id, discovery port and a fresh array of default entries. -/
def setDefaults (cfg : Config) (d : Device) : Option Device :=
  match strcpyNew cfg.MAX_NAME_LENGTH cfg.defaultHostname with
  | none => none
  | some host =>
    match strcpyNew cfg.MAX_NAME_LENGTH host,
          defaultEntries cfg cfg.defaultNumSwitches.toNat 0 with
    | some id, some es =>
        some { d with myHostname := host, thisID := id, udpPort := cfg.ALPACA_DISCOVERY_PORT,
                      numSwitches := cfg.defaultNumSwitches, switchEntry := es }
    | _, _ => none

/-- Body of the loop of `saveToEeprom` for the entry at `addr`. -/
def writeEntry (maxLen : Nat) (addr : Nat) (e : SwitchEntry) : WriteLog :=
  writeInt addr e.type ++ writeInt (addr + 4) e.pin ++ writeBool (addr + 8) e.writeable ++
  writeFloat (addr + 9) e.min ++ writeFloat (addr + 13) e.max ++
  writeFloat (addr + 17) e.step ++ writeFloat (addr + 21) e.value ++
  writeString (addr + 25) e.switchName maxLen ++
  writeString (addr + 25 + maxLen) e.description maxLen

/-- The loop of `saveToEeprom`: `count` more entries are written, the list is the part of
`switchEntry` from the current index on.  Returns the writes and the final `eepromAddr`;
`none` when `switchEntry[i]` is not allocated. -/
def saveLoop (maxLen : Nat) : Nat → Nat → List SwitchEntry → Option (WriteLog × Nat)
  | 0, addr, _ => some ([], addr)
  | _ + 1, _, [] => none
  | count + 1, addr, e :: es =>
      match saveLoop maxLen count (addr + entrySize maxLen) es with
      | some (ws, last) => some (writeEntry maxLen addr e ++ ws, last)
      | none => none

/-- The writes `saveToEeprom` makes, in order: count, port, entries, hostname, and last the
sentinel at address 0. -/
def saveWrites (cfg : Config) (d : Device) : Option WriteLog :=
  match saveLoop cfg.MAX_NAME_LENGTH d.numSwitches.toNat 9 d.switchEntry with
  | some (ws, addr) =>
      some (writeInt 1 d.numSwitches ++ writeInt 5 d.udpPort ++ ws ++
            writeString addr d.myHostname cfg.MAX_NAME_LENGTH ++ [(0, magic)])
  | none => none

/-- Source: `saveToEeprom`. -/
def saveToEeprom (cfg : Config) (d : Device) : Option Device :=
  match saveWrites cfg d with
  | some ws => some { d with eeprom := applyWrites d.eeprom ws }
  | none => none

/-- Body of the loop of `setupFromEeprom`: the fields of one entry are read at `addr`. -/
def readEntry (maxLen : Nat) (st : Store) (addr : Nat) : SwitchEntry :=
  { type := readInt st addr, pin := readInt st (addr + 4), writeable := readBool st (addr + 8),
    min := readFloat st (addr + 9), max := readFloat st (addr + 13),
    step := readFloat st (addr + 17), value := readFloat st (addr + 21),
    switchName := readString st (addr + 25) maxLen,
    description := readString st (addr + 25 + maxLen) maxLen }

/-- The loop of `setupFromEeprom`: `count` more entries are overwritten in place, the list is
the part of `switchEntry` from the current index on.  Returns the entries and the final
`eepromAddr`; `none` when `switchEntry[i]` is not allocated. -/
def readLoop (maxLen : Nat) (st : Store) : Nat → Nat → List SwitchEntry →
    Option (List SwitchEntry × Nat)
  | 0, addr, es => some (es, addr)
  | _ + 1, _, [] => none
  | count + 1, addr, _ :: es =>
      match readLoop maxLen st count (addr + entrySize maxLen) es with
      | some (rs, last) => some (readEntry maxLen st addr :: rs, last)
      | none => none

/-- Source: `setupFromEeprom`. -/
def setupFromEeprom (cfg : Config) (d : Device) : Option Device :=
  if d.eeprom 0 ≠ magic then
    match setDefaults cfg d with
    | some d1 => saveToEeprom cfg d1
    | none => none
  else
    let numSwitches := readInt d.eeprom 1
    let udpPort := readInt d.eeprom 5
    match readLoop cfg.MAX_NAME_LENGTH d.eeprom numSwitches.toNat 9 d.switchEntry with
    | none => none
    | some (es, addr) =>
      let host := readString d.eeprom addr cfg.MAX_NAME_LENGTH
      match strcpyNew cfg.MAX_NAME_LENGTH host with
      | none => none
      | some id =>
          some { d with numSwitches := numSwitches, udpPort := udpPort, switchEntry := es,
                        myHostname := host, thisID := id }

/-! ## ESP8266_relayhandler.h: the registry -/

/-- Source: `initSwitch`: the two texts and six fields are assigned; `pin` is not. -/
def initSwitch (maxLen : Nat) (target : SwitchEntry) : Option SwitchEntry :=
  match strncpyNew maxLen (cstr "Default description"),
        strncpyNew maxLen (cstr "Switch Name") with
  | some desc, some name =>
      some { target with description := desc, switchName := name, writeable := false,
                         type := SWITCH_RELAY_NO, min := f32Zero, max := f32Zero,
                         step := f32One, value := f32Zero }
  | _, _ => none

/-- The growing loop of `reSize`: `count` entries from index `i` upwards.  `malloc` does not
clear the block it returns, so what a new entry holds before `initSwitch` is an input:
`heap i` is the content of the block obtained for index `i`.  The two text buffers come from
`calloc` and start empty. -/
def newEntries (maxLen : Nat) (heap : Nat → SwitchEntry) : Nat → Nat → Option (List SwitchEntry)
  | 0, _ => some []
  | count + 1, i =>
      match initSwitch maxLen { heap i with description := [], switchName := [] },
            newEntries maxLen heap count (i + 1) with
      | some e, some es => some (e :: es)
      | _, _ => none

/-- The loop `for (i = 0; i < n; i++) pse[i] = old[i]`; `none` when `old[i]` is outside the
array. -/
def copyEntries (old : List SwitchEntry) (n : Nat) : Option (List SwitchEntry) :=
  if n ≤ old.length then some (old.take n) else none

/-- Source: `reSize(old, newSize)`, which compares `newSize` with the global `numSwitches`. -/
def reSize (maxLen : Nat) (heap : Nat → SwitchEntry) (numSwitches : Int)
    (old : List SwitchEntry) (newSize : Int) : Option (List SwitchEntry) :=
  if newSize < numSwitches then
    -- the entries from `newSize` to `numSwitches` are freed: they have to exist
    if numSwitches.toNat ≤ old.length then copyEntries old newSize.toNat else none
  else if newSize = numSwitches then
    some old
  else
    match copyEntries old numSwitches.toNat,
          newEntries maxLen heap (newSize.toNat - numSwitches.toNat) numSwitches.toNat with
    | some kept, some fresh => some (kept ++ fresh)
    | _, _ => none

/-! ## ESP8266_relayhandler.h: requests and responses -/

/-- The verbs `server.method()` can return. -/
inductive HTTPMethod
  | HTTP_ANY | HTTP_GET | HTTP_POST | HTTP_PUT | HTTP_PATCH | HTTP_DELETE | HTTP_OPTIONS
deriving DecidableEq, Repr

/-- Number of a verb in the `HTTPMethod` enum of the web server library, as `output +=
server.method()` prints it. -/
def HTTPMethod.number : HTTPMethod → Nat
  | .HTTP_ANY => 0 | .HTTP_GET => 1 | .HTTP_POST => 2 | .HTTP_PUT => 3
  | .HTTP_PATCH => 4 | .HTTP_DELETE => 5 | .HTTP_OPTIONS => 6

/-- What a handler sees of the current request: the verb and the arguments in order. -/
structure Request where
  method : HTTPMethod
  args : List (CStr × CStr)

/-- Source: `tolower` on one byte. -/
def toLowerByte (c : Nat) : Nat := if 65 ≤ c ∧ c ≤ 90 then c + 32 else c

/-- Source: `String::equalsIgnoreCase`. -/
def equalsIgnoreCase (a b : CStr) : Bool := a.map toLowerByte == b.map toLowerByte

/-- Source: `server.arg(name)`: the value of the first argument of that exact name, else the empty
string. -/
def serverArg (req : Request) (name : CStr) : CStr :=
  match req.args.find? (fun p => p.1 == name) with
  | some p => p.2
  | none => []

/-- Modelled from the spec: `hasArgIC` is declared in a header that is not among the sources.
The spec's validation step (a) is "required argument(s) present"; the function is read by its
name and flag: an argument of that name is present, names compared ignoring case unless
`caseSensitive`. -/
def hasArgIC (name : CStr) (req : Request) (caseSensitive : Bool) : Bool :=
  if caseSensitive then req.args.any (fun p => p.1 == name)
  else req.args.any (fun p => equalsIgnoreCase p.1 name)

/-- Source: `isspace`. -/
def isSpaceByte (c : Nat) : Bool := c == 32 || (9 ≤ c && c ≤ 13)

/-- Source: `isdigit`. -/
def isDigitByte (c : Nat) : Bool := 48 ≤ c && c ≤ 57

/-- Value of a run of decimal digits. -/
def digitsValue (ds : List Nat) : Nat := ds.foldl (fun acc c => 10 * acc + (c - 48)) 0

/-- Source: `String::toInt`, that is `atol`: blanks, a sign, digits; anything else ends the number,
no digit gives 0, and a number outside the range of `long` gives the nearest bound. -/
def toInt (s : CStr) : Int :=
  let body := s.dropWhile isSpaceByte
  match body with
  | 45 :: rest => max (-2147483648) (-(digitsValue (rest.takeWhile isDigitByte) : Int))
  | 43 :: rest => min 2147483647 (digitsValue (rest.takeWhile isDigitByte) : Int)
  | _ => min 2147483647 (digitsValue (body.takeWhile isDigitByte) : Int)

/-- A value inside an entry of the `switches` array of the status response. -/
inductive JsonScalar
  | int (v : Int)
  | bool (b : Bool)
  | str (s : CStr)
  | float (bits : F32)
deriving DecidableEq, Repr

/-- A value stored in the JSON response; `array` is a nested array of objects. -/
inductive JsonValue
  | int (v : Int)
  | bool (b : Bool)
  | str (s : CStr)
  | float (bits : F32)
  | array (items : List (List (String × JsonScalar)))
deriving DecidableEq, Repr

/-- A JSON object: keys in insertion order. -/
abbrev JsonObject := List (String × JsonValue)

/-- The assignment `root[key] = v`: replaces the value of an existing key, else appends. -/
def jsonSet (o : JsonObject) (key : String) (v : JsonValue) : JsonObject :=
  if o.any (fun p => p.1 == key) then o.map (fun p => if p.1 == key then (key, v) else p)
  else o ++ [(key, v)]

/-- Lookup `root[key]`. -/
def jsonGet (o : JsonObject) (key : String) : Option JsonValue :=
  (o.find? (fun p => p.1 == key)).map (fun p => p.2)

/-- Modelled from the spec: `Success` of `AlpacaErrorConsts.h`, which is not among the sources;
the handlers pass `0` and `Success` interchangeably. -/
def Success : Int := 0

/-- Modelled from the spec: `invalidValue` of `AlpacaErrorConsts.h`, which is not among the
sources; the spec names the error kind `InvalidValue`, the number is the ASCOM one (0x401). -/
def invalidValue : Int := 1025

/-- Modelled from the spec: `invalidOperation` of `AlpacaErrorConsts.h`, which is not among the
sources; the spec names the error kind `InvalidOperation`, the number is the ASCOM one
(0x40B). -/
def invalidOperation : Int := 1035

/-- Modelled from the spec: `jsonResponseBuilder` is declared in a header that is not among the
sources.  The spec: the "response envelope always carries echoed client/transaction
identifiers plus, on failure, an error code and message". -/
def jsonResponseBuilder (clientID transID : Nat) (name : String) (errCode : Int)
    (errMsg : CStr) : JsonObject :=
  [("ClientID", .int clientID), ("ClientTransactionID", .int transID),
   ("Method", .str (cstr name)), ("ErrorNumber", .int errCode), ("ErrorMessage", .str errMsg)]

/-- The call `server.send(code, "text/json", message)`.  `message` is `none` for the empty
string (nothing was printed into it), else the object that `root.printTo` printed. -/
structure Response where
  code : Int
  message : Option JsonObject
deriving DecidableEq, Repr

/-- Source: `(uint32_t) server.arg("ClientID").toInt()`. -/
def clientIDOf (req : Request) : Nat := intBits (toInt (serverArg req (cstr "ClientID")))

/-- Source: `(uint32_t) server.arg("ClientTransactionID").toInt()`. -/
def transIDOf (req : Request) : Nat :=
  intBits (toInt (serverArg req (cstr "ClientTransactionID")))

/-- The assignments `root["ErrorMessage"] = msg; root["ErrorNumber"] = err`. -/
def withError (root : JsonObject) (err : Int) (msg : CStr) : JsonObject :=
  jsonSet (jsonSet root "ErrorMessage" (.str msg)) "ErrorNumber" (.int err)

/-- Comparison `x == 1.0F` on floats: 1.0 has one bit pattern. -/
def f32IsOne (x : F32) : Bool := x == f32One

/-- NaN: exponent all ones, fraction not zero. -/
def f32IsNaN (x : F32) : Bool := x / 8388608 % 256 == 255 && x % 8388608 != 0

/-- Sign and magnitude as an ordered integer; the two zeros coincide. -/
def f32Key (x : F32) : Int :=
  if x / 2147483648 % 2 = 1 then -((x % 2147483648 : Nat) : Int) else ((x % 2147483648 : Nat) : Int)

/-- Comparison `a <= b` on floats: false when either is NaN. -/
def f32Le (a b : F32) : Bool := !f32IsNaN a && !f32IsNaN b && decide (f32Key a ≤ f32Key b)

/-! ## ESP8266_relayhandler.h: the handlers

Each handler returns the device after the request and the one response it sends; `none` when
it indexes `switchEntry` outside the allocation. -/

/-- Source: `handlerMaxswitch`. -/
def handlerMaxswitch (d : Device) (req : Request) : Option (Device × Response) :=
  let root := jsonResponseBuilder (clientIDOf req) (transIDOf req) "MaxSwitch" Success []
  some (d, { code := 200, message := some (jsonSet root "Value" (.int d.numSwitches)) })

/-- Source: `handlerCanWrite`. -/
def handlerCanWrite (d : Device) (req : Request) : Option (Device × Response) :=
  let root := jsonResponseBuilder (clientIDOf req) (transIDOf req) "CanWrite" Success []
  if hasArgIC (cstr "Id") req false then
    let switchID := toInt (serverArg req (cstr "Id"))
    if 0 ≤ switchID ∧ switchID < d.numSwitches then
      match d.switchEntry[switchID.toNat]? with
      | none => none
      | some e => some (d, { code := 200, message := some (jsonSet root "Value" (.bool e.writeable)) })
    else
      some (d, { code := 400,
                 message := some (withError root invalidValue (cstr "Argument switch Id out of range")) })
  else
    some (d, { code := 400,
               message := some (withError root invalidOperation (cstr "Missing switchID argument")) })

/-- Source: `handlerSwitchState`.  On a missing `Id` the handler sends `message` before anything was
printed into it. -/
def handlerSwitchState (d : Device) (req : Request) : Option (Device × Response) :=
  let root := jsonResponseBuilder (clientIDOf req) (transIDOf req) "SwitchState" Success []
  if hasArgIC (cstr "Id") req false then
    let switchID := toInt (serverArg req (cstr "Id"))
    if 0 ≤ switchID ∧ switchID < d.numSwitches then
      if req.method = .HTTP_GET then
        match d.switchEntry[switchID.toNat]? with
        | none => none
        | some e =>
          if e.type = SWITCH_RELAY_NO ∨ e.type = SWITCH_RELAY_NC then
            some (d, { code := 200,
                       message := some (jsonSet root "Value" (.bool (f32IsOne e.value))) })
          else
            some (d, { code := 400,
                       message := some (withError root invalidValue
                         (cstr "Invalid state retrieval for switch type - not boolean")) })
      else if req.method = .HTTP_PUT ∧ hasArgIC (cstr "State") req false = true then
        match d.switchEntry[switchID.toNat]? with
        | none => none
        | some e =>
          if e.type = SWITCH_RELAY_NO ∨ e.type = SWITCH_RELAY_NC then
            let newState := equalsIgnoreCase (serverArg req (cstr "State")) (cstr "true")
            some ({ d with hwWrites := d.hwWrites ++ [(switchID, if newState then 1 else 0)],
                           switchEntry := d.switchEntry.set switchID.toNat
                             { e with value := if newState then f32One else f32Zero } },
                  { code := 200, message := some root })
          else
            some (d, { code := 400,
                       message := some (withError root invalidOperation
                         (cstr "Invalid state for non-boolean switch type")) })
      else
        some (d, { code := 400,
                   message := some (withError root invalidOperation
                     (cstr "http verb:" ++ decimal req.method.number ++ cstr " not available")) })
    else
      some (d, { code := 400,
                 message := some (withError root invalidValue (cstr "Invalid switch ID as argument")) })
  else
    some (d, { code := 400, message := none })

/-- Source: `handlerSwitchDescription`. -/
def handlerSwitchDescription (d : Device) (req : Request) : Option (Device × Response) :=
  let root := jsonResponseBuilder (clientIDOf req) (transIDOf req) "SwitchDescription" Success []
  if hasArgIC (cstr "Id") req false then
    let switchID := toInt (serverArg req (cstr "Id"))
    if 0 ≤ switchID ∧ switchID < d.numSwitches then
      match d.switchEntry[switchID.toNat]? with
      | none => none
      | some e => some (d, { code := 200, message := some (jsonSet root "Value" (.str e.description)) })
    else
      some (d, { code := 400,
                 message := some (withError root invalidValue (cstr "Out of range argument: switchID")) })
  else
    some (d, { code := 400,
               message := some (withError root invalidOperation (cstr "Missing argument: switchID")) })

/-- Source: `handlerSwitchName`. -/
def handlerSwitchName (cfg : Config) (d : Device) (req : Request) : Option (Device × Response) :=
  let root := jsonResponseBuilder (clientIDOf req) (transIDOf req) "SwitchName" Success []
  if hasArgIC (cstr "Id") req false then
    let switchID := toInt (serverArg req (cstr "Id"))
    if 0 ≤ switchID ∧ switchID < d.numSwitches then
      if req.method = .HTTP_GET then
        match d.switchEntry[switchID.toNat]? with
        | none => none
        | some e =>
          some (d, { code := 200, message := some (jsonSet root "Value" (.str e.switchName)) })
      else if req.method = .HTTP_PUT ∧ hasArgIC (cstr "Name") req false = true then
        let sLen : Int := (serverArg req (cstr "Name")).length
        if sLen > (cfg.MAX_NAME_LENGTH : Int) - 1 then
          some (d, { code := 400,
                     message := some (withError root invalidValue (cstr "Switch name too long")) })
        else
          match d.switchEntry[switchID.toNat]?,
                strcpyNew cfg.MAX_NAME_LENGTH (serverArg req (cstr "Name")) with
          | some e, some name =>
            some ({ d with switchEntry := d.switchEntry.set switchID.toNat
                             { e with switchName := name } },
                  { code := 200, message := some root })
          | _, _ => none
      else
        some (d, { code := 400,
                   message := some (withError root invalidOperation (cstr "Invalid HTTP verb found")) })
    else
      some (d, { code := 400,
                 message := some (withError root invalidValue
                   (cstr "Invalid switch ID - outside range")) })
  else
    some (d, { code := 400,
               message := some (withError root invalidOperation (cstr "Missing switch ID")) })

/-- The two `case` bodies of `handlerSwitchValue` for PWM and DAC on a PUT: the value is stored
when it lies between `min` and `max`, and the answer is 200 either way. -/
def storeIfInRange (d : Device) (i : Nat) (e : SwitchEntry) (value : F32) : Device :=
  if f32Le e.min value && f32Le value e.max then
    { d with switchEntry := d.switchEntry.set i { e with value := value } }
  else d

/-- Source: `handlerSwitchValue`; `switchID` is a `uint32_t`.  `toFloat` is
`(float) String::toDouble()` of the C library. -/
def handlerSwitchValue (toFloat : CStr → F32) (d : Device) (req : Request) :
    Option (Device × Response) :=
  let root := jsonResponseBuilder (clientIDOf req) (transIDOf req) "SwitchValue" 0 []
  if hasArgIC (cstr "Id") req false then
    let switchID : Nat := intBits (toInt (serverArg req (cstr "Id")))
    if switchID < intBits d.numSwitches then
      if req.method = .HTTP_GET then
        match d.switchEntry[switchID]? with
        | none => none
        | some e =>
          if e.type = SWITCH_PWM ∨ e.type = SWITCH_ANALG_DAC then
            some (d, { code := 200, message := some (jsonSet root "Value" (.float e.value)) })
          else if e.type = SWITCH_RELAY_NO ∨ e.type = SWITCH_RELAY_NC then
            some (d, { code := 400,
                       message := some (withError root invalidOperation
                         (cstr "Invalid analogue operation for binary/boolean switch type")) })
          else
            some (d, { code := 200, message := some root })
      else if req.method = .HTTP_PUT ∧ hasArgIC (cstr "Value") req false = true then
        let value := toFloat (serverArg req (cstr "Value"))
        match d.switchEntry[switchID]? with
        | none => none
        | some e =>
          if e.type = SWITCH_PWM then
            some (storeIfInRange d switchID e value, { code := 200, message := some root })
          else if e.type = SWITCH_RELAY_NO ∨ e.type = SWITCH_RELAY_NC then
            some (d, { code := 400,
                       message := some (withError root invalidOperation
                         (cstr "Invalid analogue operation for binary/boolean switch type")) })
          else if e.type = SWITCH_ANALG_DAC then
            some (storeIfInRange d switchID e value, { code := 200, message := some root })
          else
            some (d, { code := 200, message := some root })
      else
        some (d, { code := 400,
                   message := some (withError root invalidOperation
                     (cstr "Invalid HTTP verb method for this URI or missing output value")) })
    else
      some (d, { code := 400,
                 message := some (withError root invalidValue (cstr "SwitchID value out of range.")) })
  else
    some (d, { code := 400,
               message := some (withError root invalidValue (cstr "Missing argument - switchID ")) })

/-- Source: `handlerMinSwitchValue`; the argument name it looks for is `"id"`. -/
def handlerMinSwitchValue (d : Device) (req : Request) : Option (Device × Response) :=
  let root := jsonResponseBuilder (clientIDOf req) (transIDOf req) "MinSwitchValue" Success []
  if hasArgIC (cstr "id") req false then
    let switchID := toInt (serverArg req (cstr "id"))
    if 0 ≤ switchID ∧ switchID < d.numSwitches then
      match d.switchEntry[switchID.toNat]? with
      | none => none
      | some e => some (d, { code := 200, message := some (jsonSet root "Value" (.float e.min)) })
    else
      some (d, { code := 400,
                 message := some (withError root invalidValue (cstr "SwitchID value out of range.")) })
  else
    some (d, { code := 400,
               message := some (withError root invalidOperation (cstr "SwitchID argument missing .")) })

/-- Source: `handlerMaxSwitchValue`; the result goes into `root["value"]`. -/
def handlerMaxSwitchValue (d : Device) (req : Request) : Option (Device × Response) :=
  let root := jsonResponseBuilder (clientIDOf req) (transIDOf req) "MaxSwitchValue" 0 []
  if hasArgIC (cstr "Id") req false then
    let switchID := toInt (serverArg req (cstr "Id"))
    if 0 ≤ switchID ∧ switchID < d.numSwitches then
      match d.switchEntry[switchID.toNat]? with
      | none => none
      | some e => some (d, { code := 200, message := some (jsonSet root "value" (.float e.max)) })
    else
      some (d, { code := 400,
                 message := some (withError root invalidValue (cstr "SwitchID value out of range.")) })
  else
    some (d, { code := 400,
               message := some (withError root invalidOperation (cstr "Missing switchID argument.")) })

/-- Source: `handlerSwitchStep`; `switchID` is a `uint32_t` and the result goes into `root["value"]`. -/
def handlerSwitchStep (d : Device) (req : Request) : Option (Device × Response) :=
  let root := jsonResponseBuilder (clientIDOf req) (transIDOf req) "SwitchStep" 0 []
  if hasArgIC (cstr "Id") req false then
    let switchID : Nat := intBits (toInt (serverArg req (cstr "Id")))
    if switchID < intBits d.numSwitches then
      match d.switchEntry[switchID]? with
      | none => none
      | some e => some (d, { code := 200, message := some (jsonSet root "value" (.float e.step)) })
    else
      some (d, { code := 400,
                 message := some (withError root invalidValue (cstr "SwitchID out of range.")) })
  else
    some (d, { code := 400,
               message := some (withError root invalidOperation (cstr "Missing switchID argument.")) })

/-- The switch-scoped endpoints. -/
inductive Endpoint
  | canwrite | switchstate | switchdescription | switchname | switchvalue
  | minswitchvalue | maxswitchvalue | switchstep
deriving DecidableEq, Repr

/-- The handler registered for an endpoint. -/
def Endpoint.handler (cfg : Config) (toFloat : CStr → F32) :
    Endpoint → Device → Request → Option (Device × Response)
  | .canwrite => handlerCanWrite
  | .switchstate => handlerSwitchState
  | .switchdescription => handlerSwitchDescription
  | .switchname => handlerSwitchName cfg
  | .switchvalue => handlerSwitchValue toFloat
  | .minswitchvalue => handlerMinSwitchValue
  | .maxswitchvalue => handlerMaxSwitchValue
  | .switchstep => handlerSwitchStep

/-! ## The handlers with `hasArgIC` left open

`hasArgIC` is not among the sources.  Below, a call `hasArgIC(name, server, caseSensitive)` is
a parameter `look name req caseSensitive`: it gives the result of the call and the text that
the variable `name` holds after it, which is the name `server.arg` is then asked for.  The
handlers above are the case in which the call leaves the name as it is. -/

/-- What a call of `hasArgIC` gives back: its result, and the text of the name variable after
the call. -/
abbrev ArgLookup := CStr → Request → Bool → Bool × CStr

/-- The reading of `hasArgIC` used by the handlers above: a presence test that leaves the
name as it is. -/
def presenceTest : ArgLookup := fun name req caseSensitive =>
  (hasArgIC name req caseSensitive, name)

/-- A helper that compares names ignoring case and hands back the name as the request
spells it. -/
def matchedName : ArgLookup := fun name req caseSensitive =>
  if caseSensitive then (req.args.any (fun p => p.1 == name), name)
  else
    match req.args.find? (fun p => equalsIgnoreCase p.1 name) with
    | some p => (true, p.1)
    | none => (false, name)

/-- Source: `handlerCanWrite`, with `hasArgIC` as the parameter `look`. -/
def handlerCanWriteWith (look : ArgLookup) (d : Device) (req : Request) :
    Option (Device × Response) :=
  let root := jsonResponseBuilder (clientIDOf req) (transIDOf req) "CanWrite" Success []
  let idArg := look (cstr "Id") req false
  if idArg.1 then
    let switchID := toInt (serverArg req idArg.2)
    if 0 ≤ switchID ∧ switchID < d.numSwitches then
      match d.switchEntry[switchID.toNat]? with
      | none => none
      | some e => some (d, { code := 200, message := some (jsonSet root "Value" (.bool e.writeable)) })
    else
      some (d, { code := 400,
                 message := some (withError root invalidValue (cstr "Argument switch Id out of range")) })
  else
    some (d, { code := 400,
               message := some (withError root invalidOperation (cstr "Missing switchID argument")) })

/-- Source: `handlerSwitchState`, with `hasArgIC` as the parameter `look`. -/
def handlerSwitchStateWith (look : ArgLookup) (d : Device) (req : Request) :
    Option (Device × Response) :=
  let root := jsonResponseBuilder (clientIDOf req) (transIDOf req) "SwitchState" Success []
  let idArg := look (cstr "Id") req false
  if idArg.1 then
    let switchID := toInt (serverArg req idArg.2)
    if 0 ≤ switchID ∧ switchID < d.numSwitches then
      if req.method = .HTTP_GET then
        match d.switchEntry[switchID.toNat]? with
        | none => none
        | some e =>
          if e.type = SWITCH_RELAY_NO ∨ e.type = SWITCH_RELAY_NC then
            some (d, { code := 200,
                       message := some (jsonSet root "Value" (.bool (f32IsOne e.value))) })
          else
            some (d, { code := 400,
                       message := some (withError root invalidValue
                         (cstr "Invalid state retrieval for switch type - not boolean")) })
      else if req.method = .HTTP_PUT ∧ (look (cstr "State") req false).1 = true then
        match d.switchEntry[switchID.toNat]? with
        | none => none
        | some e =>
          if e.type = SWITCH_RELAY_NO ∨ e.type = SWITCH_RELAY_NC then
            let newState :=
              equalsIgnoreCase (serverArg req (look (cstr "State") req false).2) (cstr "true")
            some ({ d with hwWrites := d.hwWrites ++ [(switchID, if newState then 1 else 0)],
                           switchEntry := d.switchEntry.set switchID.toNat
                             { e with value := if newState then f32One else f32Zero } },
                  { code := 200, message := some root })
          else
            some (d, { code := 400,
                       message := some (withError root invalidOperation
                         (cstr "Invalid state for non-boolean switch type")) })
      else
        some (d, { code := 400,
                   message := some (withError root invalidOperation
                     (cstr "http verb:" ++ decimal req.method.number ++ cstr " not available")) })
    else
      some (d, { code := 400,
                 message := some (withError root invalidValue (cstr "Invalid switch ID as argument")) })
  else
    some (d, { code := 400, message := none })

/-- Source: `handlerSwitchDescription`, with `hasArgIC` as the parameter `look`. -/
def handlerSwitchDescriptionWith (look : ArgLookup) (d : Device) (req : Request) :
    Option (Device × Response) :=
  let root := jsonResponseBuilder (clientIDOf req) (transIDOf req) "SwitchDescription" Success []
  let idArg := look (cstr "Id") req false
  if idArg.1 then
    let switchID := toInt (serverArg req idArg.2)
    if 0 ≤ switchID ∧ switchID < d.numSwitches then
      match d.switchEntry[switchID.toNat]? with
      | none => none
      | some e => some (d, { code := 200, message := some (jsonSet root "Value" (.str e.description)) })
    else
      some (d, { code := 400,
                 message := some (withError root invalidValue (cstr "Out of range argument: switchID")) })
  else
    some (d, { code := 400,
               message := some (withError root invalidOperation (cstr "Missing argument: switchID")) })

/-- Source: `handlerSwitchName`, with `hasArgIC` as the parameter `look`. -/
def handlerSwitchNameWith (look : ArgLookup) (cfg : Config) (d : Device) (req : Request) :
    Option (Device × Response) :=
  let root := jsonResponseBuilder (clientIDOf req) (transIDOf req) "SwitchName" Success []
  let idArg := look (cstr "Id") req false
  if idArg.1 then
    let switchID := toInt (serverArg req idArg.2)
    if 0 ≤ switchID ∧ switchID < d.numSwitches then
      if req.method = .HTTP_GET then
        match d.switchEntry[switchID.toNat]? with
        | none => none
        | some e =>
          some (d, { code := 200, message := some (jsonSet root "Value" (.str e.switchName)) })
      else if req.method = .HTTP_PUT ∧ (look (cstr "Name") req false).1 = true then
        let newName := serverArg req (look (cstr "Name") req false).2
        let sLen : Int := newName.length
        if sLen > (cfg.MAX_NAME_LENGTH : Int) - 1 then
          some (d, { code := 400,
                     message := some (withError root invalidValue (cstr "Switch name too long")) })
        else
          match d.switchEntry[switchID.toNat]?, strcpyNew cfg.MAX_NAME_LENGTH newName with
          | some e, some name =>
            some ({ d with switchEntry := d.switchEntry.set switchID.toNat
                             { e with switchName := name } },
                  { code := 200, message := some root })
          | _, _ => none
      else
        some (d, { code := 400,
                   message := some (withError root invalidOperation (cstr "Invalid HTTP verb found")) })
    else
      some (d, { code := 400,
                 message := some (withError root invalidValue
                   (cstr "Invalid switch ID - outside range")) })
  else
    some (d, { code := 400,
               message := some (withError root invalidOperation (cstr "Missing switch ID")) })

/-- Source: `handlerSwitchValue`, with `hasArgIC` as the parameter `look`; `switchID` is a
`uint32_t`. -/
def handlerSwitchValueWith (look : ArgLookup) (toFloat : CStr → F32) (d : Device)
    (req : Request) : Option (Device × Response) :=
  let root := jsonResponseBuilder (clientIDOf req) (transIDOf req) "SwitchValue" 0 []
  let idArg := look (cstr "Id") req false
  if idArg.1 then
    let switchID : Nat := intBits (toInt (serverArg req idArg.2))
    if switchID < intBits d.numSwitches then
      if req.method = .HTTP_GET then
        match d.switchEntry[switchID]? with
        | none => none
        | some e =>
          if e.type = SWITCH_PWM ∨ e.type = SWITCH_ANALG_DAC then
            some (d, { code := 200, message := some (jsonSet root "Value" (.float e.value)) })
          else if e.type = SWITCH_RELAY_NO ∨ e.type = SWITCH_RELAY_NC then
            some (d, { code := 400,
                       message := some (withError root invalidOperation
                         (cstr "Invalid analogue operation for binary/boolean switch type")) })
          else
            some (d, { code := 200, message := some root })
      else if req.method = .HTTP_PUT ∧ (look (cstr "Value") req false).1 = true then
        let value := toFloat (serverArg req (look (cstr "Value") req false).2)
        match d.switchEntry[switchID]? with
        | none => none
        | some e =>
          if e.type = SWITCH_PWM then
            some (storeIfInRange d switchID e value, { code := 200, message := some root })
          else if e.type = SWITCH_RELAY_NO ∨ e.type = SWITCH_RELAY_NC then
            some (d, { code := 400,
                       message := some (withError root invalidOperation
                         (cstr "Invalid analogue operation for binary/boolean switch type")) })
          else if e.type = SWITCH_ANALG_DAC then
            some (storeIfInRange d switchID e value, { code := 200, message := some root })
          else
            some (d, { code := 200, message := some root })
      else
        some (d, { code := 400,
                   message := some (withError root invalidOperation
                     (cstr "Invalid HTTP verb method for this URI or missing output value")) })
    else
      some (d, { code := 400,
                 message := some (withError root invalidValue (cstr "SwitchID value out of range.")) })
  else
    some (d, { code := 400,
               message := some (withError root invalidValue (cstr "Missing argument - switchID ")) })

/-- Source: `handlerMinSwitchValue`, with `hasArgIC` as the parameter `look`; the argument
name it looks for is `"id"`. -/
def handlerMinSwitchValueWith (look : ArgLookup) (d : Device) (req : Request) :
    Option (Device × Response) :=
  let root := jsonResponseBuilder (clientIDOf req) (transIDOf req) "MinSwitchValue" Success []
  let idArg := look (cstr "id") req false
  if idArg.1 then
    let switchID := toInt (serverArg req idArg.2)
    if 0 ≤ switchID ∧ switchID < d.numSwitches then
      match d.switchEntry[switchID.toNat]? with
      | none => none
      | some e => some (d, { code := 200, message := some (jsonSet root "Value" (.float e.min)) })
    else
      some (d, { code := 400,
                 message := some (withError root invalidValue (cstr "SwitchID value out of range.")) })
  else
    some (d, { code := 400,
               message := some (withError root invalidOperation (cstr "SwitchID argument missing .")) })

/-- Source: `handlerMaxSwitchValue`, with `hasArgIC` as the parameter `look`. -/
def handlerMaxSwitchValueWith (look : ArgLookup) (d : Device) (req : Request) :
    Option (Device × Response) :=
  let root := jsonResponseBuilder (clientIDOf req) (transIDOf req) "MaxSwitchValue" 0 []
  let idArg := look (cstr "Id") req false
  if idArg.1 then
    let switchID := toInt (serverArg req idArg.2)
    if 0 ≤ switchID ∧ switchID < d.numSwitches then
      match d.switchEntry[switchID.toNat]? with
      | none => none
      | some e => some (d, { code := 200, message := some (jsonSet root "value" (.float e.max)) })
    else
      some (d, { code := 400,
                 message := some (withError root invalidValue (cstr "SwitchID value out of range.")) })
  else
    some (d, { code := 400,
               message := some (withError root invalidOperation (cstr "Missing switchID argument.")) })

/-- Source: `handlerSwitchStep`, with `hasArgIC` as the parameter `look`; `switchID` is a
`uint32_t`. -/
def handlerSwitchStepWith (look : ArgLookup) (d : Device) (req : Request) :
    Option (Device × Response) :=
  let root := jsonResponseBuilder (clientIDOf req) (transIDOf req) "SwitchStep" 0 []
  let idArg := look (cstr "Id") req false
  if idArg.1 then
    let switchID : Nat := intBits (toInt (serverArg req idArg.2))
    if switchID < intBits d.numSwitches then
      match d.switchEntry[switchID]? with
      | none => none
      | some e => some (d, { code := 200, message := some (jsonSet root "value" (.float e.step)) })
    else
      some (d, { code := 400,
                 message := some (withError root invalidValue (cstr "SwitchID out of range.")) })
  else
    some (d, { code := 400,
               message := some (withError root invalidOperation (cstr "Missing switchID argument.")) })

/-- The handler registered for an endpoint, with `hasArgIC` as the parameter `look`. -/
def Endpoint.handlerWith (look : ArgLookup) (cfg : Config) (toFloat : CStr → F32) :
    Endpoint → Device → Request → Option (Device × Response)
  | .canwrite => handlerCanWriteWith look
  | .switchstate => handlerSwitchStateWith look
  | .switchdescription => handlerSwitchDescriptionWith look
  | .switchname => handlerSwitchNameWith look cfg
  | .switchvalue => handlerSwitchValueWith look toFloat
  | .minswitchvalue => handlerMinSwitchValueWith look
  | .maxswitchvalue => handlerMaxSwitchValueWith look
  | .switchstep => handlerSwitchStepWith look

/-- The name under which the handler of an endpoint looks for the identifier: `"id"` in
`handlerMinSwitchValue`, `"Id"` in the seven others. -/
def Endpoint.idKey : Endpoint → CStr
  | .minswitchvalue => cstr "id"
  | _ => cstr "Id"

/-- The error number the response carries: `ErrorNumber` of the body that was sent, nothing
when the body is empty. -/
def Response.errorNumber (r : Response) : Option JsonValue :=
  match r.message with
  | none => none
  | some root => jsonGet root "ErrorNumber"

/-- Source: `handlerSwitchType`, the non-ASCOM handler; the new type is read from the argument
`Name`. -/
def handlerSwitchType (d : Device) (req : Request) : Option (Device × Response) :=
  let root := jsonResponseBuilder (clientIDOf req) (transIDOf req) "SwitchType" 0 []
  if hasArgIC (cstr "Id") req false then
    let switchID := toInt (serverArg req (cstr "Id"))
    if 0 ≤ switchID ∧ switchID < d.numSwitches then
      if req.method = .HTTP_GET then
        match d.switchEntry[switchID.toNat]? with
        | none => none
        | some e => some (d, { code := 200, message := some (jsonSet root "Value" (.int e.type)) })
      else if req.method = .HTTP_PUT ∧ hasArgIC (cstr "Name") req false = true then
        let newType := toInt (serverArg req (cstr "Name"))
        if newType = SWITCH_RELAY_NO ∨ newType = SWITCH_RELAY_NC ∨
            newType = SWITCH_ANALG_DAC ∨ newType = SWITCH_PWM then
          match d.switchEntry[switchID.toNat]? with
          | none => none
          | some e =>
            some ({ d with switchEntry := d.switchEntry.set switchID.toNat
                             { e with type := newType } },
                  { code := 200, message := some root })
        else
          some (d, { code := 400,
                     message := some (withError root invalidValue
                       (cstr "Invalid switch type not found ")) })
      else
        some (d, { code := 400,
                   message := some (withError root invalidOperation
                     (cstr "Invalid HTTP verb or arguments found")) })
    else
      some (d, { code := 400,
                 message := some (withError root invalidValue
                   (cstr "Argument switchID out of range")) })
  else
    some (d, { code := 400,
               message := some (withError root invalidValue (cstr "Missing switchID argument")) })

/-- The object `handlerStatus` adds to the `switches` array for one entry. -/
def statusEntry (e : SwitchEntry) : List (String × JsonScalar) :=
  [("description", .str e.description), ("name", .str e.switchName), ("type", .int e.type),
   ("pin", .int e.pin), ("writeable", .bool e.writeable), ("min", .float e.min),
   ("max", .float e.max), ("step", .float e.step)] ++
  (if e.type = SWITCH_RELAY_NO ∨ e.type = SWITCH_RELAY_NC then
     [("state", .bool (f32IsOne e.value))]
   else [("value", .float e.value)])

/-- The loop of `handlerStatus`: `count` more entries are listed, the list is the part of
`switchEntry` from the current index on; `none` when `switchEntry[i]` is not allocated. -/
def statusLoop : Nat → List SwitchEntry → Option (List (List (String × JsonScalar)))
  | 0, _ => some []
  | _ + 1, [] => none
  | count + 1, e :: es =>
      match statusLoop count es with
      | some rest => some (statusEntry e :: rest)
      | none => none

/-- Source: `handlerStatus`.  `returnCode` starts at 400 and is not assigned again; `time` is
what `getTimeAsString` returns. -/
def handlerStatus (time : CStr) (d : Device) (req : Request) : Option (Device × Response) :=
  match statusLoop d.numSwitches.toNat d.switchEntry with
  | none => none
  | some entries =>
    let root : JsonObject :=
      ("switches", .array entries) ::
        jsonResponseBuilder (clientIDOf req) (transIDOf req) "Status" 0 []
    some (d, { code := 400,
               message := some (jsonSet (jsonSet root "time" (.str time)) "host"
                 (.str d.myHostname)) })

/-- Every handler of the REST interface that the two files define for the switch. -/
inductive Route
  | endpoint (ep : Endpoint)
  | maxswitch
  | switchtype
  | status
deriving DecidableEq, Repr

/-- The handler registered for a route. -/
def Route.handler (cfg : Config) (toFloat : CStr → F32) (time : CStr) :
    Route → Device → Request → Option (Device × Response)
  | .endpoint ep => ep.handler cfg toFloat
  | .maxswitch => handlerMaxswitch
  | .switchtype => handlerSwitchType
  | .status => handlerStatus time

/-- The response carries one of the two errors of the interface. -/
def Response.carriesError (r : Response) : Prop :=
  r.errorNumber = some (.int invalidValue) ∨ r.errorNumber = some (.int invalidOperation)

/-- The requests of a session, run in order from a device state; `none` as soon as a handler
has no result. -/
def runRequests (cfg : Config) (toFloat : CStr → F32) (time : CStr) :
    List (Route × Request) → Device → Option Device
  | [], d => some d
  | (route, req) :: rest, d =>
      match route.handler cfg toFloat time d req with
      | some (d1, _) => runRequests cfg toFloat time rest d1
      | none => none

/-! ## ESP8266_relayhandler.h: copySwitch, the name buffer, getUriField -/

/-- Source: `copySwitch(sourceSe, targetSe)`.  The two texts go through `strncpy` into the
buffers of the target, six fields are assigned, `type` is assigned the constant
`SWITCH_RELAY_NO`, and `pin` is not assigned.  Returns the source and the target after the
call; `none` when a text does not leave room for its terminator. -/
def copySwitch (maxLen : Nat) (sourceSe targetSe : SwitchEntry) :
    Option (SwitchEntry × SwitchEntry) :=
  match strncpyNew maxLen sourceSe.description, strncpyNew maxLen sourceSe.switchName with
  | some desc, some name =>
      some (sourceSe,
            { targetSe with description := desc, switchName := name,
                            writeable := sourceSe.writeable, type := SWITCH_RELAY_NO,
                            min := sourceSe.min, max := sourceSe.max, step := sourceSe.step,
                            value := sourceSe.value })
  | _, _ => none

/-- What the pointer `switchEntry[id]->switchName` refers to at one moment. -/
inductive NameBuffer
  | null
  | released
  | live (content : CStr)
deriving DecidableEq, Repr

/-- The three statements of `handlerSwitchName` that replace the name, in source order, as
the states of the pointer after each of them: `if (name != nullptr) free(name)`, then
`name = calloc(MAX_NAME_LENGTH, 1)`, then `strcpy(name, arg)`.  `none` when the argument
does not fit the new buffer. -/
def replaceNameSteps (maxLen : Nat) (old : NameBuffer) (arg : CStr) :
    Option (List NameBuffer) :=
  let afterFree := match old with
    | .null => NameBuffer.null
    | _ => NameBuffer.released
  let afterCalloc := NameBuffer.live []
  match strcpyNew maxLen arg with
  | some name => some [afterFree, afterCalloc, NameBuffer.live name]
  | none => none

/-- The delimiters `"/:"` of `getUriField`. -/
def isUriDelim (c : Nat) : Bool := c == 47 || c == 58

/-- Source: `String(inString).indexOf("//")`: the position of the first occurrence, -1 when
there is none. -/
def indexOfDoubleSlash : CStr → Int
  | [] => -1
  | c :: cs =>
      if c = 47 ∧ cs.head? = some 47 then 0
      else if indexOfDoubleSlash cs < 0 then -1
      else indexOfDoubleSlash cs + 1

/-- One call `strtok_r(p, "/:", &p)`: leading delimiters are skipped; when nothing is left
there is no token; else the token runs up to the next delimiter, and `p` continues behind
that delimiter (at the end of the string when the token was the last). -/
def strtokUri (p : CStr) : Option (CStr × CStr) :=
  match p.dropWhile isUriDelim with
  | [] => none
  | c :: cs =>
      some ((c :: cs).takeWhile (fun x => !isUriDelim x),
            ((c :: cs).dropWhile (fun x => !isUriDelim x)).drop 1)

/-- The `while` loop of `getUriField`, with the variables `p`, `chunkCtr`, `status` and
`outRef`; `fuel` bounds the number of rounds. -/
def uriFieldLoop (searchIndex : Int) : Nat → CStr → Int → Bool → CStr → Bool × CStr
  | 0, _, _, status, outRef => (status, outRef)
  | fuel + 1, p, chunkCtr, status, outRef =>
      match strtokUri p with
      | none => (status, outRef)
      | some (str, rest) =>
          if chunkCtr = searchIndex ∧ status = false then
            uriFieldLoop searchIndex fuel rest (chunkCtr + 1) true str
          else
            uriFieldLoop searchIndex fuel rest (chunkCtr + 1) status outRef

/-- Source: `getUriField(inString, searchIndex, outRef)`: the result and `outRef` after the
call.  Each round of the loop consumes at least one character, so `inString.length + 1`
rounds are enough. -/
def getUriField (inString : CStr) (searchIndex : Int) (outRef : CStr) : Bool × CStr :=
  if indexOfDoubleSlash inString ≥ 0 then
    uriFieldLoop searchIndex (inString.length + 1) inString 0 false outRef
  else (false, outRef)


/-! ## Layout of the store, used to state what a save leaves behind -/

/-- The bytes of one entry in store order. -/
def entryBytes (maxLen : Nat) (e : SwitchEntry) : List Nat :=
  bytesLE4 (intBits e.type) ++ bytesLE4 (intBits e.pin) ++ [if e.writeable then 1 else 0] ++
  bytesLE4 e.min ++ bytesLE4 e.max ++ bytesLE4 e.step ++ bytesLE4 e.value ++
  stringBytes maxLen e.switchName ++ stringBytes maxLen e.description

/-- The bytes of all entries in store order. -/
def entriesBytes (maxLen : Nat) : List SwitchEntry → List Nat
  | [] => []
  | e :: es => entryBytes maxLen e ++ entriesBytes maxLen es

/-- The store holds the bytes `bs` from address `addr` upwards. -/
def Holds (st : Store) (addr : Nat) (bs : List Nat) : Prop :=
  ∀ k, k < bs.length → st (addr + k) = bs.getD k 0

/-- The bytes a save leaves from address 1 upwards: count, port, entries, hostname. -/
def storeImage (cfg : Config) (d : Device) : List Nat :=
  bytesLE4 (intBits d.numSwitches) ++ bytesLE4 (intBits d.udpPort) ++
  entriesBytes cfg.MAX_NAME_LENGTH d.switchEntry ++
  stringBytes cfg.MAX_NAME_LENGTH d.myHostname

/-! ## Default state and sample values -/

/-- The defaults fit the buffers that `setDefaults` copies them into. -/
def Config.fits (cfg : Config) : Prop :=
  cfg.defaultHostname.length < cfg.MAX_NAME_LENGTH ∧
  (cstr "Default description").length < cfg.MAX_NAME_LENGTH ∧
  ∀ i, i < cfg.defaultNumSwitches.toNat →
    (cstr "Switch_" ++ decimal i).length < cfg.MAX_NAME_LENGTH

/-- The entry `setDefaults` builds for index `i`, when its texts fit. -/
def defaultSwitch (i : Nat) : SwitchEntry :=
  { description := cstr "Default description", switchName := cstr "Switch_" ++ decimal i,
    writeable := true, type := SWITCH_RELAY_NO, pin := 0, min := f32Zero, max := f32One,
    step := f32One, value := f32Zero }

/-- The registry `setDefaults` builds, when its texts fit. -/
def defaultRegistry (cfg : Config) : List SwitchEntry :=
  (List.range' 0 cfg.defaultNumSwitches.toNat).map defaultSwitch

instance (s : CStr) : Decidable (isCStr s) := by unfold isCStr; infer_instance

instance (v : Int) : Decidable (isInt32 v) := by unfold isInt32; infer_instance

instance (v : F32) : Decidable (isF32 v) := by unfold isF32; infer_instance

instance (e : SwitchEntry) : Decidable e.wellTyped := by
  unfold SwitchEntry.wellTyped; infer_instance

instance (d : Device) : Decidable d.wellFormed := by
  unfold Device.wellFormed; infer_instance

instance (cfg : Config) : Decidable cfg.fits := by unfold Config.fits; infer_instance

/-- A configuration: names of up to 24 characters, two switches by default. -/
def sampleConfig : Config :=
  { MAX_NAME_LENGTH := 25, defaultNumSwitches := 2, defaultHostname := cstr "espRLY01",
    ALPACA_DISCOVERY_PORT := 32227 }

/-- An erased EEPROM: every byte is 0xFF. -/
def erasedStore : Store := fun _ => 255

/-- A relay entry and a PWM entry. -/
def sampleEntries : List SwitchEntry :=
  [ { description := cstr "Dew heater", switchName := cstr "Heater", writeable := true,
      type := SWITCH_RELAY_NO, pin := 3, min := f32Zero, max := f32One, step := f32One,
      value := f32One },
    { description := cstr "Flat panel", switchName := cstr "Panel", writeable := true,
      type := SWITCH_PWM, pin := 1, min := f32Zero, max := 1149239296, step := f32One,
      value := f32Zero } ]

/-- A device with the two sample entries and an erased EEPROM. -/
def sampleDevice : Device :=
  { eeprom := erasedStore, numSwitches := 2, udpPort := 32227, switchEntry := sampleEntries,
    myHostname := cstr "espRLY01", thisID := cstr "espRLY01", hwWrites := [] }

/-- A device before a load: three allocated entries, a count, a port and a hostname that
have nothing in common with the sample device, and an erased EEPROM. -/
def staleDevice : Device :=
  { eeprom := erasedStore, numSwitches := 7, udpPort := 1,
    switchEntry := List.replicate 3
      { description := cstr "old", switchName := cstr "old", writeable := false,
        type := SWITCH_ANALG_DAC, pin := 9, min := f32One, max := f32Zero, step := f32Zero,
        value := f32One },
    myHostname := cstr "other", thisID := cstr "other", hwWrites := [] }

/-- A store that holds the sentinel and 0xFF in every other byte: the count bytes are those
of -1. -/
def minusOneCountStore : Store := fun a => if a = 0 then magic else 255

/-- A store that holds the sentinel and the count 1000 (bytes E8 03 00 00), zero elsewhere. -/
def thousandCountStore : Store :=
  fun a => if a = 0 then magic else if a = 1 then 232 else if a = 2 then 3 else 0

/-- The entry `reSize` appends, given what the `malloc`ed block held as `pin`. -/
def freshSwitch (pin : Int) : SwitchEntry :=
  { description := cstr "Default description", switchName := cstr "Switch Name",
    writeable := false, type := SWITCH_RELAY_NO, pin := pin, min := f32Zero, max := f32Zero,
    step := f32One, value := f32Zero }

/-- Heap blocks that hold the number `p` where `pin` lies and zeros elsewhere. -/
def heapWithPin (p : Int) : Nat → SwitchEntry :=
  fun _ => { description := [], switchName := [], writeable := false, type := 0, pin := p,
             min := 0, max := 0, step := 0, value := 0 }

/-- The float 1023.0, bit pattern 0x447FC000. -/
def f32_1023 : F32 := 1149222912

/-- The float 2000.0, bit pattern 0x44FA0000. -/
def f32_2000 : F32 := 1157234688

/-- The float 512.0, bit pattern 0x44000000. -/
def f32_512 : F32 := 1140850688

/-- The float 0.5, bit pattern 0x3F000000. -/
def f32Half : F32 := 1056964608

/-- A PWM entry with min = 0 and max = 1023. -/
def pwmEntry : SwitchEntry :=
  { description := cstr "Default description", switchName := cstr "Dimmer", writeable := true,
    type := SWITCH_PWM, pin := 0, min := f32Zero, max := f32_1023, step := f32One,
    value := f32Zero }

/-- A device with five default relays and the PWM entry at identifier 5. -/
def sixSwitchDevice : Device :=
  { eeprom := erasedStore, numSwitches := 6, udpPort := 32227,
    switchEntry := (List.range' 0 5).map defaultSwitch ++ [pwmEntry],
    myHostname := cstr "espRLY01", thisID := cstr "espRLY01", hwWrites := [] }

/-- The values of `(float) String::toDouble()` on the texts used in the examples. -/
def sampleToFloat : CStr → F32 := fun s =>
  if s = cstr "2000" then f32_2000
  else if s = cstr "512" then f32_512
  else if s = cstr "0.5" then f32Half
  else f32Zero

/-! ## The ways a request can end -/

/-- The ways a handler can end: an answer 400 with the device as it was (with an error in the
body, or with an empty body); an answer 200 with error number 0 and the device as it was; or,
on a PUT, an answer 200 with error number 0 after one entry `i` was replaced, `Change i e e1`
relating the old entry and the new one (the log of hardware writes may grow). -/
def Outcome (Change : Nat → SwitchEntry → SwitchEntry → Prop) (d : Device) (req : Request)
    (d1 : Device) (r : Response) : Prop :=
  (d1 = d ∧ r.code = 400 ∧ (r.carriesError ∨ r.message = none)) ∨
  (d1 = d ∧ r.code = 200 ∧ r.errorNumber = some (.int Success)) ∨
  (req.method = .HTTP_PUT ∧ r.code = 200 ∧ r.errorNumber = some (.int Success) ∧
    ∃ i e e1, d.switchEntry[i]? = some e ∧ Change i e e1 ∧
      d1 = { d with switchEntry := d.switchEntry.set i e1, hwWrites := d1.hwWrites })

/-- The identifier a handler with an `int` identifier takes from the request. -/
def requestId (req : Request) : Nat := (toInt (serverArg req (cstr "Id"))).toNat

/-- The identifier a handler with a `uint32_t` identifier takes from the request. -/
def requestIdU32 (req : Request) : Nat := intBits (toInt (serverArg req (cstr "Id")))

/-- What a successful PUT switchstate changes: `value` of a relay becomes 1.0 or 0.0. -/
def stateChange (req : Request) (i : Nat) (e e1 : SwitchEntry) : Prop :=
  i = requestId req ∧ (e.type = SWITCH_RELAY_NO ∨ e.type = SWITCH_RELAY_NC) ∧
  (e1 = { e with value := f32One } ∨ e1 = { e with value := f32Zero })

/-- What a successful PUT switchname changes: the name, to one that fits. -/
def nameChange (cfg : Config) (req : Request) (i : Nat) (e e1 : SwitchEntry) : Prop :=
  i = requestId req ∧ ∃ x : CStr, x.length < cfg.MAX_NAME_LENGTH ∧ e1 = { e with switchName := x }

/-- What a successful PUT switchvalue changes, when it changes anything: `value` of a PWM or
DAC entry becomes a value between `min` and `max`. -/
def valueChange (req : Request) (i : Nat) (e e1 : SwitchEntry) : Prop :=
  i = requestIdU32 req ∧ (e.type = SWITCH_PWM ∨ e.type = SWITCH_ANALG_DAC) ∧
  ∃ v : F32, f32Le e.min v = true ∧ f32Le v e.max = true ∧ e1 = { e with value := v }

/-- What a successful PUT switchtype changes: the type, to one of the four. -/
def typeChange (req : Request) (i : Nat) (e e1 : SwitchEntry) : Prop :=
  i = requestId req ∧
  ∃ t : Int, (t = SWITCH_RELAY_NO ∨ t = SWITCH_RELAY_NC ∨ t = SWITCH_ANALG_DAC ∨ t = SWITCH_PWM) ∧
    e1 = { e with type := t }

/-- No entry changes. -/
def noChange (_ : Nat) (_ _ : SwitchEntry) : Prop := False

/-- What a successful PUT on a route can change. -/
def Route.change (cfg : Config) (req : Request) : Route → Nat → SwitchEntry → SwitchEntry → Prop
  | .endpoint .switchstate => stateChange req
  | .endpoint .switchname => nameChange cfg req
  | .endpoint .switchvalue => valueChange req
  | .switchtype => typeChange req
  | _ => noChange

/-- The identifier a route takes from the request. -/
def Route.targetId (req : Request) : Route → Nat
  | .endpoint .switchvalue => requestIdU32 req
  | .endpoint .switchstep => requestIdU32 req
  | _ => requestId req

/-- The new entry is the old one except for the field the route addresses: `value` for
switchstate and switchvalue, the name for switchname, the type for switchtype, and no field
for the other routes. -/
def Route.sameExcept (e e1 : SwitchEntry) : Route → Prop
  | .endpoint .switchstate => e1 = { e with value := e1.value }
  | .endpoint .switchvalue => e1 = { e with value := e1.value }
  | .endpoint .switchname => e1 = { e with switchName := e1.switchName }
  | .switchtype => e1 = { e with type := e1.type }
  | _ => e1 = e

/-- Every relay of the registry holds 0.0 or 1.0 (as the bit patterns the handlers store). -/
def relayInvariant (d : Device) : Prop :=
  ∀ e ∈ d.switchEntry, (e.type = SWITCH_RELAY_NO ∨ e.type = SWITCH_RELAY_NC) →
    (e.value = f32Zero ∨ e.value = f32One)

/-- The state `setDefaults` builds on the sample device with the sample configuration. -/
def defaultDevice : Device :=
  { sampleDevice with myHostname := sampleConfig.defaultHostname,
                      thisID := sampleConfig.defaultHostname,
                      udpPort := sampleConfig.ALPACA_DISCOVERY_PORT,
                      numSwitches := sampleConfig.defaultNumSwitches,
                      switchEntry := defaultRegistry sampleConfig }

/-- Three requests: switch 0 is made a PWM channel, set to 0.5, and made a relay again. -/
def retypeSession : List (Route × Request) :=
  [ (.switchtype, { method := .HTTP_PUT, args := [(cstr "Id", cstr "0"), (cstr "Name", cstr "2")] }),
    (.endpoint .switchvalue,
      { method := .HTTP_PUT, args := [(cstr "Id", cstr "0"), (cstr "Value", cstr "0.5")] }),
    (.switchtype, { method := .HTTP_PUT, args := [(cstr "Id", cstr "0"), (cstr "Name", cstr "0")] }) ]

/-- The entry is a relay: its type is RelayNO or RelayNC. -/
def SwitchEntry.isRelay (e : SwitchEntry) : Bool :=
  e.type == SWITCH_RELAY_NO || e.type == SWITCH_RELAY_NC

/-- The request, handled by `handlerSwitchType` in state `d`, is a PUT that is answered 200
and leaves as a relay the entry it addresses, while the `value` of that entry is neither 0.0
nor 1.0. -/
def retypesOddValue (d : Device) (req : Request) : Bool :=
  match handlerSwitchType d req, d.switchEntry[requestId req]? with
  | some (d1, r), some e =>
      req.method == .HTTP_PUT && r.code == 200 &&
      (d1.switchEntry[requestId req]?).any SwitchEntry.isRelay &&
      !(e.value == f32Zero || e.value == f32One)
  | _, _ => false

/-- Along the session, run from `d`, no request to switchtype makes a relay of an entry whose
value is neither 0.0 nor 1.0; every other request is allowed. -/
def avoidsOddRetype (cfg : Config) (toFloat : CStr → F32) (time : CStr) :
    List (Route × Request) → Device → Bool
  | [], _ => true
  | (route, req) :: rest, d =>
      !(decide (route = Route.switchtype) && retypesOddValue d req) &&
      match route.handler cfg toFloat time d req with
      | some (d1, _) => avoidsOddRetype cfg toFloat time rest d1
      | none => true

/-- Four requests: switch 0 is made a PWM channel and set to 0.5, switch 1 is made a
normally-closed relay and switched on. -/
def mixedSession : List (Route × Request) :=
  [ (.switchtype, { method := .HTTP_PUT, args := [(cstr "Id", cstr "0"), (cstr "Name", cstr "2")] }),
    (.endpoint .switchvalue,
      { method := .HTTP_PUT, args := [(cstr "Id", cstr "0"), (cstr "Value", cstr "0.5")] }),
    (.switchtype, { method := .HTTP_PUT, args := [(cstr "Id", cstr "1"), (cstr "Name", cstr "1")] }),
    (.endpoint .switchstate,
      { method := .HTTP_PUT, args := [(cstr "Id", cstr "1"), (cstr "State", cstr "true")] }) ]

/-- The state the four requests of `mixedSession` lead to from the default state. -/
def mixedDevice : Device :=
  { defaultDevice with
      hwWrites := [(1, 1)],
      switchEntry := [{ defaultSwitch 0 with type := SWITCH_PWM, value := f32Half },
                      { defaultSwitch 1 with type := SWITCH_RELAY_NC, value := f32One }] }

/-! ## Splitting a path, as the specification words it -/

/-- The text contains the substring `"//"`. -/
def containsDoubleSlash (s : CStr) : Prop := ∃ pre post : CStr, s = pre ++ 47 :: 47 :: post

/-- Splitting on the delimiter characters '/' and ':': the pieces between delimiters, empty
pieces included. -/
def splitPieces : CStr → List CStr
  | [] => [[]]
  | c :: cs =>
      if isUriDelim c then [] :: splitPieces cs
      else
        match splitPieces cs with
        | [] => [[c]]
        | piece :: pieces => (c :: piece) :: pieces

/-- The tokens of a text: its pieces, consecutive delimiters producing no empty token. -/
def splitTokens (s : CStr) : List CStr := (splitPieces s).filter (fun piece => piece ≠ [])

/-- The loop body of `getUriField` run over a list of tokens. -/
def pickToken (searchIndex : Int) : List CStr → Int → Bool → CStr → Bool × CStr
  | [], _, status, outRef => (status, outRef)
  | tok :: toks, chunkCtr, status, outRef =>
      if chunkCtr = searchIndex ∧ status = false then
        pickToken searchIndex toks (chunkCtr + 1) true tok
      else pickToken searchIndex toks (chunkCtr + 1) status outRef

/-! ## Lemmas on the EEPROM primitives -/

theorem applyWrites_append (st : Store) (ws1 ws2 : WriteLog) :
    applyWrites st (ws1 ++ ws2) = applyWrites (applyWrites st ws1) ws2 := by
  simp [applyWrites, List.foldl_append]

theorem writeBlock_append (addr : Nat) (l1 l2 : List Nat) :
    writeBlock addr (l1 ++ l2) = writeBlock addr l1 ++ writeBlock (addr + l1.length) l2 := by
  induction l1 generalizing addr with
  | nil => simp [writeBlock]
  | cons b bs ih =>
    have hlen : addr + 1 + bs.length = addr + (bs.length + 1) := by omega
    have hrec := ih (addr + 1)
    rw [hlen] at hrec
    show writeBlock addr (b :: (bs ++ l2)) =
      writeBlock addr (b :: bs) ++ writeBlock (addr + (bs.length + 1)) l2
    simp only [writeBlock, hrec, List.cons_append]

theorem applyWrites_writeBlock (st : Store) (addr : Nat) (bs : List Nat) (x : Nat) :
    applyWrites st (writeBlock addr bs) x =
      if addr ≤ x ∧ x < addr + bs.length then bs.getD (x - addr) 0 else st x := by
  induction bs generalizing addr st with
  | nil =>
    have hno : ¬ (addr ≤ x ∧ x < addr + ([] : List Nat).length) := by
      simp only [List.length_nil]; omega
    rw [if_neg hno]
    simp [writeBlock, applyWrites]
  | cons b bs ih =>
    have hstep : applyWrites st (writeBlock addr (b :: bs)) =
        applyWrites (eepromWrite st (addr, b)) (writeBlock (addr + 1) bs) := by
      simp [writeBlock, applyWrites]
    rw [hstep, ih]
    by_cases h1 : addr + 1 ≤ x ∧ x < addr + 1 + bs.length
    · have h2 : addr ≤ x ∧ x < addr + (b :: bs).length := by
        simp only [List.length_cons]; omega
      rw [if_pos h1, if_pos h2]
      have h3 : x - addr = (x - (addr + 1)) + 1 := by omega
      rw [h3]
      simp
    · rw [if_neg h1]
      by_cases h4 : x = addr
      · subst h4
        simp [eepromWrite]
      · have h5 : ¬ (addr ≤ x ∧ x < addr + (b :: bs).length) := by
          simp only [List.length_cons]; omega
        rw [if_neg h5]
        simp [eepromWrite, h4]

theorem holds_applyWrites_writeBlock (st : Store) (addr : Nat) (bs : List Nat) :
    Holds (applyWrites st (writeBlock addr bs)) addr bs := by
  intro k hk
  rw [applyWrites_writeBlock, if_pos (by omega)]
  simp

theorem holds_append {st : Store} {addr : Nat} {l1 l2 : List Nat}
    (h : Holds st addr (l1 ++ l2)) : Holds st addr l1 ∧ Holds st (addr + l1.length) l2 := by
  constructor
  · intro k hk
    have := h k (by simp; omega)
    rw [this, List.getD_append _ _ _ _ hk]
  · intro k hk
    have := h (l1.length + k) (by simp; omega)
    rw [← Nat.add_assoc] at this
    rw [this, List.getD_append_right _ _ _ _ (by omega)]
    simp

theorem length_bytesLE4 (v : Nat) : (bytesLE4 v).length = 4 := rfl

theorem length_stringBytes (maxLen : Nat) (s : CStr) : (stringBytes maxLen s).length = maxLen := by
  simp only [stringBytes, List.length_append, List.length_map, List.length_replicate,
    List.length_take]
  omega

theorem length_entryBytes (maxLen : Nat) (e : SwitchEntry) :
    (entryBytes maxLen e).length = entrySize maxLen := by
  simp only [entryBytes, List.length_append, length_bytesLE4, length_stringBytes, entrySize,
    List.length_singleton]

theorem readWord_of_holds {st : Store} {addr v : Nat} (h : Holds st addr (bytesLE4 v))
    (hv : v < 4294967296) : readWord st addr = v := by
  have h0 := h 0 (by simp [bytesLE4])
  have h1 := h 1 (by simp [bytesLE4])
  have h2 := h 2 (by simp [bytesLE4])
  have h3 := h 3 (by simp [bytesLE4])
  simp [bytesLE4] at h0 h1 h2 h3
  simp only [readWord, h0, h1, h2, h3]
  omega

theorem intOfBits_intBits {v : Int} (hv : isInt32 v) : intOfBits (intBits v) = v := by
  unfold isInt32 at hv
  unfold intOfBits intBits
  split <;> omega

theorem intBits_lt (v : Int) : intBits v < 4294967296 := by
  unfold intBits; omega

theorem readInt_of_holds {st : Store} {addr : Nat} {v : Int}
    (h : Holds st addr (bytesLE4 (intBits v))) (hv : isInt32 v) : readInt st addr = v := by
  rw [readInt, readWord_of_holds h (intBits_lt v), intOfBits_intBits hv]

theorem readFloat_of_holds {st : Store} {addr : Nat} {v : F32}
    (h : Holds st addr (bytesLE4 v)) (hv : isF32 v) : readFloat st addr = v := by
  unfold isF32 at hv
  rw [readFloat, readWord_of_holds h hv]
  exact Nat.mod_eq_of_lt hv

theorem readBool_of_holds {st : Store} {addr : Nat} {b : Bool}
    (h : Holds st addr [if b then 1 else 0]) : readBool st addr = b := by
  have h0 := h 0 (by simp)
  simp at h0
  cases b <;> simp [readBool, h0]

theorem map_range_getD (l : List Nat) (n : Nat) (hn : n ≤ l.length) :
    (List.range n).map (fun k => l.getD k 0) = l.take n := by
  apply List.ext_getElem
  · simp [List.length_take]; omega
  · intro i h1 h2
    simp only [List.length_map, List.length_range] at h1
    have hi : i < l.length := by omega
    simp [List.getElem_take, List.getElem?_eq_getElem hi]

theorem takeWhile_append_zeros (s : CStr) (n : Nat) (hs : isCStr s) :
    (s ++ List.replicate n 0).takeWhile (fun b => b != 0) = s := by
  induction s with
  | nil =>
    cases n with
    | zero => simp
    | succ m => simp [List.replicate_succ]
  | cons c cs ih =>
    have hc : 0 < c ∧ c < 256 := hs c (by simp)
    have hne : (c != 0) = true := by simp; omega
    simp only [List.cons_append, List.takeWhile_cons, hne, if_true]
    rw [ih (fun x hx => hs x (List.mem_cons_of_mem _ hx))]

theorem map_mod_of_isCStr (s : CStr) (hs : isCStr s) : s.map (fun c => c % 256) = s := by
  induction s with
  | nil => rfl
  | cons c cs ih =>
    have hc : 0 < c ∧ c < 256 := hs c (by simp)
    simp only [List.map_cons, ih (fun x hx => hs x (List.mem_cons_of_mem _ hx))]
    rw [Nat.mod_eq_of_lt hc.2]

theorem stringBytes_of_fits (maxLen : Nat) (s : CStr) (hs : isCStr s) (hlen : s.length < maxLen) :
    stringBytes maxLen s = s ++ List.replicate (maxLen - s.length) 0 := by
  have ht : s.take (maxLen - 1) = s := List.take_of_length_le (by omega)
  simp only [stringBytes, ht, map_mod_of_isCStr s hs]

theorem readString_of_holds {st : Store} {addr maxLen : Nat} {s : CStr}
    (h : Holds st addr (stringBytes maxLen s)) (hs : isCStr s) (hlen : s.length < maxLen) :
    readString st addr maxLen = s := by
  have hmap : (List.range (maxLen - 1)).map (fun k => st (addr + k)) =
      (List.range (maxLen - 1)).map (fun k => (stringBytes maxLen s).getD k 0) := by
    apply List.map_congr_left
    intro k hk
    rw [List.mem_range] at hk
    exact h k (by rw [length_stringBytes]; omega)
  rw [readString, hmap, map_range_getD _ _ (by rw [length_stringBytes]; omega),
    stringBytes_of_fits maxLen s hs hlen]
  have htake : (s ++ List.replicate (maxLen - s.length) 0).take (maxLen - 1) =
      s ++ List.replicate (maxLen - 1 - s.length) 0 := by
    rw [List.take_append_eq_append_take, List.take_of_length_le (by omega), List.take_replicate]
    congr 2
    omega
  rw [htake, takeWhile_append_zeros s _ hs]

theorem holds_shift {st : Store} {a b : Nat} {bs : List Nat} (h : Holds st a bs) (hab : a = b) :
    Holds st b bs := hab ▸ h

theorem readEntry_of_holds {st : Store} {addr maxLen : Nat} {e : SwitchEntry}
    (h : Holds st addr (entryBytes maxLen e)) (he : e.wellTyped)
    (hname : e.switchName.length < maxLen) (hdesc : e.description.length < maxLen) :
    readEntry maxLen st addr = e := by
  obtain ⟨hd, hn, hty, hpin, hmin, hmax, hstep, hval⟩ := he
  unfold entryBytes at h
  obtain ⟨h8, hdescB⟩ := holds_append h
  obtain ⟨h7, hnameB⟩ := holds_append h8
  obtain ⟨h6, hvalB⟩ := holds_append h7
  obtain ⟨h5, hstepB⟩ := holds_append h6
  obtain ⟨h4, hmaxB⟩ := holds_append h5
  obtain ⟨h3, hminB⟩ := holds_append h4
  obtain ⟨h2, hwrB⟩ := holds_append h3
  obtain ⟨htyB, hpinB⟩ := holds_append h2
  simp only [List.length_append, length_bytesLE4, length_stringBytes, List.length_singleton]
    at hdescB hnameB hvalB hstepB hmaxB hminB hwrB hpinB
  have e1 := readInt_of_holds htyB hty
  have e2 := readInt_of_holds hpinB hpin
  have e3 := readBool_of_holds (holds_shift hwrB (by omega : addr + (4 + 4) = addr + 8))
  have e4 := readFloat_of_holds (holds_shift hminB (by omega : addr + (4 + 4 + 1) = addr + 9)) hmin
  have e5 := readFloat_of_holds
    (holds_shift hmaxB (by omega : addr + (4 + 4 + 1 + 4) = addr + 13)) hmax
  have e6 := readFloat_of_holds
    (holds_shift hstepB (by omega : addr + (4 + 4 + 1 + 4 + 4) = addr + 17)) hstep
  have e7 := readFloat_of_holds
    (holds_shift hvalB (by omega : addr + (4 + 4 + 1 + 4 + 4 + 4) = addr + 21)) hval
  have e8 := readString_of_holds
    (holds_shift hnameB (by omega : addr + (4 + 4 + 1 + 4 + 4 + 4 + 4) = addr + 25)) hn hname
  have e9 := readString_of_holds
    (holds_shift hdescB
      (by omega : addr + (4 + 4 + 1 + 4 + 4 + 4 + 4 + maxLen) = addr + 25 + maxLen)) hd hdesc
  cases e
  simp only [readEntry] at *
  simp only [e1, e2, e3, e4, e5, e6, e7, e8, e9]

/-! ## Lemmas on the loops of the codec -/

theorem writeEntry_eq (maxLen addr : Nat) (e : SwitchEntry) :
    writeEntry maxLen addr e = writeBlock addr (entryBytes maxLen e) := by
  have hone : ∀ (a b : Nat), writeBlock a [b] = [(a, b)] := fun _ _ => rfl
  simp only [writeEntry, entryBytes, writeInt, writeFloat, writeBool, writeString,
    writeBlock_append, List.length_append, length_bytesLE4, length_stringBytes,
    List.length_singleton, hone, List.append_assoc, Nat.add_assoc, Nat.reduceAdd]

theorem length_entriesBytes (maxLen : Nat) (es : List SwitchEntry) :
    (entriesBytes maxLen es).length = es.length * entrySize maxLen := by
  induction es with
  | nil => simp [entriesBytes]
  | cons e es ih =>
    simp only [entriesBytes, List.length_append, length_entryBytes, ih, List.length_cons]
    rw [Nat.add_mul]
    omega

theorem saveLoop_eq (maxLen : Nat) (es rest : List SwitchEntry) (addr : Nat) :
    saveLoop maxLen es.length addr (es ++ rest) =
      some (writeBlock addr (entriesBytes maxLen es), addr + es.length * entrySize maxLen) := by
  induction es generalizing addr with
  | nil => simp [saveLoop, entriesBytes, writeBlock]
  | cons e es ih =>
    have harith : addr + entrySize maxLen + es.length * entrySize maxLen =
        addr + (es.length + 1) * entrySize maxLen := by
      rw [Nat.add_mul]; omega
    show saveLoop maxLen (es.length + 1) addr (e :: (es ++ rest)) = _
    simp only [saveLoop, ih, entriesBytes, writeBlock_append, writeEntry_eq, length_entryBytes,
      harith, List.length_cons]

theorem readLoop_eq (maxLen : Nat) (st : Store) (saved : List SwitchEntry) :
    ∀ (mem : List SwitchEntry) (addr : Nat), saved.length ≤ mem.length →
      Holds st addr (entriesBytes maxLen saved) →
      (∀ e ∈ saved, e.wellTyped ∧ e.switchName.length < maxLen ∧ e.description.length < maxLen) →
      readLoop maxLen st saved.length addr mem =
        some (saved ++ mem.drop saved.length, addr + saved.length * entrySize maxLen) := by
  induction saved with
  | nil => intro mem addr _ _ _; simp [readLoop]
  | cons e es ih =>
    intro mem addr hlen hst hes
    cases mem with
    | nil => simp at hlen
    | cons m ms =>
      simp only [List.length_cons] at hlen
      simp only [entriesBytes] at hst
      obtain ⟨hhead, htail⟩ := holds_append hst
      rw [length_entryBytes] at htail
      obtain ⟨hwt, hn, hd⟩ := hes e (by simp)
      have hrest := ih ms (addr + entrySize maxLen) (by omega) htail
        (fun x hx => hes x (List.mem_cons_of_mem _ hx))
      have harith : addr + entrySize maxLen + es.length * entrySize maxLen =
          addr + (es.length + 1) * entrySize maxLen := by
        rw [Nat.add_mul]; omega
      simp only [List.length_cons, readLoop, hrest, readEntry_of_holds hhead hwt hn hd,
        List.cons_append, List.drop_succ_cons, harith]

/-! ## Save followed by load -/

theorem saveWrites_eq (cfg : Config) (d : Device)
    (hcount : d.numSwitches.toNat = d.switchEntry.length) :
    saveWrites cfg d = some (writeBlock 1 (storeImage cfg d) ++ [(0, magic)]) := by
  have hloop := saveLoop_eq cfg.MAX_NAME_LENGTH d.switchEntry [] 9
  rw [List.append_nil] at hloop
  simp only [saveWrites, hcount, hloop, storeImage, writeInt, writeString, writeBlock_append,
    List.length_append, length_bytesLE4, length_entriesBytes, List.append_assoc]

theorem saveToEeprom_eq (cfg : Config) (d : Device)
    (hcount : d.numSwitches.toNat = d.switchEntry.length) :
    saveToEeprom cfg d =
      some { d with eeprom := applyWrites d.eeprom (writeBlock 1 (storeImage cfg d) ++ [(0, magic)]) } := by
  simp only [saveToEeprom, saveWrites_eq cfg d hcount]

theorem saved_store_magic (st : Store) (bs : List Nat) :
    applyWrites st (writeBlock 1 bs ++ [(0, magic)]) 0 = magic := by
  rw [applyWrites_append]
  simp [applyWrites, eepromWrite]

theorem saved_store_holds (st : Store) (bs : List Nat) :
    Holds (applyWrites st (writeBlock 1 bs ++ [(0, magic)])) 1 bs := by
  intro k hk
  rw [applyWrites_append]
  have hne : 1 + k ≠ 0 := by omega
  have hlast : ∀ s : Store, applyWrites s [(0, magic)] (1 + k) = s (1 + k) := by
    intro s
    simp [applyWrites, eepromWrite]
  rw [hlast]
  exact holds_applyWrites_writeBlock st 1 bs k hk

/-- Loading from a store that holds the image of a state `d`, into any memory with at least
as many allocated entries, gives the count, port, hostname and entries of `d`. -/
theorem setupFromEeprom_of_image (cfg : Config) (d m : Device)
    (hwf : d.wellFormed)
    (hname : ∀ e ∈ d.switchEntry, e.switchName.length < cfg.MAX_NAME_LENGTH ∧
      e.description.length < cfg.MAX_NAME_LENGTH)
    (hhost : d.myHostname.length < cfg.MAX_NAME_LENGTH)
    (hmagic : m.eeprom 0 = magic) (himg : Holds m.eeprom 1 (storeImage cfg d))
    (halloc : d.switchEntry.length ≤ m.switchEntry.length) :
    setupFromEeprom cfg m =
      some { m with numSwitches := d.numSwitches, udpPort := d.udpPort,
                    switchEntry := d.switchEntry ++ m.switchEntry.drop d.switchEntry.length,
                    myHostname := d.myHostname, thisID := d.myHostname } := by
  obtain ⟨hn, hnr, hpr, hhs, hes⟩ := hwf
  unfold storeImage at himg
  obtain ⟨h3, hhostB⟩ := holds_append himg
  obtain ⟨h2, hentB⟩ := holds_append h3
  obtain ⟨hcntB, hportB⟩ := holds_append h2
  simp only [List.length_append, length_bytesLE4, length_entriesBytes] at hhostB hentB hportB
  have e1 : readInt m.eeprom 1 = d.numSwitches := readInt_of_holds hcntB hnr
  have e2 : readInt m.eeprom 5 = d.udpPort := readInt_of_holds hportB hpr
  have hcount : d.numSwitches.toNat = d.switchEntry.length := by rw [hn]; simp
  have e3 := readLoop_eq cfg.MAX_NAME_LENGTH m.eeprom d.switchEntry m.switchEntry 9 halloc hentB
    (fun e he => ⟨hes e he, (hname e he).1, (hname e he).2⟩)
  have e4 : readString m.eeprom (9 + d.switchEntry.length * entrySize cfg.MAX_NAME_LENGTH)
      cfg.MAX_NAME_LENGTH = d.myHostname :=
    readString_of_holds (holds_shift hhostB (by omega)) hhs hhost
  simp only [setupFromEeprom, hmagic, ne_eq, not_true_eq_false, if_false, e1, e2, hcount, e3, e4,
    strcpyNew, hhost, if_true]
/-- C1: for every well-formed state `d` whose names, descriptions and hostname are shorter
than `MAX_NAME_LENGTH`, `saveToEeprom` returns, and `setupFromEeprom` run on the store it
leaves, from any memory `m` with at least as many allocated entries, returns a state with
the `numSwitches`, `udpPort` and hostname of `d` and, at every index below `numSwitches`,
the entry of `d`, field for field. -/
theorem saveToEeprom_setupFromEeprom_roundtrip (cfg : Config) (d m : Device)
    (hwf : d.wellFormed)
    (hname : ∀ e ∈ d.switchEntry, e.switchName.length < cfg.MAX_NAME_LENGTH ∧
      e.description.length < cfg.MAX_NAME_LENGTH)
    (hhost : d.myHostname.length < cfg.MAX_NAME_LENGTH)
    (halloc : d.switchEntry.length ≤ m.switchEntry.length) :
    ∃ d1 d2, saveToEeprom cfg d = some d1 ∧
      setupFromEeprom cfg { m with eeprom := d1.eeprom } = some d2 ∧
      d2.numSwitches = d.numSwitches ∧ d2.udpPort = d.udpPort ∧
      d2.myHostname = d.myHostname ∧
      d2.switchEntry.take d.switchEntry.length = d.switchEntry ∧
      ∀ i : Nat, (i : Int) < d.numSwitches →
        ∃ e, d.switchEntry[i]? = some e ∧ d2.switchEntry[i]? = some e := by
  have hsave := saveToEeprom_eq cfg d (by rw [hwf.1]; simp)
  have hload := setupFromEeprom_of_image cfg d
    { m with eeprom := applyWrites d.eeprom (writeBlock 1 (storeImage cfg d) ++ [(0, magic)]) }
    hwf hname hhost (saved_store_magic _ _) (saved_store_holds _ _) halloc
  refine ⟨_, _, hsave, hload, rfl, rfl, rfl, ?_, ?_⟩
  · simp
  · intro i hi
    have hlt : i < d.switchEntry.length := by
      have hcount := hwf.1
      omega
    refine ⟨d.switchEntry[i], List.getElem?_eq_getElem hlt, ?_⟩
    show (d.switchEntry ++ m.switchEntry.drop d.switchEntry.length)[i]? = _
    rw [List.getElem?_append_left hlt, List.getElem?_eq_getElem hlt]

theorem saveToEeprom_setupFromEeprom_roundtrip_witness :
    sampleDevice.wellFormed ∧
    (∀ e ∈ sampleDevice.switchEntry, e.switchName.length < sampleConfig.MAX_NAME_LENGTH ∧
      e.description.length < sampleConfig.MAX_NAME_LENGTH) ∧
    sampleDevice.myHostname.length < sampleConfig.MAX_NAME_LENGTH ∧
    sampleDevice.switchEntry.length ≤ staleDevice.switchEntry.length ∧
    ∃ d1 d2, saveToEeprom sampleConfig sampleDevice = some d1 ∧
      setupFromEeprom sampleConfig { staleDevice with eeprom := d1.eeprom } = some d2 ∧
      d2.numSwitches = sampleDevice.numSwitches ∧ d2.udpPort = sampleDevice.udpPort ∧
      d2.myHostname = sampleDevice.myHostname ∧
      d2.switchEntry.take sampleDevice.switchEntry.length = sampleDevice.switchEntry ∧
      ∀ i : Nat, (i : Int) < sampleDevice.numSwitches →
        ∃ e, sampleDevice.switchEntry[i]? = some e ∧ d2.switchEntry[i]? = some e :=
  ⟨by decide, by decide, by decide, by decide,
   saveToEeprom_setupFromEeprom_roundtrip sampleConfig sampleDevice staleDevice (by decide)
     (by decide) (by decide) (by decide)⟩

/-! ## Default state -/

theorem defaultEntry_eq (cfg : Config) (i : Nat)
    (hdesc : (cstr "Default description").length < cfg.MAX_NAME_LENGTH)
    (hname : (cstr "Switch_" ++ decimal i).length < cfg.MAX_NAME_LENGTH) :
    defaultEntry cfg i = some (defaultSwitch i) := by
  simp only [defaultEntry, strcpyNew, hdesc, hname, if_true, defaultSwitch]

theorem defaultEntries_eq (cfg : Config)
    (hdesc : (cstr "Default description").length < cfg.MAX_NAME_LENGTH) (count : Nat) :
    ∀ i, (∀ j, j < i + count → (cstr "Switch_" ++ decimal j).length < cfg.MAX_NAME_LENGTH) →
      defaultEntries cfg count i = some ((List.range' i count).map defaultSwitch) := by
  induction count with
  | zero => intro i _; simp [defaultEntries]
  | succ n ih =>
    intro i hfit
    have hrest := ih (i + 1) (fun j hj => hfit j (by omega))
    simp only [defaultEntries, defaultEntry_eq cfg i hdesc (hfit i (by omega)), hrest,
      List.range'_succ, List.map_cons]

/-- The state `setDefaults` builds from the configuration; the EEPROM and the log of
hardware writes are kept. -/
theorem setDefaults_eq (cfg : Config) (d : Device) (hfit : cfg.fits) :
    setDefaults cfg d =
      some { d with myHostname := cfg.defaultHostname, thisID := cfg.defaultHostname,
                    udpPort := cfg.ALPACA_DISCOVERY_PORT,
                    numSwitches := cfg.defaultNumSwitches,
                    switchEntry := defaultRegistry cfg } := by
  obtain ⟨hhost, hdesc, hnames⟩ := hfit
  have hes := defaultEntries_eq cfg hdesc cfg.defaultNumSwitches.toNat 0
    (fun j hj => hnames j (by omega))
  simp only [setDefaults, strcpyNew, hhost, if_true, hes, defaultRegistry]

theorem length_defaultRegistry (cfg : Config) :
    (defaultRegistry cfg).length = cfg.defaultNumSwitches.toNat := by
  simp [defaultRegistry]

/-- What `setupFromEeprom` does when the sentinel does not match. -/
theorem setupFromEeprom_defaults (cfg : Config) (d : Device) (hfit : cfg.fits)
    (hbad : d.eeprom 0 ≠ magic) :
    setupFromEeprom cfg d =
      some { d with myHostname := cfg.defaultHostname, thisID := cfg.defaultHostname,
                    udpPort := cfg.ALPACA_DISCOVERY_PORT,
                    numSwitches := cfg.defaultNumSwitches,
                    switchEntry := defaultRegistry cfg,
                    eeprom := applyWrites d.eeprom
                      (writeBlock 1 (storeImage cfg
                        { d with myHostname := cfg.defaultHostname,
                                 thisID := cfg.defaultHostname,
                                 udpPort := cfg.ALPACA_DISCOVERY_PORT,
                                 numSwitches := cfg.defaultNumSwitches,
                                 switchEntry := defaultRegistry cfg }) ++ [(0, magic)]) } := by
  simp only [setupFromEeprom, hbad, ne_eq, not_false_eq_true, if_true, setDefaults_eq cfg d hfit]
  rw [saveToEeprom_eq cfg _ (by simp [length_defaultRegistry])]

/-- C2: when the byte at offset 0 is not the sentinel, `setupFromEeprom` returns; the state it
leaves is the one `setDefaults` builds, which depends on the configuration alone (default
count, port, hostname and registry), the store is the one `saveToEeprom` leaves for that
state, and it carries the sentinel. -/
theorem setupFromEeprom_bad_sentinel (cfg : Config) (d : Device) (hfit : cfg.fits)
    (hbad : d.eeprom 0 ≠ magic) :
    ∃ d0 d1, setDefaults cfg d = some d0 ∧ saveToEeprom cfg d0 = some d1 ∧
      setupFromEeprom cfg d = some d1 ∧
      d1.numSwitches = d0.numSwitches ∧ d1.udpPort = d0.udpPort ∧
      d1.switchEntry = d0.switchEntry ∧ d1.myHostname = d0.myHostname ∧
      d1.numSwitches = cfg.defaultNumSwitches ∧ d1.udpPort = cfg.ALPACA_DISCOVERY_PORT ∧
      d1.switchEntry = defaultRegistry cfg ∧ d1.myHostname = cfg.defaultHostname ∧
      d1.eeprom 0 = magic := by
  refine ⟨_, _, setDefaults_eq cfg d hfit,
    saveToEeprom_eq cfg _ (by simp [length_defaultRegistry]),
    setupFromEeprom_defaults cfg d hfit hbad, rfl, rfl, rfl, rfl, rfl, rfl, rfl, rfl, ?_⟩
  exact saved_store_magic _ _

theorem setupFromEeprom_bad_sentinel_witness :
    sampleConfig.fits ∧ sampleDevice.eeprom 0 ≠ magic ∧
    ∃ d0 d1, setDefaults sampleConfig sampleDevice = some d0 ∧
      saveToEeprom sampleConfig d0 = some d1 ∧
      setupFromEeprom sampleConfig sampleDevice = some d1 ∧
      d1.numSwitches = d0.numSwitches ∧ d1.udpPort = d0.udpPort ∧
      d1.switchEntry = d0.switchEntry ∧ d1.myHostname = d0.myHostname ∧
      d1.numSwitches = sampleConfig.defaultNumSwitches ∧
      d1.udpPort = sampleConfig.ALPACA_DISCOVERY_PORT ∧
      d1.switchEntry = defaultRegistry sampleConfig ∧
      d1.myHostname = sampleConfig.defaultHostname ∧
      d1.eeprom 0 = magic :=
  ⟨by decide, by decide,
   setupFromEeprom_bad_sentinel sampleConfig sampleDevice (by decide) (by decide)⟩

theorem initSwitch_fields {maxLen : Nat} {target fresh : SwitchEntry}
    (h : initSwitch maxLen target = some fresh) :
    fresh.description = cstr "Default description" ∧ fresh.switchName = cstr "Switch Name" ∧
    fresh.writeable = false ∧ fresh.type = SWITCH_RELAY_NO ∧ fresh.min = f32Zero ∧
    fresh.max = f32Zero ∧ fresh.step = f32One ∧ fresh.value = f32Zero ∧
    fresh.pin = target.pin := by
  unfold initSwitch strncpyNew at h
  split at h
  · rename_i desc name hd hn
    split at hd
    · split at hn
      · simp only [Option.some.injEq] at hd hn h
        subst hd hn h
        simp
      · simp at hn
    · simp at hd
  · simp at h

theorem mem_defaultRegistry {cfg : Config} {e : SwitchEntry} (he : e ∈ defaultRegistry cfg) :
    ∃ i, i < cfg.defaultNumSwitches.toNat ∧ e = defaultSwitch i := by
  simp only [defaultRegistry, List.mem_map, List.mem_range'_1] at he
  obtain ⟨i, hi, rfl⟩ := he
  exact ⟨i, by omega, rfl⟩

/-- C3, as the code has it: every entry of the registry that default-state construction builds
has type RelayNO, writeable = true, min = 0, max = 1.0, step = 1, value = 0, and there are
`defaultNumSwitches` of them.  Such an entry agrees with the entry `initSwitch` prepares for
`reSize` in type, min, step, value and description, and differs from it in `writeable` and
`max`. -/
theorem default_entries_fields (cfg : Config) (d : Device) (hfit : cfg.fits)
    (hbad : d.eeprom 0 ≠ magic) :
    ∃ d1, setupFromEeprom cfg d = some d1 ∧
      d1.switchEntry.length = cfg.defaultNumSwitches.toNat ∧
      ∀ e ∈ d1.switchEntry,
        e.type = SWITCH_RELAY_NO ∧ e.writeable = true ∧ e.min = f32Zero ∧ e.max = f32One ∧
        e.step = f32One ∧ e.value = f32Zero ∧
        ∀ target fresh, initSwitch cfg.MAX_NAME_LENGTH target = some fresh →
          e.type = fresh.type ∧ e.min = fresh.min ∧ e.step = fresh.step ∧
          e.value = fresh.value ∧ e.description = fresh.description ∧
          e.writeable ≠ fresh.writeable ∧ e.max ≠ fresh.max := by
  refine ⟨_, setupFromEeprom_defaults cfg d hfit hbad, length_defaultRegistry cfg, ?_⟩
  intro e he
  obtain ⟨i, _, rfl⟩ := mem_defaultRegistry he
  refine ⟨rfl, rfl, rfl, rfl, rfl, rfl, ?_⟩
  intro target fresh hinit
  obtain ⟨hd, _, hw, ht, hmin, hmax, hstep, hval, _⟩ := initSwitch_fields hinit
  rw [hd, hw, ht, hmin, hmax, hstep, hval]
  refine ⟨rfl, rfl, rfl, rfl, rfl, ?_, ?_⟩
  · simp [defaultSwitch]
  · simp [defaultSwitch, f32One, f32Zero]

theorem default_entries_fields_witness :
    sampleConfig.fits ∧ erasedStore 0 ≠ magic ∧
    ∃ d1, setupFromEeprom sampleConfig { sampleDevice with eeprom := erasedStore } = some d1 ∧
      d1.switchEntry.length = sampleConfig.defaultNumSwitches.toNat ∧
      ∀ e ∈ d1.switchEntry,
        e.type = SWITCH_RELAY_NO ∧ e.writeable = true ∧ e.min = f32Zero ∧ e.max = f32One ∧
        e.step = f32One ∧ e.value = f32Zero ∧
        ∀ target fresh, initSwitch sampleConfig.MAX_NAME_LENGTH target = some fresh →
          e.type = fresh.type ∧ e.min = fresh.min ∧ e.step = fresh.step ∧
          e.value = fresh.value ∧ e.description = fresh.description ∧
          e.writeable ≠ fresh.writeable ∧ e.max ≠ fresh.max :=
  ⟨by decide, by decide,
   default_entries_fields sampleConfig { sampleDevice with eeprom := erasedStore } (by decide)
     (by decide)⟩

/-- C3 as stated fails: after a load from an erased store, entry 0 of the registry does not
have the field values writeable = false and max = 0 of a freshly resized entry. -/
theorem default_entry_not_resize_default :
    ∃ d1 e, setupFromEeprom sampleConfig sampleDevice = some d1 ∧
      d1.switchEntry[0]? = some e ∧
      ¬ (e.type = SWITCH_RELAY_NO ∧ e.writeable = false ∧ e.min = f32Zero ∧ e.max = f32Zero ∧
         e.step = f32One ∧ e.value = f32Zero) := by
  refine ⟨_, defaultSwitch 0,
    setupFromEeprom_defaults sampleConfig sampleDevice (by decide) (by decide), ?_, ?_⟩
  · decide
  · decide

/-! ## The switch count read from the store -/

/-- With a matching sentinel the count is taken from the store as it is. -/
theorem setupFromEeprom_numSwitches (cfg : Config) (d d1 : Device) (hmagic : d.eeprom 0 = magic)
    (h : setupFromEeprom cfg d = some d1) : d1.numSwitches = readInt d.eeprom 1 := by
  simp only [setupFromEeprom, hmagic, ne_eq, not_true_eq_false, if_false] at h
  split at h
  · simp at h
  · split at h
    · simp at h
    · simp only [Option.some.injEq] at h
      rw [← h]

/-- C4 fails on the code: the count is not clamped.  From a store with the sentinel whose count
bytes are FF FF FF FF the load leaves `numSwitches = -1`; from a store whose count bytes
encode 1000, with two entries allocated, the loop indexes `switchEntry` beyond the
allocation (no result). -/
theorem setupFromEeprom_count_not_clamped :
    (setupFromEeprom sampleConfig { sampleDevice with eeprom := minusOneCountStore }).map
        (fun d => d.numSwitches) = some (-1) ∧
    readInt thousandCountStore 1 = 1000 ∧
    (setupFromEeprom sampleConfig { sampleDevice with eeprom := thousandCountStore }).isSome
        = false := by
  refine ⟨?_, ?_, ?_⟩
  · decide
  · decide
  · decide

/-! ## Order of the writes of a save -/

theorem writeBlock_addr_ge (addr : Nat) (bs : List Nat) :
    ∀ w ∈ writeBlock addr bs, addr ≤ w.1 := by
  induction bs generalizing addr with
  | nil => intro w hw; simp [writeBlock] at hw
  | cons b bs ih =>
    intro w hw
    simp only [writeBlock, List.mem_cons] at hw
    rcases hw with rfl | hw
    · exact Nat.le_refl _
    · exact Nat.le_of_succ_le (ih (addr + 1) w hw)

theorem applyWrites_untouched (st : Store) (ws : WriteLog) (a : Nat)
    (h : ∀ w ∈ ws, w.1 ≠ a) : applyWrites st ws a = st a := by
  induction ws generalizing st with
  | nil => rfl
  | cons w ws ih =>
    have hw : a ≠ w.1 := fun heq => h w (by simp) heq.symm
    have hstep : applyWrites st (w :: ws) = applyWrites (eepromWrite st w) ws := rfl
    rw [hstep, ih _ (fun x hx => h x (List.mem_cons_of_mem _ hx))]
    simp [eepromWrite, hw]

theorem proper_initial_segment {α : Type} {pre post ws : List α} {x : α}
    (hpost : post ≠ []) (h : pre ++ post = ws ++ [x]) : ∀ w ∈ pre, w ∈ ws := by
  intro w hw
  have hlen : pre.length + post.length = ws.length + 1 := by
    have := congrArg List.length h
    simpa using this
  have hpos : 0 < post.length := List.length_pos.mpr hpost
  have htake : pre = (ws ++ [x]).take pre.length := by
    rw [← h]; simp
  rw [List.take_append_of_le_length (by omega)] at htake
  rw [htake] at hw
  exact List.mem_of_mem_take hw

/-- C5: the writes of `saveToEeprom` are a sequence of writes to addresses from 1 upwards
followed by one last write, that of the sentinel at address 0; applied to a store whose
sentinel is wrong, any proper initial part of the sequence leaves the sentinel wrong. -/
theorem saveToEeprom_sentinel_last (cfg : Config) (d : Device)
    (hn : d.numSwitches = d.switchEntry.length) :
    ∃ ws, saveWrites cfg d = some (ws ++ [(0, magic)]) ∧
      (∀ w ∈ ws, 1 ≤ w.1) ∧
      ∀ (st : Store) (pre post : WriteLog), st 0 ≠ magic → post ≠ [] →
        pre ++ post = ws ++ [(0, magic)] → applyWrites st pre 0 ≠ magic := by
  refine ⟨writeBlock 1 (storeImage cfg d), saveWrites_eq cfg d (by rw [hn]; simp),
    writeBlock_addr_ge 1 _, ?_⟩
  intro st pre post hst hpost hsplit
  have hpre := proper_initial_segment hpost hsplit
  rw [applyWrites_untouched st pre 0 (fun w hw => by
    have := writeBlock_addr_ge 1 _ w (hpre w hw)
    omega)]
  exact hst

theorem saveToEeprom_sentinel_last_witness :
    sampleDevice.numSwitches = sampleDevice.switchEntry.length ∧
    ∃ ws, saveWrites sampleConfig sampleDevice = some (ws ++ [(0, magic)]) ∧
      (∀ w ∈ ws, 1 ≤ w.1) ∧
      ∀ (st : Store) (pre post : WriteLog), st 0 ≠ magic → post ≠ [] →
        pre ++ post = ws ++ [(0, magic)] → applyWrites st pre 0 ≠ magic :=
  ⟨by decide, saveToEeprom_sentinel_last sampleConfig sampleDevice (by decide)⟩

/-! ## reSize -/

theorem initSwitch_eq (maxLen : Nat) (target : SwitchEntry)
    (hfit : (cstr "Default description").length < maxLen) :
    initSwitch maxLen target = some (freshSwitch target.pin) := by
  have hname : (cstr "Switch Name").length < maxLen :=
    Nat.lt_trans (by decide : (cstr "Switch Name").length < (cstr "Default description").length)
      hfit
  simp only [initSwitch, strncpyNew, hfit, hname, if_true, freshSwitch]

theorem newEntries_eq (maxLen : Nat) (heap : Nat → SwitchEntry)
    (hfit : (cstr "Default description").length < maxLen) (count : Nat) :
    ∀ i, newEntries maxLen heap count i =
      some ((List.range' i count).map (fun j => freshSwitch (heap j).pin)) := by
  induction count with
  | zero => intro i; simp [newEntries]
  | succ n ih =>
    intro i
    simp only [newEntries, initSwitch_eq maxLen _ hfit, ih (i + 1), List.range'_succ,
      List.map_cons]

/-- What `reSize` returns when `numSwitches` is the size of the old registry. -/
theorem reSize_eq (maxLen : Nat) (heap : Nat → SwitchEntry) (old : List SwitchEntry)
    (numSwitches newSize : Int) (hn : numSwitches = old.length) (hnew : 0 ≤ newSize)
    (hfit : (cstr "Default description").length < maxLen) :
    reSize maxLen heap numSwitches old newSize =
      some (old.take newSize.toNat ++
        (List.range' old.length (newSize.toNat - old.length)).map
          (fun j => freshSwitch (heap j).pin)) := by
  have hcount : numSwitches.toNat = old.length := by rw [hn]; simp
  unfold reSize
  by_cases hlt : newSize < numSwitches
  · have hle : newSize.toNat ≤ old.length := by omega
    have hzero : newSize.toNat - old.length = 0 := by omega
    simp [hlt, hcount, copyEntries, hle, hzero]
  · by_cases heq : newSize = numSwitches
    · have hzero : newSize.toNat - old.length = 0 := by omega
      have htake : old.take newSize.toNat = old := List.take_of_length_le (by omega)
      simp [heq, hcount, hzero]
    · have hge : old.length ≤ newSize.toNat := by omega
      have htake : old.take newSize.toNat = old := List.take_of_length_le hge
      simp only [hlt, heq, if_false, hcount, copyEntries, Nat.le_refl, if_true,
        newEntries_eq maxLen heap hfit, List.take_length, htake]

/-- C6: when `numSwitches` is the size of the registry and `newSize` is not negative, `reSize`
returns a registry of exactly `newSize` entries; below `min newSize size` every index holds
the old entry of that index; a shrink returns the initial part of the old registry and
`newSize = size` returns the old registry. -/
theorem reSize_keeps_entries (maxLen : Nat) (heap : Nat → SwitchEntry) (old : List SwitchEntry)
    (numSwitches newSize : Int) (hn : numSwitches = old.length) (hnew : 0 ≤ newSize)
    (hfit : (cstr "Default description").length < maxLen) :
    ∃ r, reSize maxLen heap numSwitches old newSize = some r ∧
      (r.length : Int) = newSize ∧
      (∀ i : Nat, (i : Int) < min newSize numSwitches → r[i]? = old[i]?) ∧
      (newSize ≤ numSwitches → r = old.take newSize.toNat) ∧
      (newSize = numSwitches → r = old) := by
  refine ⟨_, reSize_eq maxLen heap old numSwitches newSize hn hnew hfit, ?_, ?_, ?_, ?_⟩
  · simp only [List.length_append, List.length_take, List.length_map, List.length_range']
    omega
  · intro i hi
    have hi1 : i < newSize.toNat := by omega
    have hi2 : i < old.length := by omega
    rw [List.getElem?_append_left (by simp only [List.length_take]; omega),
      List.getElem?_take_of_lt hi1]
  · intro hle
    have hzero : newSize.toNat - old.length = 0 := by omega
    simp [hzero]
  · intro heq
    have hzero : newSize.toNat - old.length = 0 := by omega
    have htake : old.take newSize.toNat = old := List.take_of_length_le (by omega)
    simp [hzero, htake]

theorem reSize_keeps_entries_witness :
    (2 : Int) = sampleEntries.length ∧ (0 : Int) ≤ 1 ∧
    (cstr "Default description").length < 25 ∧
    ∃ r, reSize 25 (heapWithPin 7) 2 sampleEntries 1 = some r ∧
      (r.length : Int) = 1 ∧
      (∀ i : Nat, (i : Int) < min 1 2 → r[i]? = sampleEntries[i]?) ∧
      ((1 : Int) ≤ 2 → r = sampleEntries.take (1 : Int).toNat) ∧
      ((1 : Int) = 2 → r = sampleEntries) :=
  ⟨by decide, by decide, by decide,
   reSize_keeps_entries 25 (heapWithPin 7) sampleEntries 2 1 (by decide) (by decide)
     (by decide)⟩

/-- C7 on the code: when the registry grows, every appended entry has type RelayNO,
writeable = false, min = 0, max = 0, step = 1, value = 0, name "Switch Name" and description
"Default description", and its `pin` is whatever the `malloc`ed block held: `initSwitch` does
not assign it. -/
theorem reSize_fresh_entries (maxLen : Nat) (heap : Nat → SwitchEntry) (old : List SwitchEntry)
    (numSwitches newSize : Int) (hn : numSwitches = old.length) (hgrow : numSwitches < newSize)
    (hfit : (cstr "Default description").length < maxLen) :
    ∃ r, reSize maxLen heap numSwitches old newSize = some r ∧
      ∀ i : Nat, numSwitches ≤ i → (i : Int) < newSize →
        ∃ e, r[i]? = some e ∧ e.type = SWITCH_RELAY_NO ∧ e.writeable = false ∧
          e.min = f32Zero ∧ e.max = f32Zero ∧ e.step = f32One ∧ e.value = f32Zero ∧
          e.switchName = cstr "Switch Name" ∧ e.description = cstr "Default description" ∧
          e.pin = (heap i).pin := by
  refine ⟨_, reSize_eq maxLen heap old numSwitches newSize hn (by omega) hfit, ?_⟩
  intro i hlo hhi
  have htake : old.take newSize.toNat = old := List.take_of_length_le (by omega)
  have hi : old.length ≤ i := by omega
  refine ⟨freshSwitch (heap i).pin, ?_, rfl, rfl, rfl, rfl, rfl, rfl, rfl, rfl, rfl⟩
  rw [htake, List.getElem?_append_right hi]
  have hidx : i - old.length < newSize.toNat - old.length := by omega
  simp only [List.getElem?_map, List.getElem?_range' _ _ hidx, Option.map_some',
    Nat.one_mul]
  have hback : old.length + (i - old.length) = i := by omega
  rw [hback]

theorem reSize_fresh_entries_witness :
    (2 : Int) = sampleEntries.length ∧ (2 : Int) < 3 ∧
    (cstr "Default description").length < 25 ∧
    ∃ r, reSize 25 (heapWithPin 7) 2 sampleEntries 3 = some r ∧
      ∀ i : Nat, (2 : Int) ≤ i → (i : Int) < 3 →
        ∃ e, r[i]? = some e ∧ e.type = SWITCH_RELAY_NO ∧ e.writeable = false ∧
          e.min = f32Zero ∧ e.max = f32Zero ∧ e.step = f32One ∧ e.value = f32Zero ∧
          e.switchName = cstr "Switch Name" ∧ e.description = cstr "Default description" ∧
          e.pin = (heapWithPin 7 i).pin :=
  ⟨by decide, by decide, by decide,
   reSize_fresh_entries 25 (heapWithPin 7) sampleEntries 2 3 (by decide) (by decide)
     (by decide)⟩

/-- The `pin` of an appended entry is not determined by the arguments of `reSize`: the same
call on heap blocks with different old contents gives different pins. -/
theorem reSize_fresh_pin_not_determined :
    (reSize 25 (heapWithPin 7) 2 sampleEntries 3).map (fun r => r.map (fun e => e.pin))
      = some [3, 1, 7] ∧
    (reSize 25 (heapWithPin (-5)) 2 sampleEntries 3).map (fun r => r.map (fun e => e.pin))
      = some [3, 1, -5] := by
  constructor <;> decide

/-! ## Requests: arguments and the response envelope -/

theorem isInt32_toInt (s : CStr) : isInt32 (toInt s) := by
  have hmax : ∀ n : Nat, isInt32 (max (-2147483648) (-(n : Int))) := by
    intro n; unfold isInt32; omega
  have hmin : ∀ n : Nat, isInt32 (min 2147483647 (n : Int)) := by
    intro n; unfold isInt32; omega
  unfold toInt
  generalize List.dropWhile isSpaceByte s = body
  dsimp only
  split
  · exact hmax _
  · exact hmin _
  · exact hmin _

theorem hasArgIC_id_lower (req : Request) :
    hasArgIC (cstr "id") req false = hasArgIC (cstr "Id") req false := by
  have hkey : ∀ k : CStr, equalsIgnoreCase k (cstr "id") = equalsIgnoreCase k (cstr "Id") := by
    intro k
    have hl : (cstr "id").map toLowerByte = (cstr "Id").map toLowerByte := by decide
    simp only [equalsIgnoreCase, hl]
  simp only [hasArgIC, Bool.false_eq_true, if_false, hkey]

theorem errorNumber_withError (c t : Nat) (name : String) (e0 : Int) (m0 : CStr) (err : Int)
    (msg : CStr) :
    jsonGet (withError (jsonResponseBuilder c t name e0 m0) err msg) "ErrorNumber"
      = some (.int err) := by
  simp [withError, jsonSet, jsonGet, jsonResponseBuilder]

theorem errorNumber_success (c t : Nat) (name : String) (e0 : Int) (m0 : CStr) :
    jsonGet (jsonResponseBuilder c t name e0 m0) "ErrorNumber" = some (.int e0) := by
  simp [jsonGet, jsonResponseBuilder]

theorem errorNumber_value (c t : Nat) (name : String) (e0 : Int) (m0 : CStr) (v : JsonValue) :
    jsonGet (jsonSet (jsonResponseBuilder c t name e0 m0) "Value" v) "ErrorNumber"
      = some (.int e0) ∧
    jsonGet (jsonSet (jsonResponseBuilder c t name e0 m0) "Value" v) "Value" = some v := by
  simp [jsonSet, jsonGet, jsonResponseBuilder]

/-! ## Requests without the `Id` argument -/

/-- C8 on the code: on a request without the `Id` argument no handler changes the device;
canwrite, switchdescription, switchname, minswitchvalue, maxswitchvalue and switchstep answer
400 with the error InvalidOperation, switchstate sends 400 with an empty body (the object
that holds the error is never printed), and switchvalue answers 400 with InvalidValue. -/
theorem missing_id_responses (cfg : Config) (toFloat : CStr → F32) (d : Device) (req : Request)
    (hmiss : hasArgIC (cstr "Id") req false = false) :
    (∀ ep : Endpoint, ep ≠ .switchstate → ep ≠ .switchvalue →
      ∃ r, ep.handler cfg toFloat d req = some (d, r) ∧ r.code = 400 ∧
        r.errorNumber = some (.int invalidOperation)) ∧
    handlerSwitchState d req = some (d, { code := 400, message := none }) ∧
    (∃ r, handlerSwitchValue toFloat d req = some (d, r) ∧ r.code = 400 ∧
      r.errorNumber = some (.int invalidValue)) ∧
    invalidValue ≠ invalidOperation := by
  have hlow : hasArgIC (cstr "id") req false = false := by rw [hasArgIC_id_lower, hmiss]
  refine ⟨?_, ?_, ?_, by decide⟩
  · intro ep h1 h2
    cases ep with
    | canwrite =>
      simp only [Endpoint.handler, handlerCanWrite, hmiss, Bool.false_eq_true, if_false]
      exact ⟨_, rfl, rfl, errorNumber_withError _ _ _ _ _ _ _⟩
    | switchstate => exact absurd rfl h1
    | switchdescription =>
      simp only [Endpoint.handler, handlerSwitchDescription, hmiss, Bool.false_eq_true, if_false]
      exact ⟨_, rfl, rfl, errorNumber_withError _ _ _ _ _ _ _⟩
    | switchname =>
      simp only [Endpoint.handler, handlerSwitchName, hmiss, Bool.false_eq_true, if_false]
      exact ⟨_, rfl, rfl, errorNumber_withError _ _ _ _ _ _ _⟩
    | switchvalue => exact absurd rfl h2
    | minswitchvalue =>
      simp only [Endpoint.handler, handlerMinSwitchValue, hlow, Bool.false_eq_true, if_false]
      exact ⟨_, rfl, rfl, errorNumber_withError _ _ _ _ _ _ _⟩
    | maxswitchvalue =>
      simp only [Endpoint.handler, handlerMaxSwitchValue, hmiss, Bool.false_eq_true, if_false]
      exact ⟨_, rfl, rfl, errorNumber_withError _ _ _ _ _ _ _⟩
    | switchstep =>
      simp only [Endpoint.handler, handlerSwitchStep, hmiss, Bool.false_eq_true, if_false]
      exact ⟨_, rfl, rfl, errorNumber_withError _ _ _ _ _ _ _⟩
  · simp only [handlerSwitchState, hmiss, Bool.false_eq_true, if_false]
  · simp only [handlerSwitchValue, hmiss, Bool.false_eq_true, if_false]
    exact ⟨_, rfl, rfl, errorNumber_withError _ _ _ _ _ _ _⟩

theorem missing_id_responses_witness :
    hasArgIC (cstr "Id") { method := .HTTP_GET, args := [] } false = false ∧
    (∀ ep : Endpoint, ep ≠ .switchstate → ep ≠ .switchvalue →
      ∃ r, ep.handler sampleConfig (fun _ => f32Zero) sampleDevice
          { method := .HTTP_GET, args := [] } = some (sampleDevice, r) ∧ r.code = 400 ∧
        r.errorNumber = some (.int invalidOperation)) ∧
    handlerSwitchState sampleDevice { method := .HTTP_GET, args := [] }
      = some (sampleDevice, { code := 400, message := none }) ∧
    (∃ r, handlerSwitchValue (fun _ => f32Zero) sampleDevice { method := .HTTP_GET, args := [] }
        = some (sampleDevice, r) ∧ r.code = 400 ∧
      r.errorNumber = some (.int invalidValue)) ∧
    invalidValue ≠ invalidOperation :=
  ⟨by decide,
   missing_id_responses sampleConfig (fun _ => f32Zero) sampleDevice
     { method := .HTTP_GET, args := [] } (by decide)⟩

/-! ## Requests with an `Id` outside the registry -/

theorem intBits_not_lt {v n : Int} (hv : isInt32 v) (hn : isInt32 n) (hn0 : 0 ≤ n)
    (hrange : v < 0 ∨ n ≤ v) : ¬ intBits v < intBits n := by
  unfold isInt32 at hv hn
  unfold intBits
  omega

theorem toInt_nil : toInt [] = 0 := by decide

/-- The handlers of the embedding are the handlers with `hasArgIC` left open, taken at the
presence test that leaves the name as it is. -/
theorem handler_eq_handlerWith (cfg : Config) (toFloat : CStr → F32) (ep : Endpoint) :
    ep.handler cfg toFloat = ep.handlerWith presenceTest cfg toFloat := by
  cases ep <;> rfl

/-- C9: whatever `hasArgIC` does, for every switch-scoped endpoint and every request in which
the handler finds its identifier argument and reads from it an integer that is negative or
not below `numSwitches`, whatever the verb and the other arguments, the handler answers 400
with the error InvalidValue and returns the device as it was, without indexing the registry;
the two handlers that hold the identifier in a `uint32_t` are among them. -/
theorem id_out_of_range_responses (look : ArgLookup) (cfg : Config) (toFloat : CStr → F32)
    (d : Device) (req : Request) (ep : Endpoint)
    (hn : d.numSwitches = d.switchEntry.length) (hr : isInt32 d.numSwitches)
    (hid : (look ep.idKey req false).1 = true)
    (hrange : toInt (serverArg req (look ep.idKey req false).2) < 0 ∨
      d.numSwitches ≤ toInt (serverArg req (look ep.idKey req false).2)) :
    ∃ r, ep.handlerWith look cfg toFloat d req = some (d, r) ∧ r.code = 400 ∧
      r.errorNumber = some (.int invalidValue) := by
  have hnot : ¬ (0 ≤ toInt (serverArg req (look ep.idKey req false).2) ∧
      toInt (serverArg req (look ep.idKey req false).2) < d.numSwitches) := by omega
  have hn0 : 0 ≤ d.numSwitches := by rw [hn]; exact Int.ofNat_nonneg _
  have hnotu : ¬ intBits (toInt (serverArg req (look ep.idKey req false).2))
      < intBits d.numSwitches :=
    intBits_not_lt (isInt32_toInt _) hr hn0 hrange
  cases ep with
  | canwrite =>
    simp only [Endpoint.idKey] at hid hnot
    simp only [Endpoint.handlerWith, handlerCanWriteWith, hid, if_true, hnot, if_false]
    exact ⟨_, rfl, rfl, errorNumber_withError _ _ _ _ _ _ _⟩
  | switchstate =>
    simp only [Endpoint.idKey] at hid hnot
    simp only [Endpoint.handlerWith, handlerSwitchStateWith, hid, if_true, hnot, if_false]
    exact ⟨_, rfl, rfl, errorNumber_withError _ _ _ _ _ _ _⟩
  | switchdescription =>
    simp only [Endpoint.idKey] at hid hnot
    simp only [Endpoint.handlerWith, handlerSwitchDescriptionWith, hid, if_true, hnot, if_false]
    exact ⟨_, rfl, rfl, errorNumber_withError _ _ _ _ _ _ _⟩
  | switchname =>
    simp only [Endpoint.idKey] at hid hnot
    simp only [Endpoint.handlerWith, handlerSwitchNameWith, hid, if_true, hnot, if_false]
    exact ⟨_, rfl, rfl, errorNumber_withError _ _ _ _ _ _ _⟩
  | switchvalue =>
    simp only [Endpoint.idKey] at hid hnotu
    simp only [Endpoint.handlerWith, handlerSwitchValueWith, hid, if_true, hnotu, if_false]
    exact ⟨_, rfl, rfl, errorNumber_withError _ _ _ _ _ _ _⟩
  | minswitchvalue =>
    simp only [Endpoint.idKey] at hid hnot
    simp only [Endpoint.handlerWith, handlerMinSwitchValueWith, hid, if_true, hnot, if_false]
    exact ⟨_, rfl, rfl, errorNumber_withError _ _ _ _ _ _ _⟩
  | maxswitchvalue =>
    simp only [Endpoint.idKey] at hid hnot
    simp only [Endpoint.handlerWith, handlerMaxSwitchValueWith, hid, if_true, hnot, if_false]
    exact ⟨_, rfl, rfl, errorNumber_withError _ _ _ _ _ _ _⟩
  | switchstep =>
    simp only [Endpoint.idKey] at hid hnotu
    simp only [Endpoint.handlerWith, handlerSwitchStepWith, hid, if_true, hnotu, if_false]
    exact ⟨_, rfl, rfl, errorNumber_withError _ _ _ _ _ _ _⟩

theorem id_out_of_range_responses_witness :
    sampleDevice.numSwitches = sampleDevice.switchEntry.length ∧
    isInt32 sampleDevice.numSwitches ∧
    (presenceTest Endpoint.switchstep.idKey
      { method := .HTTP_PUT, args := [(cstr "Id", cstr "-1")] } false).1 = true ∧
    (toInt (serverArg { method := .HTTP_PUT, args := [(cstr "Id", cstr "-1")] }
        (presenceTest Endpoint.switchstep.idKey
          { method := .HTTP_PUT, args := [(cstr "Id", cstr "-1")] } false).2) < 0 ∨
      sampleDevice.numSwitches ≤
        toInt (serverArg { method := .HTTP_PUT, args := [(cstr "Id", cstr "-1")] }
          (presenceTest Endpoint.switchstep.idKey
            { method := .HTTP_PUT, args := [(cstr "Id", cstr "-1")] } false).2)) ∧
    ∃ r, Endpoint.switchstep.handlerWith presenceTest sampleConfig (fun _ => f32Zero) sampleDevice
        { method := .HTTP_PUT, args := [(cstr "Id", cstr "-1")] } = some (sampleDevice, r) ∧
      r.code = 400 ∧ r.errorNumber = some (.int invalidValue) :=
  ⟨by decide, by decide, by decide, by decide,
   id_out_of_range_responses presenceTest sampleConfig (fun _ => f32Zero) sampleDevice
     { method := .HTTP_PUT, args := [(cstr "Id", cstr "-1")] } .switchstep (by decide) (by decide)
     (by decide) (by decide)⟩

/-- The request `GET minswitchvalue?Id=99` on a registry of two switches depends on
`hasArgIC`.  With the presence test that leaves the name as it is, the handler asks
`server.arg` for `"id"`, reads 0 and answers 200 with `min` of entry 0. -/
theorem handlerMinSwitchValue_id_99 :
    (handlerMinSwitchValue sampleDevice
        { method := .HTTP_GET, args := [(cstr "Id", cstr "99")] }).map (fun p => p.2)
      = some { code := 200,
               message := some [("ClientID", .int 0), ("ClientTransactionID", .int 0),
                 ("Method", .str (cstr "MinSwitchValue")), ("ErrorNumber", .int 0),
                 ("ErrorMessage", .str []), ("Value", .float f32Zero)] } := by
  decide

/-- The same request with a helper that hands back the name as the request spells it: the
handler reads 99 and answers 400 with the error InvalidValue, the device as it was. -/
theorem handlerMinSwitchValueWith_id_99 :
    (handlerMinSwitchValueWith matchedName sampleDevice
        { method := .HTTP_GET, args := [(cstr "Id", cstr "99")] }).map
        (fun p => (p.1.switchEntry, p.2.code, p.2.errorNumber))
      = some (sampleDevice.switchEntry, 400, some (.int invalidValue)) := by
  decide

/-! ## switchstate on a relay -/

theorem f32IsOne_ofBool (b : Bool) : f32IsOne (if b then f32One else f32Zero) = b := by
  cases b <;> decide

/-- C10: for an identifier inside the registry whose entry is a relay (RelayNO or RelayNC) and
a PUT switchstate request whose `State` argument reads as the boolean `b`, the handler
answers 200 with error number 0, stores 1.0 in `value` when `b` is true and 0.0 when it is
false, and passes `b` (as 1 or 0) with the identifier to `switchDevice.write`; a GET
switchstate that follows answers 200 with `Value` = `b`. -/
theorem switchstate_put_then_get (d : Device) (id : Nat) (e : SwitchEntry) (b : Bool)
    (put get : Request) (hn : d.numSwitches = d.switchEntry.length)
    (he : d.switchEntry[id]? = some e)
    (hrelay : e.type = SWITCH_RELAY_NO ∨ e.type = SWITCH_RELAY_NC)
    (hput : put.method = .HTTP_PUT) (hputId : hasArgIC (cstr "Id") put false = true)
    (hputIdv : toInt (serverArg put (cstr "Id")) = id)
    (hstate : hasArgIC (cstr "State") put false = true)
    (hb : equalsIgnoreCase (serverArg put (cstr "State")) (cstr "true") = b)
    (hget : get.method = .HTTP_GET) (hgetId : hasArgIC (cstr "Id") get false = true)
    (hgetIdv : toInt (serverArg get (cstr "Id")) = id) :
    ∃ d1 r1 r2, handlerSwitchState d put = some (d1, r1) ∧ r1.code = 200 ∧
      r1.errorNumber = some (.int Success) ∧
      d1.numSwitches = d.numSwitches ∧
      d1.switchEntry[id]? = some { e with value := if b then f32One else f32Zero } ∧
      d1.hwWrites = d.hwWrites ++ [((id : Int), if b then 1 else 0)] ∧
      handlerSwitchState d1 get = some (d1, r2) ∧ r2.code = 200 ∧
      r2.errorNumber = some (.int Success) ∧
      r2.message.bind (fun root => jsonGet root "Value") = some (.bool b) := by
  have hlt : id < d.switchEntry.length := by
    rcases Nat.lt_or_ge id d.switchEntry.length with h | h
    · exact h
    · rw [List.getElem?_eq_none h] at he
      simp at he
  have hin : (0 : Int) ≤ (id : Int) ∧ (id : Int) < d.numSwitches := by omega
  have hset : (d.switchEntry.set id { e with value := if b then f32One else f32Zero })[id]?
      = some { e with value := if b then f32One else f32Zero } := by
    rw [List.getElem?_set_self hlt]
  have hputres : handlerSwitchState d put =
      some ({ d with hwWrites := d.hwWrites ++ [((id : Int), if b then 1 else 0)],
                     switchEntry := d.switchEntry.set id
                       { e with value := if b then f32One else f32Zero } },
            { code := 200,
              message := some (jsonResponseBuilder (clientIDOf put) (transIDOf put)
                "SwitchState" Success []) }) := by
    simp only [handlerSwitchState, hputId, if_true, hputIdv, hin, and_self, hput, reduceCtorEq,
      if_false, hstate, Int.toNat_ofNat, he, hrelay, hb]
  have hgetres : handlerSwitchState
      { d with hwWrites := d.hwWrites ++ [((id : Int), if b then 1 else 0)],
               switchEntry := d.switchEntry.set id
                 { e with value := if b then f32One else f32Zero } } get =
      some ({ d with hwWrites := d.hwWrites ++ [((id : Int), if b then 1 else 0)],
                     switchEntry := d.switchEntry.set id
                       { e with value := if b then f32One else f32Zero } },
            { code := 200,
              message := some (jsonSet (jsonResponseBuilder (clientIDOf get) (transIDOf get)
                "SwitchState" Success []) "Value" (.bool b)) }) := by
    simp only [handlerSwitchState, hgetId, if_true, hgetIdv, hin, and_self, hget,
      Int.toNat_ofNat, hset, hrelay, f32IsOne_ofBool]
  exact ⟨_, _, _, hputres, rfl, errorNumber_success _ _ _ _ _, rfl, hset, rfl, hgetres, rfl,
    (errorNumber_value _ _ _ _ _ (.bool b)).1, (errorNumber_value _ _ _ _ _ (.bool b)).2⟩

theorem switchstate_put_then_get_witness :
    sampleDevice.numSwitches = sampleDevice.switchEntry.length ∧
    sampleDevice.switchEntry[0]? = some
      { description := cstr "Dew heater", switchName := cstr "Heater", writeable := true,
        type := SWITCH_RELAY_NO, pin := 3, min := f32Zero, max := f32One, step := f32One,
        value := f32One } ∧
    ∃ d1 r1 r2,
      handlerSwitchState sampleDevice
        { method := .HTTP_PUT, args := [(cstr "Id", cstr "0"), (cstr "State", cstr "False")] }
        = some (d1, r1) ∧ r1.code = 200 ∧
      r1.errorNumber = some (.int Success) ∧
      d1.numSwitches = sampleDevice.numSwitches ∧
      d1.switchEntry[0]? = some
        { description := cstr "Dew heater", switchName := cstr "Heater", writeable := true,
          type := SWITCH_RELAY_NO, pin := 3, min := f32Zero, max := f32One, step := f32One,
          value := if false then f32One else f32Zero } ∧
      d1.hwWrites = sampleDevice.hwWrites ++ [(((0 : Nat) : Int), if false then 1 else 0)] ∧
      handlerSwitchState d1 { method := .HTTP_GET, args := [(cstr "Id", cstr "0")] }
        = some (d1, r2) ∧ r2.code = 200 ∧
      r2.errorNumber = some (.int Success) ∧
      r2.message.bind (fun root => jsonGet root "Value") = some (.bool false) :=
  ⟨by decide, by decide,
   switchstate_put_then_get sampleDevice 0
     { description := cstr "Dew heater", switchName := cstr "Heater", writeable := true,
       type := SWITCH_RELAY_NO, pin := 3, min := f32Zero, max := f32One, step := f32One,
       value := f32One } false
     { method := .HTTP_PUT, args := [(cstr "Id", cstr "0"), (cstr "State", cstr "False")] }
     { method := .HTTP_GET, args := [(cstr "Id", cstr "0")] }
     (by decide) (by decide) (by decide) (by decide) (by decide) (by decide) (by decide)
     (by decide) (by decide) (by decide) (by decide)⟩

/-! ## Identifiers inside the registry -/

theorem lt_length_of_getElem? {α : Type} {l : List α} {i : Nat} {a : α}
    (h : l[i]? = some a) : i < l.length := by
  rcases Nat.lt_or_ge i l.length with hlt | hge
  · exact hlt
  · rw [List.getElem?_eq_none hge] at h
    simp at h

theorem intBits_natCast {n : Nat} (h : (n : Int) < 2147483648) : intBits (n : Int) = n := by
  unfold intBits
  omega

/-- The `uint32_t` test of `handlerSwitchValue` and `handlerSwitchStep` accepts an identifier
inside a registry whose size `numSwitches` records. -/
theorem uint32_id_in_range {d : Device} {id : Nat} {e : SwitchEntry}
    (hn : d.numSwitches = d.switchEntry.length) (hr : isInt32 d.numSwitches)
    (he : d.switchEntry[id]? = some e) :
    intBits (id : Int) = id ∧ id < intBits d.numSwitches := by
  have hlt := lt_length_of_getElem? he
  unfold isInt32 at hr
  have h1 : intBits (id : Int) = id := intBits_natCast (by omega)
  have h2 : intBits d.numSwitches = d.switchEntry.length := by
    rw [hn]; exact intBits_natCast (by omega)
  rw [h1, h2]
  exact ⟨rfl, hlt⟩

theorem int_id_in_range {d : Device} {id : Nat} {e : SwitchEntry}
    (hn : d.numSwitches = d.switchEntry.length) (he : d.switchEntry[id]? = some e) :
    (0 : Int) ≤ (id : Int) ∧ (id : Int) < d.numSwitches := by
  have hlt := lt_length_of_getElem? he
  omega

theorem analogue_not_relay {e : SwitchEntry}
    (h : e.type = SWITCH_PWM ∨ e.type = SWITCH_ANALG_DAC) :
    ¬ (e.type = SWITCH_RELAY_NO ∨ e.type = SWITCH_RELAY_NC) := by
  unfold SWITCH_PWM SWITCH_ANALG_DAC at h
  unfold SWITCH_RELAY_NO SWITCH_RELAY_NC
  omega

theorem relay_not_analogue {e : SwitchEntry}
    (h : e.type = SWITCH_RELAY_NO ∨ e.type = SWITCH_RELAY_NC) :
    ¬ (e.type = SWITCH_PWM ∨ e.type = SWITCH_ANALG_DAC) := by
  unfold SWITCH_RELAY_NO SWITCH_RELAY_NC at h
  unfold SWITCH_PWM SWITCH_ANALG_DAC
  omega

/-! ## switchstate on a PWM or DAC entry -/

/-- C11 on the code: for an identifier inside the registry whose entry is PWM or DAC,
`handlerSwitchState` leaves the device as it was (entry unchanged, nothing written to the
hardware) and answers 400; the error is InvalidOperation for a PUT, with or without the
`State` argument, and InvalidValue for a GET. -/
theorem switchstate_on_analogue (d : Device) (id : Nat) (e : SwitchEntry) (req : Request)
    (hn : d.numSwitches = d.switchEntry.length) (he : d.switchEntry[id]? = some e)
    (htype : e.type = SWITCH_PWM ∨ e.type = SWITCH_ANALG_DAC)
    (hid : hasArgIC (cstr "Id") req false = true)
    (hidv : toInt (serverArg req (cstr "Id")) = id) :
    (req.method = .HTTP_GET →
      ∃ r, handlerSwitchState d req = some (d, r) ∧ r.code = 400 ∧
        r.errorNumber = some (.int invalidValue)) ∧
    (req.method = .HTTP_PUT →
      ∃ r, handlerSwitchState d req = some (d, r) ∧ r.code = 400 ∧
        r.errorNumber = some (.int invalidOperation)) ∧
    invalidValue ≠ invalidOperation := by
  have hin := int_id_in_range hn he
  have hnr := analogue_not_relay htype
  refine ⟨?_, ?_, by decide⟩
  · intro hget
    simp only [handlerSwitchState, hid, if_true, hidv, hin, and_self, hget, Int.toNat_ofNat, he,
      hnr, if_false]
    exact ⟨_, rfl, rfl, errorNumber_withError _ _ _ _ _ _ _⟩
  · intro hput
    by_cases hstate : hasArgIC (cstr "State") req false = true
    · simp only [handlerSwitchState, hid, if_true, hidv, hin, and_self, hput, reduceCtorEq,
        if_false, hstate, Int.toNat_ofNat, he, hnr]
      exact ⟨_, rfl, rfl, errorNumber_withError _ _ _ _ _ _ _⟩
    · simp only [handlerSwitchState, hid, if_true, hidv, hin, and_self, hput, reduceCtorEq,
        if_false, hstate, and_false]
      exact ⟨_, rfl, rfl, errorNumber_withError _ _ _ _ _ _ _⟩

theorem switchstate_on_analogue_witness :
    sampleDevice.numSwitches = sampleDevice.switchEntry.length ∧
    sampleDevice.switchEntry[1]? = some
      { description := cstr "Flat panel", switchName := cstr "Panel", writeable := true,
        type := SWITCH_PWM, pin := 1, min := f32Zero, max := 1149239296, step := f32One,
        value := f32Zero } ∧
    ((HTTPMethod.HTTP_GET = HTTPMethod.HTTP_GET →
      ∃ r, handlerSwitchState sampleDevice
          { method := .HTTP_GET, args := [(cstr "Id", cstr "1")] } = some (sampleDevice, r) ∧
        r.code = 400 ∧ r.errorNumber = some (.int invalidValue)) ∧
    (HTTPMethod.HTTP_GET = HTTPMethod.HTTP_PUT →
      ∃ r, handlerSwitchState sampleDevice
          { method := .HTTP_GET, args := [(cstr "Id", cstr "1")] } = some (sampleDevice, r) ∧
        r.code = 400 ∧ r.errorNumber = some (.int invalidOperation)) ∧
    invalidValue ≠ invalidOperation) :=
  ⟨by decide, by decide,
   switchstate_on_analogue sampleDevice 1
     { description := cstr "Flat panel", switchName := cstr "Panel", writeable := true,
       type := SWITCH_PWM, pin := 1, min := f32Zero, max := 1149239296, step := f32One,
       value := f32Zero }
     { method := .HTTP_GET, args := [(cstr "Id", cstr "1")] }
     (by decide) (by decide) (by decide) (by decide) (by decide)⟩

/-! ## switchvalue on a relay -/

/-- C12: for an identifier inside the registry whose entry is a relay (RelayNO or RelayNC),
`handlerSwitchValue` answers every request, GET and PUT with any value included, with 400
and the error InvalidOperation, and leaves the device as it was. -/
theorem switchvalue_on_relay (toFloat : CStr → F32) (d : Device) (id : Nat) (e : SwitchEntry)
    (req : Request) (hn : d.numSwitches = d.switchEntry.length) (hr : isInt32 d.numSwitches)
    (he : d.switchEntry[id]? = some e)
    (hrelay : e.type = SWITCH_RELAY_NO ∨ e.type = SWITCH_RELAY_NC)
    (hid : hasArgIC (cstr "Id") req false = true)
    (hidv : toInt (serverArg req (cstr "Id")) = id) :
    ∃ r, handlerSwitchValue toFloat d req = some (d, r) ∧ r.code = 400 ∧
      r.errorNumber = some (.int invalidOperation) := by
  obtain ⟨hbits, hlt⟩ := uint32_id_in_range hn hr he
  have hna := relay_not_analogue hrelay
  have hnp : ¬ e.type = SWITCH_PWM := fun h => hna (Or.inl h)
  by_cases hget : req.method = .HTTP_GET
  · simp only [handlerSwitchValue, hid, if_true, hidv, hlt, hget, hbits, he, hna, if_false,
      hrelay]
    exact ⟨_, rfl, rfl, errorNumber_withError _ _ _ _ _ _ _⟩
  · by_cases hput : req.method = .HTTP_PUT ∧ hasArgIC (cstr "Value") req false = true
    · simp only [handlerSwitchValue, hid, if_true, hidv, hlt, hget, if_false, hput, and_self,
        hbits, he, hnp, hrelay]
      exact ⟨_, rfl, rfl, errorNumber_withError _ _ _ _ _ _ _⟩
    · simp only [handlerSwitchValue, hid, if_true, hidv, hbits, hlt, hget, if_false, hput]
      exact ⟨_, rfl, rfl, errorNumber_withError _ _ _ _ _ _ _⟩

theorem switchvalue_on_relay_witness :
    sampleDevice.numSwitches = sampleDevice.switchEntry.length ∧
    isInt32 sampleDevice.numSwitches ∧
    sampleDevice.switchEntry[0]? = some
      { description := cstr "Dew heater", switchName := cstr "Heater", writeable := true,
        type := SWITCH_RELAY_NO, pin := 3, min := f32Zero, max := f32One, step := f32One,
        value := f32One } ∧
    ∃ r, handlerSwitchValue (fun _ => f32One) sampleDevice
        { method := .HTTP_PUT, args := [(cstr "Id", cstr "0"), (cstr "Value", cstr "1.0")] }
        = some (sampleDevice, r) ∧ r.code = 400 ∧
      r.errorNumber = some (.int invalidOperation) :=
  ⟨by decide, by decide, by decide,
   switchvalue_on_relay (fun _ => f32One) sampleDevice 0
     { description := cstr "Dew heater", switchName := cstr "Heater", writeable := true,
       type := SWITCH_RELAY_NO, pin := 3, min := f32Zero, max := f32One, step := f32One,
       value := f32One }
     { method := .HTTP_PUT, args := [(cstr "Id", cstr "0"), (cstr "Value", cstr "1.0")] }
     (by decide) (by decide) (by decide) (by decide) (by decide) (by decide)⟩

/-! ## switchvalue on a PWM or DAC entry -/

/-- What `handlerSwitchValue` does with a PUT that carries `Value`, on a PWM or DAC entry
inside the registry: the answer is 200 with error number 0 and the value went through
`storeIfInRange`. -/
theorem handlerSwitchValue_put_analogue (toFloat : CStr → F32) (d : Device) (id : Nat)
    (e : SwitchEntry) (req : Request) (hn : d.numSwitches = d.switchEntry.length)
    (hr : isInt32 d.numSwitches) (he : d.switchEntry[id]? = some e)
    (htype : e.type = SWITCH_PWM ∨ e.type = SWITCH_ANALG_DAC)
    (hput : req.method = .HTTP_PUT) (hid : hasArgIC (cstr "Id") req false = true)
    (hidv : toInt (serverArg req (cstr "Id")) = id)
    (hval : hasArgIC (cstr "Value") req false = true) :
    handlerSwitchValue toFloat d req =
      some (storeIfInRange d id e (toFloat (serverArg req (cstr "Value"))),
            { code := 200,
              message := some (jsonResponseBuilder (clientIDOf req) (transIDOf req)
                "SwitchValue" 0 []) }) := by
  obtain ⟨hbits, hlt⟩ := uint32_id_in_range hn hr he
  have hnr := analogue_not_relay htype
  rcases htype with hp | hdac
  · simp only [handlerSwitchValue, hid, if_true, hidv, hbits, hlt, hput, reduceCtorEq, if_false,
      hval, and_self, he, hp]
  · have h1 : ¬ SWITCH_ANALG_DAC = SWITCH_PWM := by decide
    have h2 : ¬ (SWITCH_ANALG_DAC = SWITCH_RELAY_NO ∨ SWITCH_ANALG_DAC = SWITCH_RELAY_NC) := by
      decide
    simp only [handlerSwitchValue, hid, if_true, hidv, hbits, hlt, hput, reduceCtorEq, if_false,
      hval, and_self, he, hdac, h1, h2]

theorem handlerSwitchValue_get_analogue (toFloat : CStr → F32) (d : Device) (id : Nat)
    (e : SwitchEntry) (req : Request) (hn : d.numSwitches = d.switchEntry.length)
    (hr : isInt32 d.numSwitches) (he : d.switchEntry[id]? = some e)
    (htype : e.type = SWITCH_PWM ∨ e.type = SWITCH_ANALG_DAC)
    (hget : req.method = .HTTP_GET) (hid : hasArgIC (cstr "Id") req false = true)
    (hidv : toInt (serverArg req (cstr "Id")) = id) :
    handlerSwitchValue toFloat d req =
      some (d, { code := 200,
                 message := some (jsonSet (jsonResponseBuilder (clientIDOf req) (transIDOf req)
                   "SwitchValue" 0 []) "Value" (.float e.value)) }) := by
  obtain ⟨hbits, hlt⟩ := uint32_id_in_range hn hr he
  simp only [handlerSwitchValue, hid, if_true, hidv, hbits, hlt, hget, he, htype]

/-- C13: for an identifier inside the registry whose entry is PWM or DAC and a PUT switchvalue
whose value `x` lies between `min` and `max` (float comparison), the handler answers 200 with
error number 0 and stores `x`; a GET switchvalue that follows answers 200 with `Value` = `x`,
and the stored entry has `min <= value <= max`. -/
theorem switchvalue_put_then_get (toFloat : CStr → F32) (d : Device) (id : Nat)
    (e : SwitchEntry) (x : F32) (put get : Request)
    (hn : d.numSwitches = d.switchEntry.length) (hr : isInt32 d.numSwitches)
    (he : d.switchEntry[id]? = some e)
    (htype : e.type = SWITCH_PWM ∨ e.type = SWITCH_ANALG_DAC)
    (hput : put.method = .HTTP_PUT) (hputId : hasArgIC (cstr "Id") put false = true)
    (hputIdv : toInt (serverArg put (cstr "Id")) = id)
    (hval : hasArgIC (cstr "Value") put false = true)
    (hx : toFloat (serverArg put (cstr "Value")) = x)
    (hlo : f32Le e.min x = true) (hhi : f32Le x e.max = true)
    (hget : get.method = .HTTP_GET) (hgetId : hasArgIC (cstr "Id") get false = true)
    (hgetIdv : toInt (serverArg get (cstr "Id")) = id) :
    ∃ d1 e1 r1 r2, handlerSwitchValue toFloat d put = some (d1, r1) ∧ r1.code = 200 ∧
      r1.errorNumber = some (.int Success) ∧
      d1.switchEntry[id]? = some e1 ∧ e1 = { e with value := x } ∧
      f32Le e1.min e1.value = true ∧ f32Le e1.value e1.max = true ∧
      handlerSwitchValue toFloat d1 get = some (d1, r2) ∧ r2.code = 200 ∧
      r2.errorNumber = some (.int Success) ∧
      r2.message.bind (fun root => jsonGet root "Value") = some (.float x) := by
  have hlt := lt_length_of_getElem? he
  have hputres := handlerSwitchValue_put_analogue toFloat d id e put hn hr he htype hput hputId
    hputIdv hval
  have hstore : storeIfInRange d id e x =
      { d with switchEntry := d.switchEntry.set id { e with value := x } } := by
    simp only [storeIfInRange, hlo, hhi, Bool.and_self, if_true]
  rw [hx, hstore] at hputres
  have hset : (d.switchEntry.set id { e with value := x })[id]? = some { e with value := x } :=
    List.getElem?_set_self hlt
  have hgetres := handlerSwitchValue_get_analogue toFloat
    { d with switchEntry := d.switchEntry.set id { e with value := x } } id
    { e with value := x } get (by simp [hn]) hr hset htype hget hgetId hgetIdv
  exact ⟨_, _, _, _, hputres, rfl, errorNumber_success _ _ _ _ _, hset, rfl, hlo, hhi, hgetres,
    rfl, (errorNumber_value _ _ _ _ _ (.float x)).1, (errorNumber_value _ _ _ _ _ (.float x)).2⟩

theorem switchvalue_put_then_get_witness :
    sixSwitchDevice.numSwitches = sixSwitchDevice.switchEntry.length ∧
    isInt32 sixSwitchDevice.numSwitches ∧
    sixSwitchDevice.switchEntry[5]? = some pwmEntry ∧
    f32Le pwmEntry.min f32_512 = true ∧ f32Le f32_512 pwmEntry.max = true ∧
    ∃ d1 e1 r1 r2,
      handlerSwitchValue sampleToFloat sixSwitchDevice
        { method := .HTTP_PUT, args := [(cstr "Id", cstr "5"), (cstr "Value", cstr "512")] }
        = some (d1, r1) ∧ r1.code = 200 ∧
      r1.errorNumber = some (.int Success) ∧
      d1.switchEntry[5]? = some e1 ∧ e1 = { pwmEntry with value := f32_512 } ∧
      f32Le e1.min e1.value = true ∧ f32Le e1.value e1.max = true ∧
      handlerSwitchValue sampleToFloat d1
        { method := .HTTP_GET, args := [(cstr "Id", cstr "5")] } = some (d1, r2) ∧
      r2.code = 200 ∧ r2.errorNumber = some (.int Success) ∧
      r2.message.bind (fun root => jsonGet root "Value") = some (.float f32_512) :=
  ⟨by decide, by decide, by decide, by decide, by decide,
   switchvalue_put_then_get sampleToFloat sixSwitchDevice 5 pwmEntry f32_512
     { method := .HTTP_PUT, args := [(cstr "Id", cstr "5"), (cstr "Value", cstr "512")] }
     { method := .HTTP_GET, args := [(cstr "Id", cstr "5")] }
     (by decide) (by decide) (by decide) (by decide) (by decide) (by decide) (by decide)
     (by decide) (by decide) (by decide) (by decide) (by decide) (by decide) (by decide)⟩

/-- C14 on the code: for an identifier inside the registry whose entry is PWM or DAC and a PUT
switchvalue whose value lies outside `[min, max]`, the handler answers 200 with error number
0 and leaves the device as it was: the value is neither rejected with InvalidValue nor
stored clamped.  PWM and DAC entries are treated alike. -/
theorem switchvalue_out_of_range (toFloat : CStr → F32) (d : Device) (id : Nat)
    (e : SwitchEntry) (x : F32) (req : Request)
    (hn : d.numSwitches = d.switchEntry.length) (hr : isInt32 d.numSwitches)
    (he : d.switchEntry[id]? = some e)
    (htype : e.type = SWITCH_PWM ∨ e.type = SWITCH_ANALG_DAC)
    (hput : req.method = .HTTP_PUT) (hid : hasArgIC (cstr "Id") req false = true)
    (hidv : toInt (serverArg req (cstr "Id")) = id)
    (hval : hasArgIC (cstr "Value") req false = true)
    (hx : toFloat (serverArg req (cstr "Value")) = x)
    (hout : (f32Le e.min x && f32Le x e.max) = false) :
    ∃ r, handlerSwitchValue toFloat d req = some (d, r) ∧ r.code = 200 ∧
      r.errorNumber = some (.int Success) ∧ Success ≠ invalidValue := by
  have hputres := handlerSwitchValue_put_analogue toFloat d id e req hn hr he htype hput hid
    hidv hval
  have hstore : storeIfInRange d id e x = d := by
    simp only [storeIfInRange, hout, Bool.false_eq_true, if_false]
  rw [hx, hstore] at hputres
  exact ⟨_, hputres, rfl, errorNumber_success _ _ _ _ _, by decide⟩

theorem switchvalue_out_of_range_witness :
    sixSwitchDevice.numSwitches = sixSwitchDevice.switchEntry.length ∧
    isInt32 sixSwitchDevice.numSwitches ∧
    sixSwitchDevice.switchEntry[5]? = some pwmEntry ∧
    (f32Le pwmEntry.min f32_2000 && f32Le f32_2000 pwmEntry.max) = false ∧
    ∃ r, handlerSwitchValue sampleToFloat sixSwitchDevice
        { method := .HTTP_PUT, args := [(cstr "Id", cstr "5"), (cstr "Value", cstr "2000")] }
        = some (sixSwitchDevice, r) ∧ r.code = 200 ∧
      r.errorNumber = some (.int Success) ∧ Success ≠ invalidValue :=
  ⟨by decide, by decide, by decide, by decide,
   switchvalue_out_of_range sampleToFloat sixSwitchDevice 5 pwmEntry f32_2000
     { method := .HTTP_PUT, args := [(cstr "Id", cstr "5"), (cstr "Value", cstr "2000")] }
     (by decide) (by decide) (by decide) (by decide) (by decide) (by decide) (by decide)
     (by decide) (by decide) (by decide)⟩

/-! ## switchname -/

theorem handlerSwitchName_put_long (cfg : Config) (d : Device) (id : Nat) (e : SwitchEntry)
    (req : Request) (hn : d.numSwitches = d.switchEntry.length)
    (he : d.switchEntry[id]? = some e) (hput : req.method = .HTTP_PUT)
    (hid : hasArgIC (cstr "Id") req false = true)
    (hidv : toInt (serverArg req (cstr "Id")) = id)
    (hname : hasArgIC (cstr "Name") req false = true)
    (hlong : cfg.MAX_NAME_LENGTH ≤ (serverArg req (cstr "Name")).length) :
    handlerSwitchName cfg d req =
      some (d, { code := 400,
                 message := some (withError (jsonResponseBuilder (clientIDOf req)
                   (transIDOf req) "SwitchName" Success []) invalidValue
                   (cstr "Switch name too long")) }) := by
  have hin := int_id_in_range hn he
  have hcond : ((serverArg req (cstr "Name")).length : Int) > (cfg.MAX_NAME_LENGTH : Int) - 1 := by
    omega
  simp only [handlerSwitchName, hid, if_true, hidv, hin, and_self, hput, reduceCtorEq, if_false,
    hname, hcond]

theorem handlerSwitchName_put_short (cfg : Config) (d : Device) (id : Nat) (e : SwitchEntry)
    (req : Request) (hn : d.numSwitches = d.switchEntry.length)
    (he : d.switchEntry[id]? = some e) (hput : req.method = .HTTP_PUT)
    (hid : hasArgIC (cstr "Id") req false = true)
    (hidv : toInt (serverArg req (cstr "Id")) = id)
    (hname : hasArgIC (cstr "Name") req false = true)
    (hshort : (serverArg req (cstr "Name")).length < cfg.MAX_NAME_LENGTH) :
    handlerSwitchName cfg d req =
      some ({ d with switchEntry :=
                       d.switchEntry.set id { e with switchName := serverArg req (cstr "Name") } },
            { code := 200,
              message := some (jsonResponseBuilder (clientIDOf req) (transIDOf req)
                "SwitchName" Success []) }) := by
  have hin := int_id_in_range hn he
  have hcond : ¬ ((serverArg req (cstr "Name")).length : Int) >
      (cfg.MAX_NAME_LENGTH : Int) - 1 := by
    omega
  simp only [handlerSwitchName, hid, if_true, hidv, hin, and_self, hput, reduceCtorEq, if_false,
    hname, hcond, Int.toNat_ofNat, he, strcpyNew, hshort]

theorem handlerSwitchName_get (cfg : Config) (d : Device) (id : Nat) (e : SwitchEntry)
    (req : Request) (hn : d.numSwitches = d.switchEntry.length)
    (he : d.switchEntry[id]? = some e) (hget : req.method = .HTTP_GET)
    (hid : hasArgIC (cstr "Id") req false = true)
    (hidv : toInt (serverArg req (cstr "Id")) = id) :
    handlerSwitchName cfg d req =
      some (d, { code := 200,
                 message := some (jsonSet (jsonResponseBuilder (clientIDOf req) (transIDOf req)
                   "SwitchName" Success []) "Value" (.str e.switchName)) }) := by
  have hin := int_id_in_range hn he
  simp only [handlerSwitchName, hid, if_true, hidv, hin, and_self, hget, Int.toNat_ofNat, he]

/-- C15: for an identifier inside the registry and a PUT switchname that carries `Name`, a
name of length `MAX_NAME_LENGTH` or more is answered 400 with the error InvalidValue and the
device stays as it was; a shorter name, the empty one included, is answered 200 with error
number 0 and becomes the name of the entry. -/
theorem switchname_length_check (cfg : Config) (d : Device) (id : Nat) (e : SwitchEntry)
    (req : Request) (hn : d.numSwitches = d.switchEntry.length)
    (he : d.switchEntry[id]? = some e) (hput : req.method = .HTTP_PUT)
    (hid : hasArgIC (cstr "Id") req false = true)
    (hidv : toInt (serverArg req (cstr "Id")) = id)
    (hname : hasArgIC (cstr "Name") req false = true) :
    (cfg.MAX_NAME_LENGTH ≤ (serverArg req (cstr "Name")).length →
      ∃ r, handlerSwitchName cfg d req = some (d, r) ∧ r.code = 400 ∧
        r.errorNumber = some (.int invalidValue)) ∧
    ((serverArg req (cstr "Name")).length < cfg.MAX_NAME_LENGTH →
      ∃ d1 r, handlerSwitchName cfg d req = some (d1, r) ∧ r.code = 200 ∧
        r.errorNumber = some (.int Success) ∧
        d1.switchEntry[id]? = some { e with switchName := serverArg req (cstr "Name") }) := by
  constructor
  · intro hlong
    exact ⟨_, handlerSwitchName_put_long cfg d id e req hn he hput hid hidv hname hlong, rfl,
      errorNumber_withError _ _ _ _ _ _ _⟩
  · intro hshort
    exact ⟨_, _, handlerSwitchName_put_short cfg d id e req hn he hput hid hidv hname hshort,
      rfl, errorNumber_success _ _ _ _ _, List.getElem?_set_self (lt_length_of_getElem? he)⟩

theorem switchname_length_check_witness :
    sampleDevice.numSwitches = sampleDevice.switchEntry.length ∧
    sampleDevice.switchEntry[0]? = some
      { description := cstr "Dew heater", switchName := cstr "Heater", writeable := true,
        type := SWITCH_RELAY_NO, pin := 3, min := f32Zero, max := f32One, step := f32One,
        value := f32One } ∧
    (sampleConfig.MAX_NAME_LENGTH ≤
        (serverArg { method := .HTTP_PUT,
                     args := [(cstr "Id", cstr "0"),
                              (cstr "Name", cstr "A name of twenty-five ch.")] }
          (cstr "Name")).length →
      ∃ r, handlerSwitchName sampleConfig sampleDevice
          { method := .HTTP_PUT,
            args := [(cstr "Id", cstr "0"), (cstr "Name", cstr "A name of twenty-five ch.")] }
          = some (sampleDevice, r) ∧ r.code = 400 ∧
        r.errorNumber = some (.int invalidValue)) ∧
    sampleConfig.MAX_NAME_LENGTH ≤ (cstr "A name of twenty-five ch.").length :=
  ⟨by decide, by decide,
   (switchname_length_check sampleConfig sampleDevice 0
     { description := cstr "Dew heater", switchName := cstr "Heater", writeable := true,
       type := SWITCH_RELAY_NO, pin := 3, min := f32Zero, max := f32One, step := f32One,
       value := f32One }
     { method := .HTTP_PUT,
       args := [(cstr "Id", cstr "0"), (cstr "Name", cstr "A name of twenty-five ch.")] }
     (by decide) (by decide) (by decide) (by decide) (by decide) (by decide)).1,
   by decide⟩

/-- C16: for an identifier inside the registry and a PUT switchname whose name `x` is shorter
than `MAX_NAME_LENGTH`, the handler answers 200 with error number 0; a GET switchname that
follows answers 200 with `Value` = `x`; the stored name is `x`, shorter than
`MAX_NAME_LENGTH`, and every other field of the entry is as before. -/
theorem switchname_put_then_get (cfg : Config) (d : Device) (id : Nat) (e : SwitchEntry)
    (x : CStr) (put get : Request) (hn : d.numSwitches = d.switchEntry.length)
    (he : d.switchEntry[id]? = some e) (hput : put.method = .HTTP_PUT)
    (hputId : hasArgIC (cstr "Id") put false = true)
    (hputIdv : toInt (serverArg put (cstr "Id")) = id)
    (hname : hasArgIC (cstr "Name") put false = true)
    (hx : serverArg put (cstr "Name") = x) (hshort : x.length < cfg.MAX_NAME_LENGTH)
    (hget : get.method = .HTTP_GET) (hgetId : hasArgIC (cstr "Id") get false = true)
    (hgetIdv : toInt (serverArg get (cstr "Id")) = id) :
    ∃ d1 e1 r1 r2, handlerSwitchName cfg d put = some (d1, r1) ∧ r1.code = 200 ∧
      r1.errorNumber = some (.int Success) ∧
      d1.switchEntry[id]? = some e1 ∧ e1.switchName = x ∧
      e1.switchName.length < cfg.MAX_NAME_LENGTH ∧
      e1.description = e.description ∧ e1.type = e.type ∧ e1.writeable = e.writeable ∧
      e1.min = e.min ∧ e1.max = e.max ∧ e1.step = e.step ∧ e1.value = e.value ∧
      e1.pin = e.pin ∧
      handlerSwitchName cfg d1 get = some (d1, r2) ∧ r2.code = 200 ∧
      r2.errorNumber = some (.int Success) ∧
      r2.message.bind (fun root => jsonGet root "Value") = some (.str x) := by
  have hlt := lt_length_of_getElem? he
  have hputres := handlerSwitchName_put_short cfg d id e put hn he hput hputId hputIdv hname
    (by rw [hx]; exact hshort)
  rw [hx] at hputres
  have hset : (d.switchEntry.set id { e with switchName := x })[id]?
      = some { e with switchName := x } := List.getElem?_set_self hlt
  have hgetres := handlerSwitchName_get cfg
    { d with switchEntry := d.switchEntry.set id { e with switchName := x } } id
    { e with switchName := x } get (by simp [hn]) hset hget hgetId hgetIdv
  exact ⟨_, _, _, _, hputres, rfl, errorNumber_success _ _ _ _ _, hset, rfl, hshort, rfl, rfl,
    rfl, rfl, rfl, rfl, rfl, rfl, hgetres, rfl, (errorNumber_value _ _ _ _ _ (.str x)).1,
    (errorNumber_value _ _ _ _ _ (.str x)).2⟩

theorem switchname_put_then_get_witness :
    sampleDevice.numSwitches = sampleDevice.switchEntry.length ∧
    sampleDevice.switchEntry[1]? = some
      { description := cstr "Flat panel", switchName := cstr "Panel", writeable := true,
        type := SWITCH_PWM, pin := 1, min := f32Zero, max := 1149239296, step := f32One,
        value := f32Zero } ∧
    ([] : CStr).length < sampleConfig.MAX_NAME_LENGTH ∧
    ∃ d1 e1 r1 r2,
      handlerSwitchName sampleConfig sampleDevice
        { method := .HTTP_PUT, args := [(cstr "Id", cstr "1"), (cstr "Name", [])] }
        = some (d1, r1) ∧ r1.code = 200 ∧
      r1.errorNumber = some (.int Success) ∧
      d1.switchEntry[1]? = some e1 ∧ e1.switchName = [] ∧
      e1.switchName.length < sampleConfig.MAX_NAME_LENGTH ∧
      e1.description = cstr "Flat panel" ∧ e1.type = SWITCH_PWM ∧ e1.writeable = true ∧
      e1.min = f32Zero ∧ e1.max = 1149239296 ∧ e1.step = f32One ∧ e1.value = f32Zero ∧
      e1.pin = 1 ∧
      handlerSwitchName sampleConfig d1 { method := .HTTP_GET, args := [(cstr "Id", cstr "1")] }
        = some (d1, r2) ∧ r2.code = 200 ∧
      r2.errorNumber = some (.int Success) ∧
      r2.message.bind (fun root => jsonGet root "Value") = some (.str []) :=
  ⟨by decide, by decide, by decide,
   switchname_put_then_get sampleConfig sampleDevice 1
     { description := cstr "Flat panel", switchName := cstr "Panel", writeable := true,
       type := SWITCH_PWM, pin := 1, min := f32Zero, max := 1149239296, step := f32One,
       value := f32Zero } []
     { method := .HTTP_PUT, args := [(cstr "Id", cstr "1"), (cstr "Name", [])] }
     { method := .HTTP_GET, args := [(cstr "Id", cstr "1")] }
     (by decide) (by decide) (by decide) (by decide) (by decide) (by decide) (by decide)
     (by decide) (by decide) (by decide) (by decide)⟩

/-! ## How each handler can end -/

theorem errorNumber_value_lower (c t : Nat) (name : String) (e0 : Int) (m0 : CStr)
    (v : JsonValue) :
    jsonGet (jsonSet (jsonResponseBuilder c t name e0 m0) "value" v) "ErrorNumber"
      = some (.int e0) := by
  simp [jsonSet, jsonGet, jsonResponseBuilder]

theorem outcome_invalidValue (C : Nat → SwitchEntry → SwitchEntry → Prop) (d : Device)
    (req : Request) (c t : Nat) (name : String) (e0 : Int) (m0 msg : CStr) :
    Outcome C d req d
      { code := 400,
        message := some (withError (jsonResponseBuilder c t name e0 m0) invalidValue msg) } :=
  Or.inl ⟨rfl, rfl, Or.inl (Or.inl (errorNumber_withError _ _ _ _ _ _ _))⟩

theorem outcome_invalidOperation (C : Nat → SwitchEntry → SwitchEntry → Prop) (d : Device)
    (req : Request) (c t : Nat) (name : String) (e0 : Int) (m0 msg : CStr) :
    Outcome C d req d
      { code := 400,
        message := some (withError (jsonResponseBuilder c t name e0 m0) invalidOperation msg) } :=
  Or.inl ⟨rfl, rfl, Or.inl (Or.inr (errorNumber_withError _ _ _ _ _ _ _))⟩

theorem outcome_empty (C : Nat → SwitchEntry → SwitchEntry → Prop) (d : Device)
    (req : Request) : Outcome C d req d { code := 400, message := none } :=
  Or.inl ⟨rfl, rfl, Or.inr rfl⟩

theorem outcome_value (C : Nat → SwitchEntry → SwitchEntry → Prop) (d : Device)
    (req : Request) (c t : Nat) (name : String) (m0 : CStr) (v : JsonValue) :
    Outcome C d req d
      { code := 200,
        message := some (jsonSet (jsonResponseBuilder c t name Success m0) "Value" v) } :=
  Or.inr (Or.inl ⟨rfl, rfl, (errorNumber_value _ _ _ _ _ _).1⟩)

theorem outcome_value_lower (C : Nat → SwitchEntry → SwitchEntry → Prop) (d : Device)
    (req : Request) (c t : Nat) (name : String) (m0 : CStr) (v : JsonValue) :
    Outcome C d req d
      { code := 200,
        message := some (jsonSet (jsonResponseBuilder c t name Success m0) "value" v) } :=
  Or.inr (Or.inl ⟨rfl, rfl, errorNumber_value_lower _ _ _ _ _ _⟩)

theorem outcome_plain (C : Nat → SwitchEntry → SwitchEntry → Prop) (d : Device)
    (req : Request) (c t : Nat) (name : String) (m0 : CStr) :
    Outcome C d req d
      { code := 200, message := some (jsonResponseBuilder c t name Success m0) } :=
  Or.inr (Or.inl ⟨rfl, rfl, errorNumber_success _ _ _ _ _⟩)

theorem outcome_write (C : Nat → SwitchEntry → SwitchEntry → Prop) (d : Device)
    (req : Request) (c t : Nat) (name : String) (m0 : CStr) (i : Nat) (e e1 : SwitchEntry)
    (w : List (Int × Nat)) (hput : req.method = .HTTP_PUT) (he : d.switchEntry[i]? = some e)
    (hC : C i e e1) :
    Outcome C d req { d with switchEntry := d.switchEntry.set i e1, hwWrites := w }
      { code := 200, message := some (jsonResponseBuilder c t name Success m0) } :=
  Or.inr (Or.inr ⟨hput, rfl, errorNumber_success _ _ _ _ _, i, e, e1, he, hC, rfl⟩)

theorem handlerSwitchState_outcome (d : Device) (req : Request) (d1 : Device) (r : Response)
    (h : handlerSwitchState d req = some (d1, r)) : Outcome (stateChange req) d req d1 r := by
  simp only [handlerSwitchState] at h
  repeat' split at h
  all_goals try simp only [Option.some.injEq, Prod.mk.injEq, reduceCtorEq] at h
  all_goals obtain ⟨rfl, rfl⟩ := h
  all_goals first
    | exact outcome_value _ _ _ _ _ _ _ _
    | exact outcome_invalidValue _ _ _ _ _ _ _ _ _
    | exact outcome_invalidOperation _ _ _ _ _ _ _ _ _
    | exact outcome_empty _ _ _
    | exact outcome_write _ _ _ _ _ _ _ _ _ _ _ (And.left (by assumption)) (by assumption)
        ⟨rfl, by assumption, Or.inl rfl⟩
    | exact outcome_write _ _ _ _ _ _ _ _ _ _ _ (And.left (by assumption)) (by assumption)
        ⟨rfl, by assumption, Or.inr rfl⟩

theorem handlerCanWrite_outcome (d : Device) (req : Request) (d1 : Device) (r : Response)
    (h : handlerCanWrite d req = some (d1, r)) : Outcome noChange d req d1 r := by
  simp only [handlerCanWrite] at h
  repeat' split at h
  all_goals try simp only [Option.some.injEq, Prod.mk.injEq, reduceCtorEq] at h
  all_goals obtain ⟨rfl, rfl⟩ := h
  all_goals first
    | exact outcome_value _ _ _ _ _ _ _ _
    | exact outcome_invalidValue _ _ _ _ _ _ _ _ _
    | exact outcome_invalidOperation _ _ _ _ _ _ _ _ _

theorem handlerSwitchDescription_outcome (d : Device) (req : Request) (d1 : Device)
    (r : Response) (h : handlerSwitchDescription d req = some (d1, r)) :
    Outcome noChange d req d1 r := by
  simp only [handlerSwitchDescription] at h
  repeat' split at h
  all_goals try simp only [Option.some.injEq, Prod.mk.injEq, reduceCtorEq] at h
  all_goals obtain ⟨rfl, rfl⟩ := h
  all_goals first
    | exact outcome_value _ _ _ _ _ _ _ _
    | exact outcome_invalidValue _ _ _ _ _ _ _ _ _
    | exact outcome_invalidOperation _ _ _ _ _ _ _ _ _

theorem handlerMinSwitchValue_outcome (d : Device) (req : Request) (d1 : Device)
    (r : Response) (h : handlerMinSwitchValue d req = some (d1, r)) :
    Outcome noChange d req d1 r := by
  simp only [handlerMinSwitchValue] at h
  repeat' split at h
  all_goals try simp only [Option.some.injEq, Prod.mk.injEq, reduceCtorEq] at h
  all_goals obtain ⟨rfl, rfl⟩ := h
  all_goals first
    | exact outcome_value _ _ _ _ _ _ _ _
    | exact outcome_invalidValue _ _ _ _ _ _ _ _ _
    | exact outcome_invalidOperation _ _ _ _ _ _ _ _ _

theorem handlerMaxSwitchValue_outcome (d : Device) (req : Request) (d1 : Device)
    (r : Response) (h : handlerMaxSwitchValue d req = some (d1, r)) :
    Outcome noChange d req d1 r := by
  simp only [handlerMaxSwitchValue] at h
  repeat' split at h
  all_goals try simp only [Option.some.injEq, Prod.mk.injEq, reduceCtorEq] at h
  all_goals obtain ⟨rfl, rfl⟩ := h
  all_goals first
    | exact outcome_value_lower _ _ _ _ _ _ _ _
    | exact outcome_invalidValue _ _ _ _ _ _ _ _ _
    | exact outcome_invalidOperation _ _ _ _ _ _ _ _ _

theorem handlerSwitchStep_outcome (d : Device) (req : Request) (d1 : Device)
    (r : Response) (h : handlerSwitchStep d req = some (d1, r)) :
    Outcome noChange d req d1 r := by
  simp only [handlerSwitchStep] at h
  repeat' split at h
  all_goals try simp only [Option.some.injEq, Prod.mk.injEq, reduceCtorEq] at h
  all_goals obtain ⟨rfl, rfl⟩ := h
  all_goals first
    | exact outcome_value_lower _ _ _ _ _ _ _ _
    | exact outcome_invalidValue _ _ _ _ _ _ _ _ _
    | exact outcome_invalidOperation _ _ _ _ _ _ _ _ _

theorem handlerMaxswitch_outcome (d : Device) (req : Request) (d1 : Device)
    (r : Response) (h : handlerMaxswitch d req = some (d1, r)) :
    Outcome noChange d req d1 r := by
  simp only [handlerMaxswitch, Option.some.injEq, Prod.mk.injEq] at h
  obtain ⟨rfl, rfl⟩ := h
  exact outcome_value _ _ _ _ _ _ _ _

theorem strcpyNew_some {cap : Nat} {src name : CStr} (h : strcpyNew cap src = some name) :
    name = src ∧ src.length < cap := by
  unfold strcpyNew at h
  split at h
  · simp only [Option.some.injEq] at h
    exact ⟨h.symm, by assumption⟩
  · simp at h

theorem nameChange_of (cfg : Config) (req : Request) (e : SwitchEntry) {src name : CStr}
    (h : strcpyNew cfg.MAX_NAME_LENGTH src = some name) :
    nameChange cfg req (toInt (serverArg req (cstr "Id"))).toNat e
      { e with switchName := name } := by
  obtain ⟨hname, hlen⟩ := strcpyNew_some h
  exact ⟨rfl, name, by rw [hname]; exact hlen, rfl⟩

theorem handlerSwitchName_outcome (cfg : Config) (d : Device) (req : Request) (d1 : Device)
    (r : Response) (h : handlerSwitchName cfg d req = some (d1, r)) :
    Outcome (nameChange cfg req) d req d1 r := by
  simp only [handlerSwitchName] at h
  repeat' split at h
  all_goals try simp only [Option.some.injEq, Prod.mk.injEq, reduceCtorEq] at h
  all_goals obtain ⟨rfl, rfl⟩ := h
  all_goals first
    | exact outcome_value _ _ _ _ _ _ _ _
    | exact outcome_invalidValue _ _ _ _ _ _ _ _ _
    | exact outcome_invalidOperation _ _ _ _ _ _ _ _ _
    | exact outcome_write _ _ _ _ _ _ _ _ _ _ _ (And.left (by assumption)) (by assumption)
        (nameChange_of _ _ _ (by assumption))

theorem valueChange_of (req : Request) (e : SwitchEntry) (v : F32)
    (htype : e.type = SWITCH_PWM ∨ e.type = SWITCH_ANALG_DAC)
    (hin : (f32Le e.min v && f32Le v e.max) = true) :
    valueChange req (intBits (toInt (serverArg req (cstr "Id")))) e { e with value := v } := by
  rw [Bool.and_eq_true] at hin
  exact ⟨rfl, htype, v, hin.1, hin.2, rfl⟩

theorem handlerSwitchValue_outcome (toFloat : CStr → F32) (d : Device) (req : Request)
    (d1 : Device) (r : Response) (h : handlerSwitchValue toFloat d req = some (d1, r)) :
    Outcome (valueChange req) d req d1 r := by
  simp only [handlerSwitchValue, storeIfInRange] at h
  repeat' split at h
  all_goals try simp only [Option.some.injEq, Prod.mk.injEq, reduceCtorEq] at h
  all_goals obtain ⟨rfl, rfl⟩ := h
  all_goals first
    | exact outcome_value _ _ _ _ _ _ _ _
    | exact outcome_plain _ _ _ _ _ _ _
    | exact outcome_invalidValue _ _ _ _ _ _ _ _ _
    | exact outcome_invalidOperation _ _ _ _ _ _ _ _ _
    | exact outcome_write _ _ _ _ _ _ _ _ _ _ _ (And.left (by assumption)) (by assumption)
        (valueChange_of _ _ _ (Or.inl (by assumption)) (by assumption))
    | exact outcome_write _ _ _ _ _ _ _ _ _ _ _ (And.left (by assumption)) (by assumption)
        (valueChange_of _ _ _ (Or.inr (by assumption)) (by assumption))

theorem handlerSwitchType_outcome (d : Device) (req : Request) (d1 : Device) (r : Response)
    (h : handlerSwitchType d req = some (d1, r)) : Outcome (typeChange req) d req d1 r := by
  simp only [handlerSwitchType] at h
  repeat' split at h
  all_goals try simp only [Option.some.injEq, Prod.mk.injEq, reduceCtorEq] at h
  all_goals obtain ⟨rfl, rfl⟩ := h
  all_goals first
    | exact outcome_value _ _ _ _ _ _ _ _
    | exact outcome_invalidValue _ _ _ _ _ _ _ _ _
    | exact outcome_invalidOperation _ _ _ _ _ _ _ _ _
    | exact outcome_write _ _ _ _ _ _ _ _ _ _ _ (And.left (by assumption)) (by assumption)
        ⟨rfl, _, by assumption, rfl⟩

/-! ## The status handler -/

theorem statusLoop_eq (es rest : List SwitchEntry) :
    statusLoop es.length (es ++ rest) = some (es.map statusEntry) := by
  induction es with
  | nil => simp [statusLoop]
  | cons e es ih =>
    show statusLoop (es.length + 1) (e :: (es ++ rest)) = _
    simp only [statusLoop, ih, List.map_cons]

theorem handlerStatus_eq (time : CStr) (d : Device) (req : Request)
    (hcount : d.numSwitches.toNat = d.switchEntry.length) :
    handlerStatus time d req =
      some (d, { code := 400,
                 message := some (jsonSet (jsonSet
                   (("switches", .array (d.switchEntry.map statusEntry)) ::
                     jsonResponseBuilder (clientIDOf req) (transIDOf req) "Status" 0 [])
                   "time" (.str time)) "host" (.str d.myHostname)) }) := by
  have hloop := statusLoop_eq d.switchEntry []
  rw [List.append_nil] at hloop
  simp only [handlerStatus, hcount, hloop]

theorem errorNumber_status (items : List (List (String × JsonScalar))) (c t : Nat)
    (time host : CStr) :
    jsonGet (jsonSet (jsonSet
      (("switches", .array items) :: jsonResponseBuilder c t "Status" 0 [])
      "time" (.str time)) "host" (.str host)) "ErrorNumber" = some (.int Success) ∧
    jsonGet (jsonSet (jsonSet
      (("switches", .array items) :: jsonResponseBuilder c t "Status" 0 [])
      "time" (.str time)) "host" (.str host)) "switches" = some (.array items) := by
  constructor <;> simp [jsonSet, jsonGet, jsonResponseBuilder, Success]

theorem handlerStatus_some (time : CStr) (d : Device) (req : Request) (d1 : Device)
    (r : Response) (h : handlerStatus time d req = some (d1, r)) :
    d1 = d ∧ r.code = 400 ∧ r.errorNumber = some (.int Success) := by
  simp only [handlerStatus] at h
  split at h
  · simp at h
  · simp only [Option.some.injEq, Prod.mk.injEq] at h
    obtain ⟨rfl, rfl⟩ := h
    exact ⟨rfl, rfl, (errorNumber_status _ _ _ _ _).1⟩

/-! ## All routes -/

theorem endpoint_outcome (cfg : Config) (toFloat : CStr → F32) (ep : Endpoint) (d : Device)
    (req : Request) (d1 : Device) (r : Response)
    (h : ep.handler cfg toFloat d req = some (d1, r)) :
    Outcome (Route.change cfg req (.endpoint ep)) d req d1 r := by
  cases ep with
  | canwrite => exact handlerCanWrite_outcome d req d1 r h
  | switchstate => exact handlerSwitchState_outcome d req d1 r h
  | switchdescription => exact handlerSwitchDescription_outcome d req d1 r h
  | switchname => exact handlerSwitchName_outcome cfg d req d1 r h
  | switchvalue => exact handlerSwitchValue_outcome toFloat d req d1 r h
  | minswitchvalue => exact handlerMinSwitchValue_outcome d req d1 r h
  | maxswitchvalue => exact handlerMaxSwitchValue_outcome d req d1 r h
  | switchstep => exact handlerSwitchStep_outcome d req d1 r h

theorem route_outcome (cfg : Config) (toFloat : CStr → F32) (time : CStr) (route : Route)
    (d : Device) (req : Request) (d1 : Device) (r : Response)
    (h : route.handler cfg toFloat time d req = some (d1, r)) (hroute : route ≠ .status) :
    Outcome (route.change cfg req) d req d1 r := by
  cases route with
  | endpoint ep => exact endpoint_outcome cfg toFloat ep d req d1 r h
  | maxswitch => exact handlerMaxswitch_outcome d req d1 r h
  | switchtype => exact handlerSwitchType_outcome d req d1 r h
  | status => exact absurd rfl hroute

theorem success_not_error {r : Response} (h : r.errorNumber = some (.int Success)) :
    ¬ r.carriesError := by
  unfold Response.carriesError
  rw [h]
  decide

/-- A response that is not a plain success leaves the device as it was: whenever the answer
is 400 or carries an error. -/
theorem route_failure_unchanged (cfg : Config) (toFloat : CStr → F32) (time : CStr)
    (route : Route) (d : Device) (req : Request) (d1 : Device) (r : Response)
    (h : route.handler cfg toFloat time d req = some (d1, r))
    (hfail : r.carriesError ∨ r.code = 400) : d1 = d := by
  by_cases hroute : route = .status
  · subst hroute
    exact (handlerStatus_some time d req d1 r h).1
  · rcases route_outcome cfg toFloat time route d req d1 r h hroute with hA | hB | hC
    · exact hA.1
    · exact hB.1
    · obtain ⟨_, hcode, herr, _⟩ := hC
      rcases hfail with hf | hf
      · exact absurd hf (success_not_error herr)
      · rw [hcode] at hf
        exact absurd hf (by decide)

/-! ## Every handler answers -/

theorem intBits_numSwitches {d : Device} (hn : d.numSwitches = d.switchEntry.length)
    (hr : isInt32 d.numSwitches) : intBits d.numSwitches = d.switchEntry.length := by
  unfold isInt32 at hr
  rw [hn]
  exact intBits_natCast (by omega)

theorem handlerCanWrite_total (d : Device) (req : Request)
    (hn : d.numSwitches = d.switchEntry.length) :
    ∃ d1 r, handlerCanWrite d req = some (d1, r) := by
  simp only [handlerCanWrite]
  repeat' split
  all_goals first
    | exact ⟨_, _, rfl⟩
    | (exfalso; simp only [List.getElem?_eq_none_iff] at *; omega)

theorem handlerSwitchState_total (d : Device) (req : Request)
    (hn : d.numSwitches = d.switchEntry.length) :
    ∃ d1 r, handlerSwitchState d req = some (d1, r) := by
  simp only [handlerSwitchState]
  repeat' split
  all_goals first
    | exact ⟨_, _, rfl⟩
    | (exfalso; simp only [List.getElem?_eq_none_iff] at *; omega)

theorem handlerSwitchDescription_total (d : Device) (req : Request)
    (hn : d.numSwitches = d.switchEntry.length) :
    ∃ d1 r, handlerSwitchDescription d req = some (d1, r) := by
  simp only [handlerSwitchDescription]
  repeat' split
  all_goals first
    | exact ⟨_, _, rfl⟩
    | (exfalso; simp only [List.getElem?_eq_none_iff] at *; omega)

theorem handlerMinSwitchValue_total (d : Device) (req : Request)
    (hn : d.numSwitches = d.switchEntry.length) :
    ∃ d1 r, handlerMinSwitchValue d req = some (d1, r) := by
  simp only [handlerMinSwitchValue]
  repeat' split
  all_goals first
    | exact ⟨_, _, rfl⟩
    | (exfalso; simp only [List.getElem?_eq_none_iff] at *; omega)

theorem handlerMaxSwitchValue_total (d : Device) (req : Request)
    (hn : d.numSwitches = d.switchEntry.length) :
    ∃ d1 r, handlerMaxSwitchValue d req = some (d1, r) := by
  simp only [handlerMaxSwitchValue]
  repeat' split
  all_goals first
    | exact ⟨_, _, rfl⟩
    | (exfalso; simp only [List.getElem?_eq_none_iff] at *; omega)

theorem handlerSwitchType_total (d : Device) (req : Request)
    (hn : d.numSwitches = d.switchEntry.length) :
    ∃ d1 r, handlerSwitchType d req = some (d1, r) := by
  simp only [handlerSwitchType]
  repeat' split
  all_goals first
    | exact ⟨_, _, rfl⟩
    | (exfalso; simp only [List.getElem?_eq_none_iff] at *; omega)

theorem handlerSwitchStep_total (d : Device) (req : Request)
    (hn : d.numSwitches = d.switchEntry.length) (hr : isInt32 d.numSwitches) :
    ∃ d1 r, handlerSwitchStep d req = some (d1, r) := by
  have hbits := intBits_numSwitches hn hr
  simp only [handlerSwitchStep]
  repeat' split
  all_goals first
    | exact ⟨_, _, rfl⟩
    | (exfalso; simp only [List.getElem?_eq_none_iff] at *; omega)

theorem handlerSwitchValue_total (toFloat : CStr → F32) (d : Device) (req : Request)
    (hn : d.numSwitches = d.switchEntry.length) (hr : isInt32 d.numSwitches) :
    ∃ d1 r, handlerSwitchValue toFloat d req = some (d1, r) := by
  have hbits := intBits_numSwitches hn hr
  simp only [handlerSwitchValue]
  repeat' split
  all_goals first
    | exact ⟨_, _, rfl⟩
    | (exfalso; simp only [List.getElem?_eq_none_iff] at *; omega)

theorem handlerSwitchName_total (cfg : Config) (d : Device) (req : Request)
    (hn : d.numSwitches = d.switchEntry.length) :
    ∃ d1 r, handlerSwitchName cfg d req = some (d1, r) := by
  by_cases hid : hasArgIC (cstr "Id") req false = true
  · by_cases hrange : 0 ≤ toInt (serverArg req (cstr "Id")) ∧
        toInt (serverArg req (cstr "Id")) < d.numSwitches
    · have hlt : (toInt (serverArg req (cstr "Id"))).toNat < d.switchEntry.length := by omega
      obtain ⟨e, he⟩ : ∃ e, d.switchEntry[(toInt (serverArg req (cstr "Id"))).toNat]? = some e :=
        ⟨_, List.getElem?_eq_getElem hlt⟩
      by_cases hget : req.method = .HTTP_GET
      · simp only [handlerSwitchName, hid, if_true, hrange, and_self, hget, he]
        exact ⟨_, _, rfl⟩
      · by_cases hput : req.method = .HTTP_PUT ∧ hasArgIC (cstr "Name") req false = true
        · by_cases hlong : ((serverArg req (cstr "Name")).length : Int) >
              (cfg.MAX_NAME_LENGTH : Int) - 1
          · simp only [handlerSwitchName, hid, if_true, hrange, and_self, hget, if_false, hput,
              hlong]
            exact ⟨_, _, rfl⟩
          · have hshort : (serverArg req (cstr "Name")).length < cfg.MAX_NAME_LENGTH := by omega
            simp only [handlerSwitchName, hid, if_true, hrange, and_self, hget, if_false, hput,
              hlong, he, strcpyNew, hshort]
            exact ⟨_, _, rfl⟩
        · simp only [handlerSwitchName, hid, if_true, hrange, and_self, hget, if_false, hput]
          exact ⟨_, _, rfl⟩
    · simp only [handlerSwitchName, hid, if_true, hrange, if_false]
      exact ⟨_, _, rfl⟩
  · simp only [handlerSwitchName, hid, Bool.false_eq_true, if_false]
    exact ⟨_, _, rfl⟩

/-- Every handler answers on a device whose `numSwitches` is the size of the registry. -/
theorem route_total (cfg : Config) (toFloat : CStr → F32) (time : CStr) (route : Route)
    (d : Device) (req : Request) (hn : d.numSwitches = d.switchEntry.length)
    (hr : isInt32 d.numSwitches) :
    ∃ d1 r, route.handler cfg toFloat time d req = some (d1, r) := by
  cases route with
  | endpoint ep =>
    cases ep with
    | canwrite => exact handlerCanWrite_total d req hn
    | switchstate => exact handlerSwitchState_total d req hn
    | switchdescription => exact handlerSwitchDescription_total d req hn
    | switchname => exact handlerSwitchName_total cfg d req hn
    | switchvalue => exact handlerSwitchValue_total toFloat d req hn hr
    | minswitchvalue => exact handlerMinSwitchValue_total d req hn
    | maxswitchvalue => exact handlerMaxSwitchValue_total d req hn
    | switchstep => exact handlerSwitchStep_total d req hn hr
  | maxswitch => exact ⟨_, _, rfl⟩
  | switchtype => exact handlerSwitchType_total d req hn
  | status => exact ⟨_, _, handlerStatus_eq time d req (by rw [hn]; simp)⟩

/-! ## Errors, frames and the response envelope -/

/-- C17: on a device whose `numSwitches` is the size of the registry every handler, the
switchtype and status handlers included, answers every request, and when the response carries
the error InvalidOperation or InvalidValue the device after the request is the device before
it: same registry size, same entries, no call to the hardware. -/
theorem error_leaves_registry (cfg : Config) (toFloat : CStr → F32) (time : CStr)
    (route : Route) (d : Device) (req : Request) (hn : d.numSwitches = d.switchEntry.length)
    (hr : isInt32 d.numSwitches) :
    ∃ d1 r, route.handler cfg toFloat time d req = some (d1, r) ∧
      (r.carriesError → d1 = d ∧ d1.numSwitches = d.numSwitches ∧
        d1.switchEntry = d.switchEntry ∧ d1.hwWrites = d.hwWrites) := by
  obtain ⟨d1, r, h⟩ := route_total cfg toFloat time route d req hn hr
  refine ⟨d1, r, h, fun herr => ?_⟩
  have heq := route_failure_unchanged cfg toFloat time route d req d1 r h (Or.inl herr)
  subst heq
  exact ⟨rfl, rfl, rfl, rfl⟩

theorem error_leaves_registry_witness :
    sampleDevice.numSwitches = sampleDevice.switchEntry.length ∧
    isInt32 sampleDevice.numSwitches ∧
    ∃ d1 r, Route.handler sampleConfig sampleToFloat [] Route.switchtype sampleDevice
        { method := .HTTP_PUT, args := [(cstr "Id", cstr "0"), (cstr "Name", cstr "9")] }
        = some (d1, r) ∧
      (r.carriesError → d1 = sampleDevice ∧ d1.numSwitches = sampleDevice.numSwitches ∧
        d1.switchEntry = sampleDevice.switchEntry ∧ d1.hwWrites = sampleDevice.hwWrites) :=
  ⟨by decide, by decide,
   error_leaves_registry sampleConfig sampleToFloat [] Route.switchtype sampleDevice
     { method := .HTTP_PUT, args := [(cstr "Id", cstr "0"), (cstr "Name", cstr "9")] }
     (by decide) (by decide)⟩

theorem change_sameExcept (cfg : Config) (req : Request) (route : Route) (i : Nat)
    (e e1 : SwitchEntry) (h : route.change cfg req i e e1) :
    i = route.targetId req ∧ route.sameExcept e e1 := by
  cases route with
  | endpoint ep =>
    cases ep with
    | switchstate =>
      obtain ⟨hi, _, hv | hv⟩ := h
      · exact ⟨hi, by rw [hv]; rfl⟩
      · exact ⟨hi, by rw [hv]; rfl⟩
    | switchname =>
      obtain ⟨hi, x, _, hx⟩ := h
      exact ⟨hi, by rw [hx]; rfl⟩
    | switchvalue =>
      obtain ⟨hi, _, v, _, _, hv⟩ := h
      exact ⟨hi, by rw [hv]; rfl⟩
    | canwrite => exact absurd h id
    | switchdescription => exact absurd h id
    | minswitchvalue => exact absurd h id
    | maxswitchvalue => exact absurd h id
    | switchstep => exact absurd h id
  | maxswitch => exact absurd h id
  | switchtype =>
    obtain ⟨hi, t, _, ht⟩ := h
    exact ⟨hi, by rw [ht]; rfl⟩
  | status => exact absurd h id

theorem sameExcept_refl (route : Route) (e : SwitchEntry) : route.sameExcept e e := by
  cases route with
  | endpoint ep => cases ep <;> rfl
  | maxswitch => rfl
  | switchtype => rfl
  | status => rfl

/-- C18: a GET request leaves the whole device as it was, on every route.  After a PUT that is
answered 200, on every route, `numSwitches` and the size of the registry are as before, every
entry at an index other than the identifier of the request is as before, and the entry at
that identifier differs from the old one at most in the field the route addresses (`value`
for switchstate and switchvalue, the name for switchname). -/
theorem write_frame (cfg : Config) (toFloat : CStr → F32) (time : CStr) (route : Route)
    (d : Device) (req : Request) (d1 : Device) (r : Response)
    (h : route.handler cfg toFloat time d req = some (d1, r)) :
    (req.method = .HTTP_GET → d1 = d) ∧
    (req.method = .HTTP_PUT → r.code = 200 →
      d1.numSwitches = d.numSwitches ∧ d1.switchEntry.length = d.switchEntry.length ∧
      (∀ j : Nat, j ≠ route.targetId req → d1.switchEntry[j]? = d.switchEntry[j]?) ∧
      ∀ e e1, d.switchEntry[route.targetId req]? = some e →
        d1.switchEntry[route.targetId req]? = some e1 → route.sameExcept e e1) := by
  by_cases hroute : route = .status
  · subst hroute
    obtain ⟨hd, hcode, _⟩ := handlerStatus_some time d req d1 r h
    subst hd
    refine ⟨fun _ => rfl, fun _ h200 => ?_⟩
    rw [hcode] at h200
    exact absurd h200 (by decide)
  · rcases route_outcome cfg toFloat time route d req d1 r h hroute with hA | hB | hC
    · obtain ⟨hd, hcode, _⟩ := hA
      subst hd
      refine ⟨fun _ => rfl, fun _ h200 => ?_⟩
      rw [hcode] at h200
      exact absurd h200 (by decide)
    · obtain ⟨hd, _, _⟩ := hB
      subst hd
      refine ⟨fun _ => rfl, fun _ _ => ⟨rfl, rfl, fun _ _ => rfl, ?_⟩⟩
      intro e e1 he he1
      rw [he] at he1
      simp only [Option.some.injEq] at he1
      subst he1
      exact sameExcept_refl route e
    · obtain ⟨hput, _, _, i, e0, e2, he0, hchange, hd⟩ := hC
      obtain ⟨hi, hsame⟩ := change_sameExcept cfg req route i e0 e2 hchange
      subst hi
      have hlt := lt_length_of_getElem? he0
      have hentries : d1.switchEntry = d.switchEntry.set (route.targetId req) e2 := by
        rw [hd]
      have hnum : d1.numSwitches = d.numSwitches := by rw [hd]
      refine ⟨fun hget => ?_, fun _ _ => ⟨hnum, ?_, ?_, ?_⟩⟩
      · rw [hput] at hget
        exact absurd hget (by decide)
      · rw [hentries, List.length_set]
      · intro j hj
        rw [hentries, List.getElem?_set_ne (Ne.symm hj)]
      · intro e e1 he he1
        rw [he0] at he
        rw [hentries, List.getElem?_set_self hlt] at he1
        simp only [Option.some.injEq] at he he1
        subst he he1
        exact hsame

theorem write_frame_witness :
    Route.handler sampleConfig sampleToFloat [] (.endpoint .switchname) sampleDevice
        { method := .HTTP_PUT, args := [(cstr "Id", cstr "1"), (cstr "Name", cstr "Lamp")] }
      = some ({ sampleDevice with
                  switchEntry := sampleDevice.switchEntry.set 1
                    { description := cstr "Flat panel", switchName := cstr "Lamp",
                      writeable := true, type := SWITCH_PWM, pin := 1, min := f32Zero,
                      max := 1149239296, step := f32One, value := f32Zero } },
              { code := 200,
                message := some (jsonResponseBuilder 0 0 "SwitchName" Success []) }) ∧
    ((HTTPMethod.HTTP_PUT = HTTPMethod.HTTP_GET →
        ({ sampleDevice with
            switchEntry := sampleDevice.switchEntry.set 1
              { description := cstr "Flat panel", switchName := cstr "Lamp",
                writeable := true, type := SWITCH_PWM, pin := 1, min := f32Zero,
                max := 1149239296, step := f32One, value := f32Zero } } : Device)
          = sampleDevice) ∧
     (HTTPMethod.HTTP_PUT = HTTPMethod.HTTP_PUT → (200 : Int) = 200 →
        (2 : Int) = 2 ∧
        (sampleDevice.switchEntry.set 1
            { description := cstr "Flat panel", switchName := cstr "Lamp",
              writeable := true, type := SWITCH_PWM, pin := 1, min := f32Zero,
              max := 1149239296, step := f32One, value := f32Zero }).length
          = sampleDevice.switchEntry.length ∧
        (∀ j : Nat, j ≠ 1 →
          (sampleDevice.switchEntry.set 1
            { description := cstr "Flat panel", switchName := cstr "Lamp",
              writeable := true, type := SWITCH_PWM, pin := 1, min := f32Zero,
              max := 1149239296, step := f32One, value := f32Zero })[j]?
            = sampleDevice.switchEntry[j]?) ∧
        ∀ e e1, sampleDevice.switchEntry[1]? = some e →
          (sampleDevice.switchEntry.set 1
            { description := cstr "Flat panel", switchName := cstr "Lamp",
              writeable := true, type := SWITCH_PWM, pin := 1, min := f32Zero,
              max := 1149239296, step := f32One, value := f32Zero })[1]? = some e1 →
          e1 = { e with switchName := e1.switchName })) :=
  ⟨rfl,
   write_frame sampleConfig sampleToFloat [] (.endpoint .switchname) sampleDevice
     { method := .HTTP_PUT, args := [(cstr "Id", cstr "1"), (cstr "Name", cstr "Lamp")] }
     _ _ rfl⟩

/-! ## The value of a relay over a session -/

theorem change_keeps_relayValue (cfg : Config) (req : Request) (route : Route) (i : Nat)
    (e e1 : SwitchEntry) (hroute : route ≠ .switchtype)
    (h : route.change cfg req i e e1)
    (hold : (e.type = SWITCH_RELAY_NO ∨ e.type = SWITCH_RELAY_NC) →
      (e.value = f32Zero ∨ e.value = f32One)) :
    (e1.type = SWITCH_RELAY_NO ∨ e1.type = SWITCH_RELAY_NC) →
      (e1.value = f32Zero ∨ e1.value = f32One) := by
  cases route with
  | endpoint ep =>
    cases ep with
    | switchstate =>
      obtain ⟨_, _, hv | hv⟩ := h
      · intro _; rw [hv]; exact Or.inr rfl
      · intro _; rw [hv]; exact Or.inl rfl
    | switchname =>
      obtain ⟨_, x, _, hx⟩ := h
      rw [hx]
      exact hold
    | switchvalue =>
      obtain ⟨_, htype, v, _, _, hv⟩ := h
      rw [hv]
      intro hrelay
      exact absurd hrelay (analogue_not_relay htype)
    | canwrite => exact absurd h id
    | switchdescription => exact absurd h id
    | minswitchvalue => exact absurd h id
    | maxswitchvalue => exact absurd h id
    | switchstep => exact absurd h id
  | maxswitch => exact absurd h id
  | switchtype => exact absurd rfl hroute
  | status => exact absurd h id

/-- A request on a route other than switchtype keeps the relay invariant. -/
theorem route_keeps_relayInvariant (cfg : Config) (toFloat : CStr → F32) (time : CStr)
    (route : Route) (d : Device) (req : Request) (d1 : Device) (r : Response)
    (hroute : route ≠ .switchtype)
    (h : route.handler cfg toFloat time d req = some (d1, r)) (hinv : relayInvariant d) :
    relayInvariant d1 := by
  by_cases hstatus : route = .status
  · subst hstatus
    rw [(handlerStatus_some time d req d1 r h).1]
    exact hinv
  · rcases route_outcome cfg toFloat time route d req d1 r h hstatus with hA | hB | hC
    · rw [hA.1]; exact hinv
    · rw [hB.1]; exact hinv
    · obtain ⟨_, _, _, i, e0, e2, he0, hchange, hd⟩ := hC
      have hentries : d1.switchEntry = d.switchEntry.set i e2 := by rw [hd]
      have hmem0 : e0 ∈ d.switchEntry := List.getElem?_mem he0
      intro e he
      rw [hentries] at he
      rcases List.mem_or_eq_of_mem_set he with hin | heq
      · exact hinv e hin
      · rw [heq]
        exact change_keeps_relayValue cfg req route i e0 e2 hroute hchange (hinv e0 hmem0)

/-- A request to switchtype either leaves the device as it was, or is a PUT answered 200
that replaces the type of the addressed entry by the number read from the argument `Name`
and keeps every other field. -/
theorem handlerSwitchType_put (d : Device) (req : Request) (d1 : Device) (r : Response)
    (h : handlerSwitchType d req = some (d1, r)) :
    d1 = d ∨ (req.method = .HTTP_PUT ∧ r.code = 200 ∧
      ∃ e, d.switchEntry[requestId req]? = some e ∧
        d1 = { d with switchEntry := d.switchEntry.set (requestId req)
                        { e with type := toInt (serverArg req (cstr "Name")) } }) := by
  simp only [handlerSwitchType] at h
  repeat' split at h
  all_goals try simp only [Option.some.injEq, Prod.mk.injEq, reduceCtorEq] at h
  all_goals obtain ⟨rfl, rfl⟩ := h
  all_goals first
    | exact Or.inl rfl
    | exact Or.inr ⟨And.left (by assumption), rfl, _, by assumption, rfl⟩

theorem isRelay_iff (e : SwitchEntry) :
    e.isRelay = true ↔ (e.type = SWITCH_RELAY_NO ∨ e.type = SWITCH_RELAY_NC) := by
  simp [SwitchEntry.isRelay]

/-- A request to switchtype keeps the relay invariant unless it makes a relay of an entry
whose value is neither 0.0 nor 1.0. -/
theorem switchtype_keeps_relayInvariant (d : Device) (req : Request) (d1 : Device)
    (r : Response) (h : handlerSwitchType d req = some (d1, r))
    (hok : retypesOddValue d req = false) (hinv : relayInvariant d) : relayInvariant d1 := by
  rcases handlerSwitchType_put d req d1 r h with hsame | ⟨hput, hcode, e0, he0, hd⟩
  · rw [hsame]; exact hinv
  · have hlt : requestId req < d.switchEntry.length := lt_length_of_getElem? he0
    have hentries : d1.switchEntry = d.switchEntry.set (requestId req)
        { e0 with type := toInt (serverArg req (cstr "Name")) } := by rw [hd]
    have hnew : d1.switchEntry[requestId req]? =
        some { e0 with type := toInt (serverArg req (cstr "Name")) } := by
      rw [hentries]; exact List.getElem?_set_self hlt
    intro e he hrelay
    rw [hentries] at he
    rcases List.mem_or_eq_of_mem_set he with hin | heq
    · exact hinv e hin hrelay
    · have hrel : SwitchEntry.isRelay
          { e0 with type := toInt (serverArg req (cstr "Name")) } = true := by
        rw [isRelay_iff, ← heq]; exact hrelay
      simp only [retypesOddValue, h, he0, hnew, hput, hcode, Option.any, hrel, beq_self_eq_true,
        Bool.true_and, Bool.not_eq_false', Bool.or_eq_true, beq_iff_eq] at hok
      rw [heq]
      exact hok

/-- One request of a session that avoids the odd retype keeps the relay invariant. -/
theorem step_keeps_relayInvariant (cfg : Config) (toFloat : CStr → F32) (time : CStr)
    (route : Route) (d : Device) (req : Request) (d1 : Device) (r : Response)
    (hok : (decide (route = Route.switchtype) && retypesOddValue d req) = false)
    (h : route.handler cfg toFloat time d req = some (d1, r)) (hinv : relayInvariant d) :
    relayInvariant d1 := by
  by_cases hroute : route = .switchtype
  · subst hroute
    simp only [decide_True, Bool.true_and] at hok
    exact switchtype_keeps_relayInvariant d req d1 r h hok hinv
  · exact route_keeps_relayInvariant cfg toFloat time route d req d1 r hroute h hinv

theorem runRequests_keeps_relayInvariant (cfg : Config) (toFloat : CStr → F32) (time : CStr)
    (reqs : List (Route × Request)) :
    ∀ d d1, avoidsOddRetype cfg toFloat time reqs d = true → relayInvariant d →
      runRequests cfg toFloat time reqs d = some d1 → relayInvariant d1 := by
  induction reqs with
  | nil =>
    intro d d1 _ hinv hrun
    simp only [runRequests, Option.some.injEq] at hrun
    rw [← hrun]
    exact hinv
  | cons p rest ih =>
    intro d d1 havoid hinv hrun
    obtain ⟨route, req⟩ := p
    simp only [runRequests] at hrun
    simp only [avoidsOddRetype, Bool.and_eq_true, Bool.not_eq_true'] at havoid
    obtain ⟨hok, hrest⟩ := havoid
    split at hrun
    · rename_i d2 r hstep
      simp only [hstep] at hrest
      exact ih d2 d1 hrest
        (step_keeps_relayInvariant cfg toFloat time route d req d2 r hok hstep hinv) hrun
    · simp at hrun

theorem relayInvariant_defaults (cfg : Config) (d : Device) :
    relayInvariant { d with switchEntry := defaultRegistry cfg } := by
  intro e he _
  obtain ⟨i, _, rfl⟩ := mem_defaultRegistry he
  exact Or.inl rfl

/-- C19, as the code has it: in every state reached from the default-initialization state by
a sequence of requests to any routes (switchstate, switchname, switchvalue and switchtype
among them) in which no PUT switchtype makes a relay of an entry whose value is neither 0.0
nor 1.0, every entry whose type is RelayNO or RelayNC has value 0.0 or 1.0.  A request to
switchtype that changes the device replaces the type of the addressed entry and keeps its
value and every other field. -/
theorem relay_invariant_unless_odd_retype (cfg : Config) (toFloat : CStr → F32) (time : CStr)
    (d d0 d1 : Device) (reqs : List (Route × Request)) (hfit : cfg.fits)
    (h0 : setDefaults cfg d = some d0)
    (havoid : avoidsOddRetype cfg toFloat time reqs d0 = true)
    (hrun : runRequests cfg toFloat time reqs d0 = some d1) :
    (∀ e ∈ d1.switchEntry, (e.type = SWITCH_RELAY_NO ∨ e.type = SWITCH_RELAY_NC) →
      (e.value = f32Zero ∨ e.value = f32One)) ∧
    (∀ (s s1 : Device) (req : Request) (r : Response),
      handlerSwitchType s req = some (s1, r) → s1 ≠ s →
        req.method = .HTTP_PUT ∧ r.code = 200 ∧
        ∃ e, s.switchEntry[requestId req]? = some e ∧
          s1 = { s with switchEntry := s.switchEntry.set (requestId req)
                          { e with type := toInt (serverArg req (cstr "Name")) } }) := by
  constructor
  · rw [setDefaults_eq cfg d hfit] at h0
    simp only [Option.some.injEq] at h0
    have hinv0 : relayInvariant d0 := by
      rw [← h0]
      intro e he _
      obtain ⟨i, _, rfl⟩ := mem_defaultRegistry he
      exact Or.inl rfl
    exact runRequests_keeps_relayInvariant cfg toFloat time reqs d0 d1 havoid hinv0 hrun
  · intro s s1 req r hs hne
    rcases handlerSwitchType_put s req s1 r hs with hsame | hchange
    · exact absurd hsame hne
    · exact hchange

theorem relay_invariant_unless_odd_retype_witness :
    sampleConfig.fits ∧ setDefaults sampleConfig sampleDevice = some defaultDevice ∧
    avoidsOddRetype sampleConfig sampleToFloat [] mixedSession defaultDevice = true ∧
    runRequests sampleConfig sampleToFloat [] mixedSession defaultDevice = some mixedDevice ∧
    ((∀ e ∈ mixedDevice.switchEntry, (e.type = SWITCH_RELAY_NO ∨ e.type = SWITCH_RELAY_NC) →
      (e.value = f32Zero ∨ e.value = f32One)) ∧
    (∀ (s s1 : Device) (req : Request) (r : Response),
      handlerSwitchType s req = some (s1, r) → s1 ≠ s →
        req.method = .HTTP_PUT ∧ r.code = 200 ∧
        ∃ e, s.switchEntry[requestId req]? = some e ∧
          s1 = { s with switchEntry := s.switchEntry.set (requestId req)
                          { e with type := toInt (serverArg req (cstr "Name")) } })) :=
  ⟨by decide, rfl, by decide, rfl,
   relay_invariant_unless_odd_retype sampleConfig sampleToFloat [] sampleDevice defaultDevice
     mixedDevice mixedSession (by decide) rfl (by decide) rfl⟩

/-- C19 as stated fails: from the default-initialization state, the requests PUT switchtype
(switch 0 becomes PWM), PUT switchvalue 0.5 and PUT switchtype (switch 0 becomes RelayNO
again) lead to a state in which the relay at index 0 has value 0.5. -/
theorem relay_invariant_broken_by_switchtype :
    setDefaults sampleConfig sampleDevice = some defaultDevice ∧
    (runRequests sampleConfig sampleToFloat [] retypeSession defaultDevice).map
        (fun d => d.switchEntry.map (fun e => (e.type, e.value)))
      = some [(SWITCH_RELAY_NO, f32Half), (SWITCH_RELAY_NO, f32Zero)] ∧
    f32Half ≠ f32Zero ∧ f32Half ≠ f32One := by
  refine ⟨rfl, ?_, ?_, ?_⟩ <;> decide

/-- The three requests of `retypeSession` are a session of the excluded kind: the last one
makes a relay of switch 0 while it holds 0.5; without it the session is of the allowed
kind. -/
theorem retypeSession_retypes_odd_value :
    avoidsOddRetype sampleConfig sampleToFloat [] retypeSession defaultDevice = false ∧
    avoidsOddRetype sampleConfig sampleToFloat [] (retypeSession.take 2) defaultDevice = true := by
  constructor <;> decide

/-! ## The response envelope -/

/-- C20 on the code: on a device whose `numSwitches` is the size of the registry every handler
answers.  On every route but status the answer is either 400 with the error InvalidValue or
InvalidOperation in the body, or 400 with an empty body (switchstate without `Id`), or 200
with error number 0.  The status handler answers 400 with error number 0, whatever the
request; its `switches` array lists the entries of the registry in index order, `numSwitches`
of them. -/
theorem response_envelope (cfg : Config) (toFloat : CStr → F32) (time : CStr) (route : Route)
    (d : Device) (req : Request) (hn : d.numSwitches = d.switchEntry.length)
    (hr : isInt32 d.numSwitches) :
    ∃ d1 r, route.handler cfg toFloat time d req = some (d1, r) ∧
      (route ≠ .status →
        (r.code = 400 ∧ (r.carriesError ∨ r.message = none)) ∨
        (r.code = 200 ∧ r.errorNumber = some (.int Success))) ∧
      (route = .status →
        r.code = 400 ∧ r.errorNumber = some (.int Success) ∧
        r.message.bind (fun root => jsonGet root "switches")
          = some (.array (d.switchEntry.map statusEntry)) ∧
        ((d.switchEntry.map statusEntry).length : Int) = d.numSwitches) := by
  by_cases hroute : route = .status
  · subst hroute
    refine ⟨_, _, handlerStatus_eq time d req (by rw [hn]; simp), fun hne => absurd rfl hne,
      fun _ => ⟨rfl, (errorNumber_status _ _ _ _ _).1, (errorNumber_status _ _ _ _ _).2, ?_⟩⟩
    rw [List.length_map, hn]
  · obtain ⟨d1, r, h⟩ := route_total cfg toFloat time route d req hn hr
    refine ⟨d1, r, h, fun _ => ?_, fun hst => absurd hst hroute⟩
    rcases route_outcome cfg toFloat time route d req d1 r h hroute with hA | hB | hC
    · exact Or.inl ⟨hA.2.1, hA.2.2⟩
    · exact Or.inr ⟨hB.2.1, hB.2.2⟩
    · exact Or.inr ⟨hC.2.1, hC.2.2.1⟩

theorem response_envelope_witness :
    sampleDevice.numSwitches = sampleDevice.switchEntry.length ∧
    isInt32 sampleDevice.numSwitches ∧
    ∃ d1 r, Route.handler sampleConfig sampleToFloat (cstr "12:00:00") Route.status sampleDevice
        { method := .HTTP_GET, args := [] } = some (d1, r) ∧
      (Route.status ≠ Route.status →
        (r.code = 400 ∧ (r.carriesError ∨ r.message = none)) ∨
        (r.code = 200 ∧ r.errorNumber = some (.int Success))) ∧
      (Route.status = Route.status →
        r.code = 400 ∧ r.errorNumber = some (.int Success) ∧
        r.message.bind (fun root => jsonGet root "switches")
          = some (.array (sampleDevice.switchEntry.map statusEntry)) ∧
        ((sampleDevice.switchEntry.map statusEntry).length : Int) = sampleDevice.numSwitches) :=
  ⟨by decide, by decide,
   response_envelope sampleConfig sampleToFloat (cstr "12:00:00") Route.status sampleDevice
     { method := .HTTP_GET, args := [] } (by decide) (by decide)⟩

/-- The request `GET status` on the sample device is answered with status 400 and error
number 0. -/
theorem handlerStatus_get :
    (handlerStatus (cstr "12:00:00") sampleDevice { method := .HTTP_GET, args := [] }).map
        (fun p => (p.2.code, p.2.errorNumber))
      = some (400, some (.int 0)) := by
  decide

/-! ## The read-only endpoints -/

theorem value_keys_lower (c t : Nat) (name : String) (e0 : Int) (m0 : CStr) (v : JsonValue) :
    jsonGet (jsonSet (jsonResponseBuilder c t name e0 m0) "value" v) "Value" = none ∧
    jsonGet (jsonSet (jsonResponseBuilder c t name e0 m0) "value" v) "value" = some v := by
  simp [jsonSet, jsonGet, jsonResponseBuilder]

/-- C21 on the code: for an identifier inside the registry and a request that carries
`Id` = that identifier, canwrite and switchdescription answer 200 with `Value` = `writeable`
and `description` of that entry, and maxswitch answers 200 with `Value` = `numSwitches`.
`handlerMaxSwitchValue` and `handlerSwitchStep` answer 200 with `max` and `step` of that entry
under the key `value`, and the response has no field `Value`.  `handlerMinSwitchValue` reads
the argument `"id"`: when the request has no argument of exactly that name it answers 200
with `min` of entry 0. -/
theorem read_endpoints (d : Device) (id : Nat) (e : SwitchEntry) (req : Request)
    (hn : d.numSwitches = d.switchEntry.length) (hr : isInt32 d.numSwitches)
    (he : d.switchEntry[id]? = some e) (hid : hasArgIC (cstr "Id") req false = true)
    (hidv : toInt (serverArg req (cstr "Id")) = id) :
    (∃ r, handlerCanWrite d req = some (d, r) ∧ r.code = 200 ∧
      r.message.bind (fun root => jsonGet root "Value") = some (.bool e.writeable)) ∧
    (∃ r, handlerSwitchDescription d req = some (d, r) ∧ r.code = 200 ∧
      r.message.bind (fun root => jsonGet root "Value") = some (.str e.description)) ∧
    (∃ r, handlerMaxswitch d req = some (d, r) ∧ r.code = 200 ∧
      r.message.bind (fun root => jsonGet root "Value") = some (.int d.numSwitches)) ∧
    (∃ r, handlerMaxSwitchValue d req = some (d, r) ∧ r.code = 200 ∧
      r.message.bind (fun root => jsonGet root "Value") = none ∧
      r.message.bind (fun root => jsonGet root "value") = some (.float e.max)) ∧
    (∃ r, handlerSwitchStep d req = some (d, r) ∧ r.code = 200 ∧
      r.message.bind (fun root => jsonGet root "Value") = none ∧
      r.message.bind (fun root => jsonGet root "value") = some (.float e.step)) ∧
    (serverArg req (cstr "id") = [] → ∀ e0, d.switchEntry[0]? = some e0 →
      ∃ r, handlerMinSwitchValue d req = some (d, r) ∧ r.code = 200 ∧
        r.message.bind (fun root => jsonGet root "Value") = some (.float e0.min)) := by
  have hin := int_id_in_range hn he
  obtain ⟨hbits, hlt⟩ := uint32_id_in_range hn hr he
  refine ⟨?_, ?_, ?_, ?_, ?_, ?_⟩
  · simp only [handlerCanWrite, hid, if_true, hidv, hin, and_self, Int.toNat_ofNat, he]
    exact ⟨_, rfl, rfl, (errorNumber_value _ _ _ _ _ _).2⟩
  · simp only [handlerSwitchDescription, hid, if_true, hidv, hin, and_self, Int.toNat_ofNat, he]
    exact ⟨_, rfl, rfl, (errorNumber_value _ _ _ _ _ _).2⟩
  · exact ⟨_, rfl, rfl, (errorNumber_value _ _ _ _ _ _).2⟩
  · simp only [handlerMaxSwitchValue, hid, if_true, hidv, hin, and_self, Int.toNat_ofNat, he]
    exact ⟨_, rfl, rfl, (value_keys_lower _ _ _ _ _ _).1, (value_keys_lower _ _ _ _ _ _).2⟩
  · simp only [handlerSwitchStep, hid, if_true, hidv, hbits, hlt, he]
    exact ⟨_, rfl, rfl, (value_keys_lower _ _ _ _ _ _).1, (value_keys_lower _ _ _ _ _ _).2⟩
  · intro hexact e0 he0
    have hlow : hasArgIC (cstr "id") req false = true := by rw [hasArgIC_id_lower, hid]
    have hin0 := int_id_in_range hn he0
    simp only [handlerMinSwitchValue, hlow, if_true, hexact, toInt_nil, Int.toNat_zero, he0]
    have hin0' : (0 : Int) ≤ 0 ∧ (0 : Int) < d.numSwitches := by
      simpa using hin0
    simp only [hin0', and_self, if_true]
    exact ⟨_, rfl, rfl, (errorNumber_value _ _ _ _ _ _).2⟩

theorem read_endpoints_witness :
    sampleDevice.numSwitches = sampleDevice.switchEntry.length ∧
    isInt32 sampleDevice.numSwitches ∧
    sampleDevice.switchEntry[1]? = some
      { description := cstr "Flat panel", switchName := cstr "Panel", writeable := true,
        type := SWITCH_PWM, pin := 1, min := f32Zero, max := 1149239296, step := f32One,
        value := f32Zero } ∧
    (∃ r, handlerMaxSwitchValue sampleDevice
        { method := .HTTP_GET, args := [(cstr "Id", cstr "1")] } = some (sampleDevice, r) ∧
      r.code = 200 ∧
      r.message.bind (fun root => jsonGet root "Value") = none ∧
      r.message.bind (fun root => jsonGet root "value") = some (.float 1149239296)) :=
  ⟨by decide, by decide, by decide,
   (read_endpoints sampleDevice 1
     { description := cstr "Flat panel", switchName := cstr "Panel", writeable := true,
       type := SWITCH_PWM, pin := 1, min := f32Zero, max := 1149239296, step := f32One,
       value := f32Zero }
     { method := .HTTP_GET, args := [(cstr "Id", cstr "1")] }
     (by decide) (by decide) (by decide) (by decide) (by decide)).2.2.2.1⟩

/-- The request `GET maxswitchvalue?Id=1` on the sample device: the answer has the key
`value` and no key `Value`. -/
theorem handlerMaxSwitchValue_id_1 :
    (handlerMaxSwitchValue sampleDevice
        { method := .HTTP_GET, args := [(cstr "Id", cstr "1")] }).map (fun p => p.2)
      = some { code := 200,
               message := some [("ClientID", .int 0), ("ClientTransactionID", .int 0),
                 ("Method", .str (cstr "MaxSwitchValue")), ("ErrorNumber", .int 0),
                 ("ErrorMessage", .str []), ("value", .float 1149239296)] } := by
  decide

/-! ## copySwitch -/

/-- C22 on the code: for a source whose name and description are shorter than
`MAX_NAME_LENGTH`, `copySwitch` leaves the source as it was and makes the target equal to
the source in description, name, writeable, min, max, step and value; the type of the target
becomes RelayNO whatever the type of the source, and `pin` of the target is not touched. -/
theorem copySwitch_fields (maxLen : Nat) (sourceSe targetSe : SwitchEntry)
    (hname : sourceSe.switchName.length < maxLen)
    (hdesc : sourceSe.description.length < maxLen) :
    ∃ t, copySwitch maxLen sourceSe targetSe = some (sourceSe, t) ∧
      t.description = sourceSe.description ∧ t.switchName = sourceSe.switchName ∧
      t.writeable = sourceSe.writeable ∧ t.min = sourceSe.min ∧ t.max = sourceSe.max ∧
      t.step = sourceSe.step ∧ t.value = sourceSe.value ∧
      t.type = SWITCH_RELAY_NO ∧ t.pin = targetSe.pin ∧
      (sourceSe.type ≠ SWITCH_RELAY_NO → t.type ≠ sourceSe.type) := by
  simp only [copySwitch, strncpyNew, hname, hdesc, if_true]
  exact ⟨_, rfl, rfl, rfl, rfl, rfl, rfl, rfl, rfl, rfl, rfl, fun h heq => h heq.symm⟩

theorem copySwitch_fields_witness :
    pwmEntry.switchName.length < 25 ∧ pwmEntry.description.length < 25 ∧
    ∃ t, copySwitch 25 pwmEntry (freshSwitch 7) = some (pwmEntry, t) ∧
      t.description = pwmEntry.description ∧ t.switchName = pwmEntry.switchName ∧
      t.writeable = pwmEntry.writeable ∧ t.min = pwmEntry.min ∧ t.max = pwmEntry.max ∧
      t.step = pwmEntry.step ∧ t.value = pwmEntry.value ∧
      t.type = SWITCH_RELAY_NO ∧ t.pin = (freshSwitch 7).pin ∧
      (pwmEntry.type ≠ SWITCH_RELAY_NO → t.type ≠ pwmEntry.type) :=
  ⟨by decide, by decide, copySwitch_fields 25 pwmEntry (freshSwitch 7) (by decide) (by decide)⟩

/-- The call `copySwitch` on a PWM source: the target comes out as a RelayNO entry, with the
pin it had. -/
theorem copySwitch_pwm :
    (copySwitch 25 pwmEntry (freshSwitch 7)).map (fun p => (p.2.type, p.2.pin, pwmEntry.type))
      = some (SWITCH_RELAY_NO, 7, SWITCH_PWM) ∧ SWITCH_PWM ≠ SWITCH_RELAY_NO := by
  constructor <;> decide

/-! ## The name buffer during a PUT switchname -/

theorem replaceNameSteps_eq (maxLen : Nat) (oldName x : CStr) (hx : x.length < maxLen) :
    replaceNameSteps maxLen (.live oldName) x =
      some [NameBuffer.released, NameBuffer.live [], NameBuffer.live x] := by
  simp only [replaceNameSteps, strcpyNew, hx, if_true]

/-- C23, as the code has it: in a successful PUT switchname the handler releases the old name
buffer first, then allocates the new one, then fills it.  After the first of the three steps
the name of the entry refers to the released buffer, after the second to a live empty
buffer, after the third to a live buffer with the new name, and that name is the one the
handler leaves in the entry. -/
theorem switchname_replace_order (cfg : Config) (d : Device) (id : Nat) (e : SwitchEntry)
    (x : CStr) (req : Request) (hn : d.numSwitches = d.switchEntry.length)
    (he : d.switchEntry[id]? = some e) (hput : req.method = .HTTP_PUT)
    (hid : hasArgIC (cstr "Id") req false = true)
    (hidv : toInt (serverArg req (cstr "Id")) = id)
    (hname : hasArgIC (cstr "Name") req false = true)
    (hx : serverArg req (cstr "Name") = x) (hshort : x.length < cfg.MAX_NAME_LENGTH) :
    ∃ d1 r e1, handlerSwitchName cfg d req = some (d1, r) ∧ r.code = 200 ∧
      d1.switchEntry[id]? = some e1 ∧
      replaceNameSteps cfg.MAX_NAME_LENGTH (.live e.switchName) x =
        some [NameBuffer.released, NameBuffer.live [], NameBuffer.live e1.switchName] ∧
      e1.switchName = x := by
  have hputres := handlerSwitchName_put_short cfg d id e req hn he hput hid hidv hname
    (by rw [hx]; exact hshort)
  rw [hx] at hputres
  exact ⟨_, _, _, hputres, rfl, List.getElem?_set_self (lt_length_of_getElem? he),
    replaceNameSteps_eq _ _ _ hshort, rfl⟩

theorem switchname_replace_order_witness :
    sampleDevice.numSwitches = sampleDevice.switchEntry.length ∧
    sampleDevice.switchEntry[1]? = some
      { description := cstr "Flat panel", switchName := cstr "Panel", writeable := true,
        type := SWITCH_PWM, pin := 1, min := f32Zero, max := 1149239296, step := f32One,
        value := f32Zero } ∧
    (cstr "Lamp").length < sampleConfig.MAX_NAME_LENGTH ∧
    ∃ d1 r e1,
      handlerSwitchName sampleConfig sampleDevice
        { method := .HTTP_PUT, args := [(cstr "Id", cstr "1"), (cstr "Name", cstr "Lamp")] }
        = some (d1, r) ∧ r.code = 200 ∧
      d1.switchEntry[1]? = some e1 ∧
      replaceNameSteps sampleConfig.MAX_NAME_LENGTH (.live (cstr "Panel")) (cstr "Lamp") =
        some [NameBuffer.released, NameBuffer.live [], NameBuffer.live e1.switchName] ∧
      e1.switchName = cstr "Lamp" :=
  ⟨by decide, by decide, by decide,
   switchname_replace_order sampleConfig sampleDevice 1
     { description := cstr "Flat panel", switchName := cstr "Panel", writeable := true,
       type := SWITCH_PWM, pin := 1, min := f32Zero, max := 1149239296, step := f32One,
       value := f32Zero } (cstr "Lamp")
     { method := .HTTP_PUT, args := [(cstr "Id", cstr "1"), (cstr "Name", cstr "Lamp")] }
     (by decide) (by decide) (by decide) (by decide) (by decide) (by decide) (by decide)
     (by decide)⟩

/-- C23 as stated fails: replacing the name "Panel" by "Lamp", the first of the three steps
leaves the name of the entry referring to a released buffer. -/
theorem switchname_name_released_first :
    replaceNameSteps 25 (.live (cstr "Panel")) (cstr "Lamp") =
      some [NameBuffer.released, NameBuffer.live [], NameBuffer.live (cstr "Lamp")] ∧
    ¬ (∀ steps, replaceNameSteps 25 (.live (cstr "Panel")) (cstr "Lamp") = some steps →
        ∀ b ∈ steps, b ≠ NameBuffer.released ∧ b ≠ NameBuffer.null) := by
  refine ⟨by decide, fun h => ?_⟩
  have hfirst := h [NameBuffer.released, NameBuffer.live [], NameBuffer.live (cstr "Lamp")]
    (by decide) NameBuffer.released (by simp)
  exact hfirst.1 rfl

/-! ## getUriField -/

theorem indexOfDoubleSlash_ge (s : CStr) : -1 ≤ indexOfDoubleSlash s := by
  induction s with
  | nil => simp [indexOfDoubleSlash]
  | cons c cs ih =>
    simp only [indexOfDoubleSlash]
    split_ifs <;> omega

theorem indexOfDoubleSlash_nonneg_iff (s : CStr) :
    0 ≤ indexOfDoubleSlash s ↔ containsDoubleSlash s := by
  induction s with
  | nil =>
    constructor
    · intro h
      simp [indexOfDoubleSlash] at h
    · rintro ⟨pre, post, h⟩
      cases pre <;> simp at h
  | cons c cs ih =>
    have hge := indexOfDoubleSlash_ge cs
    constructor
    · intro h
      simp only [indexOfDoubleSlash] at h
      by_cases hhere : c = 47 ∧ cs.head? = some 47
      · obtain ⟨hc, hhead⟩ := hhere
        cases cs with
        | nil => simp at hhead
        | cons c2 rest =>
          simp only [List.head?_cons, Option.some.injEq] at hhead
          exact ⟨[], rest, by rw [hc, hhead]; rfl⟩
      · rw [if_neg hhere] at h
        by_cases hneg : indexOfDoubleSlash cs < 0
        · rw [if_pos hneg] at h
          omega
        · obtain ⟨pre, post, hcs⟩ := ih.mp (by omega)
          exact ⟨c :: pre, post, by rw [hcs]; rfl⟩
    · rintro ⟨pre, post, h⟩
      simp only [indexOfDoubleSlash]
      by_cases hhere : c = 47 ∧ cs.head? = some 47
      · rw [if_pos hhere]
      · rw [if_neg hhere]
        cases pre with
        | nil =>
          simp only [List.nil_append, List.cons.injEq] at h
          exact absurd ⟨h.1, by rw [h.2]; rfl⟩ hhere
        | cons a pre2 =>
          simp only [List.cons_append, List.cons.injEq] at h
          have hcs : 0 ≤ indexOfDoubleSlash cs := ih.mpr ⟨pre2, post, h.2⟩
          have hnot : ¬ indexOfDoubleSlash cs < 0 := by omega
          rw [if_neg hnot]
          omega

theorem splitTokens_nil : splitTokens [] = [] := by
  simp [splitTokens, splitPieces]

theorem splitTokens_delim (c : Nat) (cs : CStr) (hc : isUriDelim c = true) :
    splitTokens (c :: cs) = splitTokens cs := by
  simp [splitTokens, splitPieces, hc]

theorem splitTokens_dropWhile (s : CStr) :
    splitTokens (s.dropWhile isUriDelim) = splitTokens s := by
  induction s with
  | nil => rfl
  | cons c cs ih =>
    by_cases hc : isUriDelim c = true
    · rw [List.dropWhile_cons_of_pos hc, ih, splitTokens_delim c cs hc]
    · rw [List.dropWhile_cons_of_neg hc]

theorem splitPieces_token (s : CStr) :
    splitPieces s =
      s.takeWhile (fun x => !isUriDelim x) ::
        (match s.dropWhile (fun x => !isUriDelim x) with
         | [] => []
         | _ :: rest => splitPieces rest) := by
  induction s with
  | nil => rfl
  | cons c cs ih =>
    by_cases hc : isUriDelim c = true
    · simp [splitPieces, hc]
    · have hc2 : isUriDelim c = false := by simpa using hc
      simp only [splitPieces, hc2, Bool.false_eq_true, if_false, Bool.not_false,
        List.takeWhile_cons_of_pos, List.dropWhile_cons_of_pos]
      rw [ih]

theorem splitTokens_token (c : Nat) (cs : CStr) (hc : isUriDelim c = false) :
    splitTokens (c :: cs) =
      (c :: cs).takeWhile (fun x => !isUriDelim x) ::
        splitTokens (((c :: cs).dropWhile (fun x => !isUriDelim x)).drop 1) := by
  have hhead : (c :: cs).takeWhile (fun x => !isUriDelim x) ≠ [] := by
    simp [List.takeWhile_cons, hc]
  unfold splitTokens
  rw [splitPieces_token (c :: cs)]
  rw [List.filter_cons_of_pos (by simpa using hhead)]
  congr 1
  cases hrest : (c :: cs).dropWhile (fun x => !isUriDelim x) with
  | nil => simp [splitPieces]
  | cons a rest => simp

theorem strtokUri_none {p : CStr} (h : strtokUri p = none) : splitTokens p = [] := by
  unfold strtokUri at h
  split at h
  · rename_i hdrop
    rw [← splitTokens_dropWhile, hdrop, splitTokens_nil]
  · simp at h

theorem length_dropWhile_le (f : Nat → Bool) (s : CStr) : (s.dropWhile f).length ≤ s.length := by
  induction s with
  | nil => simp
  | cons c cs ih =>
    by_cases hc : f c = true
    · rw [List.dropWhile_cons_of_pos hc]
      simp only [List.length_cons]
      omega
    · rw [List.dropWhile_cons_of_neg hc]

theorem strtokUri_some {p tok rest : CStr} (h : strtokUri p = some (tok, rest)) :
    splitTokens p = tok :: splitTokens rest ∧ rest.length < p.length := by
  unfold strtokUri at h
  split at h
  · simp at h
  · rename_i c cs hdrop
    simp only [Option.some.injEq, Prod.mk.injEq] at h
    obtain ⟨htok, hrest⟩ := h
    have hc : isUriDelim c = false := by
      have hhead := List.head_dropWhile_not isUriDelim p (by rw [hdrop]; simp)
      simp only [hdrop, List.head_cons] at hhead
      simpa using hhead
    constructor
    · rw [← splitTokens_dropWhile, hdrop, splitTokens_token c cs hc, htok, hrest]
    · have h1 := length_dropWhile_le isUriDelim p
      have h2 := length_dropWhile_le (fun x => !isUriDelim x) (c :: cs)
      have h3 : ((c :: cs).dropWhile (fun x => !isUriDelim x)).length < (c :: cs).length := by
        rw [List.dropWhile_cons_of_pos (by simp [hc])]
        have := length_dropWhile_le (fun x => !isUriDelim x) cs
        simp only [List.length_cons]
        omega
      rw [← hrest, List.length_drop]
      rw [hdrop] at h1
      omega

theorem uriFieldLoop_eq (searchIndex : Int) (fuel : Nat) :
    ∀ (p : CStr) (chunkCtr : Int) (status : Bool) (outRef : CStr), p.length < fuel →
      uriFieldLoop searchIndex fuel p chunkCtr status outRef =
        pickToken searchIndex (splitTokens p) chunkCtr status outRef := by
  induction fuel with
  | zero => intro p _ _ _ h; omega
  | succ n ih =>
    intro p chunkCtr status outRef hlen
    simp only [uriFieldLoop]
    cases htok : strtokUri p with
    | none => simp only [strtokUri_none htok, pickToken]
    | some pair =>
      obtain ⟨tok, rest⟩ := pair
      obtain ⟨hsplit, hshorter⟩ := strtokUri_some htok
      simp only [hsplit, pickToken]
      split_ifs
      · exact ih rest _ _ _ (by omega)
      · exact ih rest _ _ _ (by omega)

theorem pickToken_found (searchIndex : Int) (toks : List CStr) :
    ∀ (chunkCtr : Int) (outRef : CStr),
      pickToken searchIndex toks chunkCtr true outRef = (true, outRef) := by
  induction toks with
  | nil => intro _ _; rfl
  | cons tok toks ih =>
    intro chunkCtr outRef
    simp only [pickToken, Bool.true_eq_false, and_false, if_false]
    exact ih _ _

theorem pickToken_search (k : Nat) (outRef : CStr) (toks : List CStr) :
    ∀ (ctr : Nat), ctr ≤ k →
      pickToken (k : Int) toks (ctr : Int) false outRef =
        match toks[k - ctr]? with
        | some tok => (true, tok)
        | none => (false, outRef) := by
  induction toks with
  | nil => intro ctr _; simp [pickToken]
  | cons tok toks ih =>
    intro ctr hle
    simp only [pickToken]
    by_cases hhere : ctr = k
    · subst hhere
      simp only [and_self, if_true, Nat.sub_self, List.getElem?_cons_zero]
      exact pickToken_found _ toks _ _
    · have hne : ¬ ((ctr : Int) = (k : Int)) := by omega
      simp only [hne, false_and, if_false]
      have hstep := ih (ctr + 1) (by omega)
      have hidx : k - ctr = (k - (ctr + 1)) + 1 := by omega
      rw [hidx, List.getElem?_cons_succ]
      exact_mod_cast hstep

theorem pickToken_past (searchIndex : Int) (outRef : CStr) (toks : List CStr) :
    ∀ (chunkCtr : Int), searchIndex < chunkCtr →
      pickToken searchIndex toks chunkCtr false outRef = (false, outRef) := by
  induction toks with
  | nil => intro _ _; rfl
  | cons tok toks ih =>
    intro chunkCtr hlt
    have hne : ¬ chunkCtr = searchIndex := by omega
    simp only [pickToken, hne, false_and, if_false]
    exact ih (chunkCtr + 1) (by omega)

/-- What `getUriField` returns for a position `k`: the token at position `k` of the split
text when the text contains "//" and has that many tokens, else `false` with `outRef` as it
was. -/
theorem getUriField_eq (inString : CStr) (k : Nat) (outRef : CStr) :
    getUriField inString k outRef =
      if 0 ≤ indexOfDoubleSlash inString then
        match (splitTokens inString)[k]? with
        | some tok => (true, tok)
        | none => (false, outRef)
      else (false, outRef) := by
  unfold getUriField
  by_cases h : 0 ≤ indexOfDoubleSlash inString
  · have hge : indexOfDoubleSlash inString ≥ 0 := h
    rw [if_pos hge, if_pos h, uriFieldLoop_eq _ _ _ _ _ _ (Nat.lt_succ_self _)]
    have hsearch := pickToken_search k outRef (splitTokens inString) 0 (Nat.zero_le _)
    simpa using hsearch
  · have hge : ¬ indexOfDoubleSlash inString ≥ 0 := h
    rw [if_neg hge, if_neg h]

/-- C24: for a position `k` (0-based), `getUriField` returns true exactly when the text
contains the substring "//" and splitting it on '/' and ':' (no empty tokens) yields more
than `k` tokens; when it returns true `outRef` is the token at position `k`, and when it
returns false `outRef` is as it was. -/
theorem getUriField_spec (inString : CStr) (k : Nat) (outRef : CStr) :
    ((getUriField inString k outRef).1 = true ↔
      containsDoubleSlash inString ∧ k < (splitTokens inString).length) ∧
    ((getUriField inString k outRef).1 = true →
      (splitTokens inString)[k]? = some (getUriField inString k outRef).2) ∧
    ((getUriField inString k outRef).1 = false →
      (getUriField inString k outRef).2 = outRef) := by
  rw [getUriField_eq]
  by_cases hslash : 0 ≤ indexOfDoubleSlash inString
  · have hcontains := (indexOfDoubleSlash_nonneg_iff inString).mp hslash
    rw [if_pos hslash]
    cases htok : (splitTokens inString)[k]? with
    | none =>
      have hlen : (splitTokens inString).length ≤ k := List.getElem?_eq_none_iff.mp htok
      refine ⟨⟨fun h => ?_, fun h => ?_⟩, fun h => ?_, fun _ => rfl⟩
      · simp at h
      · omega
      · simp at h
    | some tok =>
      have hlen : k < (splitTokens inString).length := lt_length_of_getElem? htok
      refine ⟨⟨fun _ => ⟨hcontains, hlen⟩, fun _ => rfl⟩, fun _ => rfl, fun h => ?_⟩
      simp at h
  · have hnot : ¬ containsDoubleSlash inString :=
      fun hc => hslash ((indexOfDoubleSlash_nonneg_iff inString).mpr hc)
    rw [if_neg hslash]
    refine ⟨⟨fun h => ?_, fun h => absurd h.1 hnot⟩, fun h => ?_, fun _ => rfl⟩
    · simp at h
    · simp at h

/-- A negative `searchIndex` is never found: the result is false and `outRef` is as it
was. -/
theorem getUriField_negative (inString : CStr) (searchIndex : Int) (outRef : CStr)
    (hneg : searchIndex < 0) : getUriField inString searchIndex outRef = (false, outRef) := by
  unfold getUriField
  split_ifs
  · rw [uriFieldLoop_eq _ _ _ _ _ _ (Nat.lt_succ_self _)]
    exact pickToken_past _ _ _ _ hneg
  · rfl

/-- The tokens of `http://h:80/switch/0/x` are `http`, `h`, `80`, `switch`, `0`, `x`: token 4
is `0`, there is no token 6, and a path without "//" gives nothing. -/
theorem getUriField_examples :
    getUriField (cstr "http://h:80/switch/0/x") 4 [] = (true, cstr "0") ∧
    getUriField (cstr "http://h:80/switch/0/x") 3 [] = (true, cstr "switch") ∧
    getUriField (cstr "http://h:80/switch/0/x") 6 (cstr "old") = (false, cstr "old") ∧
    getUriField (cstr "/switch/0/x") 1 (cstr "old") = (false, cstr "old") := by
  refine ⟨?_, ?_, ?_, ?_⟩ <;> decide

end AscomSwitch
